import Mathlib

/-!
# ISEA grid addressing: a shallow embedding of `proj/isea.hpp`

The C++ template parameter `T` (the calculation type, `double` in practice) is
kept as a type parameter: every definition works over any linearly ordered
field with a floor function, so it can be run over `ℚ` and reasoned about
over `ℝ`.  Machine `int`s are unbounded `Int`s; C integer division and
remainder truncate toward zero (`Int.tdiv`, `Int.tmod`).  Functions that
write through pointers return the written values.
-/

namespace Isea

/-! ## Numeric helpers -/

/-- C conversion `(int) x` of a real number: truncation toward zero. -/
def c_int {T : Type} [LinearOrderedField T] [FloorRing T] (x : T) : Int :=
  if 0 ≤ x then ⌊x⌋ else ⌈x⌉

/-- The value of `(int)(pow(T(a), T(r)) + 0.5)` for integers `a` and `r`:
the power is the exact rational `a ^ r`. -/
def pow_round (a r : Int) : Int :=
  c_int (((a : ℚ) ^ r) + 0.5)

/-- The value of `(int)(pow(T(a), T(r / 2.0)) + 0.5)` for `a > 0`: the real
power `a ^ (r / 2)` is the square root of the rational `a ^ r`, and
`⌊√q + 1/2⌋ = (⌊√⌊4 q⌋⌋ + 1) / 2`, the right-hand side in integer arithmetic. -/
def pow_half_round (a r : Int) : Int :=
  (((Nat.sqrt ⌊4 * ((a : ℚ) ^ r)⌋₊ + 1) / 2 : Nat) : Int)

/-- The math library the code calls: the constant pi and the two
trigonometric functions used by the addressing stages. -/
structure Libm (T : Type) where
  pi : T
  cos : T → T
  sin : T → T

section Stages

variable {T : Type} [LinearOrderedField T] [FloorRing T]

/-- Degrees to radians factor `geometry::math::d2r<T>()`. -/
def d2r (M : Libm T) : T := M.pi / 180

/-- The constant `geometry::math::two_pi<T>()`. -/
def two_pi (M : Libm T) : T := 2 * M.pi

/-- The angle `DEG30<T>()`. -/
def DEG30 (M : Libm T) : T := 30 * d2r M

/-- The constant `ISEA_SCALE`, sqrt(5)/pi. -/
def ISEA_SCALE : T := 0.8301572857837594396028083

/-- The constant `TABLE_G`. -/
def TABLE_G : T := 0.6615845383

/-- The constant `TABLE_H`. -/
def TABLE_H : T := 0.1909830056

/-- The predicate `DOWNTRI(tri)`. -/
def DOWNTRI (tri : Int) : Bool :=
  decide (((tri - 1).tdiv 5).tmod 2 = 1)

/-! ## Hexagon coordinates -/

/-- The struct `hex`: `iso` non-zero means cube form, zero means offset form. -/
structure hex where
  iso : Int
  x : Int
  y : Int
  z : Int
deriving DecidableEq, Repr

/-- The function `hex_xy`: cube form to offset form (the C function always returns 1). -/
def hex_xy (h : hex) : hex :=
  if h.iso = 0 then h
  else if h.x ≥ 0 then
    { h with y := -h.y - (h.x + 1).tdiv 2, iso := 0 }
  else
    { h with y := -h.y - h.x.tdiv 2, iso := 0 }

/-- The function `hex_iso`: offset form to cube form (the C function always returns 1). -/
def hex_iso (h : hex) : hex :=
  if h.iso ≠ 0 then h
  else
    let y1 := if h.x ≥ 0 then -h.y - (h.x + 1).tdiv 2 else -h.y - h.x.tdiv 2
    { iso := 1, x := h.x, y := y1, z := -h.x - y1 }

/-- First part of `hexbin2`: the rotated, sheared coordinates divided by the
hexagon width (the values of `x` and `y` when `z = -x - y` is computed). -/
def hexbin2_scale (M : Libm T) (width x y : T) : T × T :=
  let x1 := x / M.cos (DEG30 M)
  let y1 := y - x1 / 2.0
  (x1 / width, y1 / width)

/-- The three independent roundings `ix, iy, iz` of `hexbin2`, from the scaled
coordinates `x`, `y` and `z = -x - y`. -/
def hexbin2_rounded (x y : T) : Int × Int × Int :=
  (⌊x + 0.5⌋, ⌊y + 0.5⌋, ⌊(-x - y) + 0.5⌋)

/-- Second part of `hexbin2`: rounding of the three cube axes and the
correction of one axis when the roundings do not sum to zero.  The result is
the final `(ix, iy, iz)`. -/
def hexbin2_cube (x y : T) : Int × Int × Int :=
  let z := -x - y
  let ix : Int := ⌊x + 0.5⌋
  let iy : Int := ⌊y + 0.5⌋
  let iz : Int := ⌊z + 0.5⌋
  let s := ix + iy + iz
  if s ≠ 0 then
    let abs_dx := |(ix : T) - x|
    let abs_dy := |(iy : T) - y|
    let abs_dz := |(iz : T) - z|
    if abs_dx ≥ abs_dy ∧ abs_dx ≥ abs_dz then (ix - s, iy, iz)
    else if abs_dy ≥ abs_dx ∧ abs_dy ≥ abs_dz then (ix, iy - s, iz)
    else (ix, iy, iz - s)
  else (ix, iy, iz)

/-- The function `hexbin2`: returns `(ix * 100 + iy, *i, *j)`. -/
def hexbin2 (M : Libm T) (width x y : T) : Int × Int × Int :=
  let p := hexbin2_scale M width x y
  let c := hexbin2_cube p.1 p.2
  let h := hex_xy { iso := 1, x := c.1, y := c.2.1, z := c.2.2 }
  (c.1 * 100 + c.2.1, h.x, h.y)

/-! ## Grid configuration and points -/

/-- The enum `isea_address_form`. -/
inductive isea_address_form where
  | ISEA_GEO | ISEA_Q2DI | ISEA_SEQNUM | ISEA_INTERLEAVE | ISEA_PLANE
  | ISEA_Q2DD | ISEA_PROJTRI | ISEA_VERTEX2DD | ISEA_HEX
deriving DecidableEq, Repr

/-- The struct `isea_dgg`; `serial` is `unsigned long` in C, unbounded here. -/
structure isea_dgg (T : Type) where
  polyhedron : Int
  o_lat : T
  o_lon : T
  o_az : T
  pole : Int
  topology : Int
  aperture : Int
  resolution : Int
  radius : T
  output : isea_address_form
  triangle : Int
  quad : Int
  serial : Int

/-- The struct `isea_pt`. -/
structure isea_pt (T : Type) where
  x : T
  y : T

/-- The struct `isea_geo`. -/
structure isea_geo (T : Type) where
  lon : T
  lat : T

/-! ## Planar placement -/

/-- First normalisation loop of `isea_rotate`: `while (rad >= two_pi) rad -= two_pi`. -/
def isea_rotate_down (twopi : T) : Nat → T → T
  | 0, rad => rad
  | n + 1, rad => if rad ≥ twopi then isea_rotate_down twopi n (rad - twopi) else rad

/-- Second normalisation loop of `isea_rotate`: `while (rad <= -two_pi) rad += two_pi`. -/
def isea_rotate_up (twopi : T) : Nat → T → T
  | 0, rad => rad
  | n + 1, rad => if rad ≤ -twopi then isea_rotate_up twopi n (rad + twopi) else rad

/-- The function `isea_rotate`.  Each loop gets `⌊|rad| / two_pi⌋ + 1` rounds,
which is more than it can use when `two_pi > 0`. -/
def isea_rotate (M : Libm T) (pt : isea_pt T) (degrees : T) : isea_pt T :=
  let rad0 := -degrees * d2r M
  let rad1 := isea_rotate_down (two_pi M) (⌊|rad0| / two_pi M⌋₊ + 1) rad0
  let rad := isea_rotate_up (two_pi M) (⌊|rad1| / two_pi M⌋₊ + 1) rad1
  { x := pt.x * M.cos rad + pt.y * M.sin rad
    y := -pt.x * M.sin rad + pt.y * M.cos rad }

/-- The function `isea_triangle_xy`; `none` is the exception of the default case. -/
def isea_triangle_xy (triangle : Int) : Option (isea_pt T) :=
  let Rprime : T := 0.91038328153090290025
  let t := (triangle - 1).tmod 20
  let cx0 : T := TABLE_G * (((t.tmod 5 - 2 : Int) : T)) * 2.0
  let cx : T := if t > 9 then cx0 + TABLE_G else cx0
  let row := t.tdiv 5
  if row = 0 then some { x := cx * Rprime, y := 5.0 * TABLE_H * Rprime }
  else if row = 1 then some { x := cx * Rprime, y := TABLE_H * Rprime }
  else if row = 2 then some { x := cx * Rprime, y := -TABLE_H * Rprime }
  else if row = 3 then some { x := cx * Rprime, y := -5.0 * TABLE_H * Rprime }
  else none

/-- The function `isea_tri_plane`: returns `tri` and the moved point. -/
def isea_tri_plane (M : Libm T) (tri : Int) (pt : isea_pt T) (radius : T) :
    Option (Int × isea_pt T) :=
  let p := if DOWNTRI tri then isea_rotate M pt 180.0 else pt
  match isea_triangle_xy tri with
  | none => none
  | some tc => some (tri, { x := p.x + tc.x * radius, y := p.y + tc.y * radius })

/-- The function `isea_ptdd`: returns the quad and the point in quad coordinates. -/
def isea_ptdd (M : Libm T) (tri : Int) (pt : isea_pt T) : Int × isea_pt T :=
  let downtri : Bool := decide (((tri - 1).tdiv 5).tmod 2 = 1)
  let quad := (tri - 1).tmod 5 + (tri - 1).tdiv 10 * 5 + 1
  let p := isea_rotate M pt (if downtri then 240.0 else 60.0)
  if downtri then (quad, { x := p.x + 0.5, y := p.y + 0.86602540378443864672 })
  else (quad, p)

/-! ## Quad addressing -/

/-- The boundary remapping of `isea_dddi_ap3odd` (the `if (quad <= 5) ... else if (quad >= 6) ...`
block): from the input quad and `(d, i)` to the returned quad and `(d, i)`. -/
def isea_dddi_ap3odd_remap (maxcoord quad d i : Int) : Int × Int × Int :=
  if quad ≤ 5 then
    if d = 0 ∧ i = maxcoord then (0, 0, 0)
    else if i = maxcoord then
      ((if quad + 1 = 6 then 1 else quad + 1), 0, maxcoord - d)
    else if d = maxcoord then (quad + 5, 0, i)
    else (quad, d, i)
  else if quad ≥ 6 then
    if i = 0 ∧ d = maxcoord then (11, 0, 0)
    else if d = maxcoord then
      ((if quad + 1 = 11 then 6 else quad + 1), maxcoord - i, 0)
    else if i = maxcoord then ((quad - 4).tmod 5, d, 0)
    else (quad, d, i)
  else (quad, d, i)

/-- The value of `maxcoord` in `isea_dddi_ap3odd`:
`(int)(sidelength * 2.0 + 0.5)` with `sidelength = (pow(2.0, resolution) + 1.0) / 2.0`. -/
def isea_dddi_ap3odd_maxcoord (g : isea_dgg T) : Int :=
  let sidelength : T := ((2.0 : T) ^ g.resolution + 1.0) / 2.0
  c_int (sidelength * 2.0 + 0.5)

/-- The lattice cell `h` of `isea_dddi_ap3odd` after `hexbin2` and `hex_iso`
(`h.z` is not initialised before `hex_iso`, which overwrites it). -/
def isea_dddi_ap3odd_cell (M : Libm T) (g : isea_dgg T) (pt : isea_pt T) : hex :=
  let sidelength : T := ((2.0 : T) ^ g.resolution + 1.0) / 2.0
  let hexwidth : T := M.cos (M.pi / 6.0) / sidelength
  let b := hexbin2 M hexwidth pt.x pt.y
  hex_iso { iso := 0, x := b.2.1, y := b.2.2, z := 0 }

/-- The function `isea_dddi_ap3odd`: returns the quad, `*di` and the updated `*g`. -/
def isea_dddi_ap3odd (M : Libm T) (g : isea_dgg T) (quad : Int) (pt : isea_pt T) :
    Int × isea_pt T × isea_dgg T :=
  let maxcoord := isea_dddi_ap3odd_maxcoord g
  let h := isea_dddi_ap3odd_cell M g pt
  let d := h.x - h.z
  let i := h.x + h.y + h.y
  let r := isea_dddi_ap3odd_remap maxcoord quad d i
  (r.1, { x := (r.2.1 : T), y := (r.2.2 : T) }, { g with quad := r.1 })

/-- The boundary remapping of the general variant of `isea_dddi` (the block after
"we may actually be on another quad"): from the input quad and cell to the
returned quad and the cell held at the end. -/
def isea_dddi_remap (sidelength quad : Int) (h : hex) : Int × hex :=
  if quad ≤ 5 then
    if h.x = 0 ∧ h.z = -sidelength then (0, { h with z := 0, y := 0, x := 0 })
    else if h.z = -sidelength then
      ((if quad + 1 = 6 then 1 else quad + 1),
        { h with y := sidelength - h.x, z := h.x - sidelength, x := 0 })
    else if h.x = sidelength then (quad + 5, { h with y := -h.z, x := 0 })
    else (quad, h)
  else if quad ≥ 6 then
    if h.z = 0 ∧ h.x = sidelength then (11, { h with x := 0, y := 0, z := 0 })
    else if h.x = sidelength then
      ((if quad + 1 = 11 then 6 else quad + 1),
        { h with x := h.y + sidelength, y := 0, z := -(h.y + sidelength) })
    else if h.y = -sidelength then (quad - 4, { h with y := 0, z := -h.x })
    else (quad, h)
  else (quad, h)

/-- The value of `sidelength` in the general variant of `isea_dddi`. -/
def isea_dddi_sidelength (g : isea_dgg T) : Int :=
  if g.aperture > 0 then pow_half_round g.aperture g.resolution else g.resolution

/-- The lattice cell `h` of the general variant of `isea_dddi` after `hexbin2`
and `hex_iso` (`h.z` is not initialised before `hex_iso`, which overwrites it). -/
def isea_dddi_cell (M : Libm T) (g : isea_dgg T) (pt : isea_pt T) : hex :=
  let hexwidth : T := 1.0 / ((isea_dddi_sidelength g : Int) : T)
  let v := isea_rotate M pt (-30.0)
  let b := hexbin2 M hexwidth v.x v.y
  hex_iso { iso := 0, x := b.2.1, y := b.2.2, z := 0 }

/-- The function `isea_dddi`: returns the quad, `*di` and the updated `*g`. -/
def isea_dddi (M : Libm T) (g : isea_dgg T) (quad : Int) (pt : isea_pt T) :
    Int × isea_pt T × isea_dgg T :=
  if g.aperture = 3 ∧ g.resolution.tmod 2 ≠ 0 then isea_dddi_ap3odd M g quad pt
  else
    let r := isea_dddi_remap (isea_dddi_sidelength g) quad (isea_dddi_cell M g pt)
    (r.1, { x := (r.2.x : T), y := ((-r.2.z : Int) : T) }, { g with quad := r.1 })

/-- The function `isea_ptdi`: returns the quad, `*di` and the updated `*g`. -/
def isea_ptdi (M : Libm T) (g : isea_dgg T) (tri : Int) (pt : isea_pt T) :
    Int × isea_pt T × isea_dgg T :=
  let q := isea_ptdd M tri pt
  isea_dddi M g q.1 q.2

/-! ## Serial numbers and output forms -/

/-- The function `isea_disn`: returns the serial number and the updated `*g`.
In the aperture-3 odd branch `resolution - 1` is even, so the exponent
`(resolution - 1) / 2.0` of `height` is the integer `(resolution - 1) / 2`. -/
def isea_disn (g : isea_dgg T) (quad : Int) (di : isea_pt T) : Int × isea_dgg T :=
  if quad = 0 then (1, { g with serial := 1 })
  else
    let hexes := pow_round g.aperture g.resolution
    if quad = 11 then (1 + 10 * hexes + 1, { g with serial := 1 + 10 * hexes + 1 })
    else if g.aperture = 3 ∧ g.resolution.tmod 2 = 1 then
      let height := c_int ((g.aperture : ℚ) ^ ((g.resolution - 1) / 2))
      let sn := c_int di.x * height + (c_int di.y).tdiv height + (quad - 1) * hexes + 2
      (sn, { g with serial := sn })
    else
      let sidelength := pow_half_round g.aperture g.resolution
      let sn := c_int ((((quad - 1) * hexes : Int) : T) + (sidelength : T) * di.x + di.y + 2)
      (sn, { g with serial := sn })

/-- The enabled part of `isea_hex` (the code after its first `return` is not
compiled): returns `*hex` and the updated `*g`; `<< 4` is multiplication by 16. -/
def isea_hex (M : Libm T) (g : isea_dgg T) (tri : Int) (pt : isea_pt T) :
    isea_pt T × isea_dgg T :=
  let r := isea_ptdi M g tri pt
  ({ x := ((c_int r.2.1.x * 2 ^ 4 + r.1 : Int) : T), y := r.2.1.y }, r.2.2)

/-- The two stages in front of the addressing code, reorientation and Snyder
face location, as functions handed to `isea_transform`; `none` from
`isea_snyder_forward` is its "not on any triangle" exception. -/
structure FaceLocator (T : Type) where
  isea_ctran : isea_geo T → isea_geo T → T → isea_geo T
  isea_snyder_forward : isea_geo T → Option (Int × isea_pt T)

/-- The function `isea_transform`: returns the triangle, `*out` and the updated `*g`. -/
def isea_transform (F : FaceLocator T) (g : isea_dgg T) (p : isea_geo T) :
    Option (Int × isea_pt T × isea_dgg T) :=
  let pole : isea_geo T := { lon := g.o_lon, lat := g.o_lat }
  let i := F.isea_ctran pole p g.o_az
  match F.isea_snyder_forward i with
  | none => none
  | some (tri, out) =>
    some (tri, { x := out.x * g.radius, y := out.y * g.radius }, { g with triangle := tri })

/-- The function `isea_forward`: returns the point and the updated `*g`. -/
def isea_forward (M : Libm T) (F : FaceLocator T) (g : isea_dgg T) (p : isea_geo T) :
    Option (isea_pt T × isea_dgg T) :=
  match isea_transform F g p with
  | none => none
  | some (tri, out0, g1) =>
    if g1.output = isea_address_form.ISEA_PLANE then
      match isea_tri_plane M tri out0 g1.radius with
      | none => none
      | some r => some (r.2, g1)
    else
      let out : isea_pt T :=
        { x := out0.x / g1.radius * ISEA_SCALE + 0.5
          y := out0.y / g1.radius * ISEA_SCALE + 2.0 * 0.14433756729740644112 }
      match g1.output with
      | isea_address_form.ISEA_PROJTRI => some (out, g1)
      | isea_address_form.ISEA_VERTEX2DD =>
        let r := isea_ptdd M tri out
        some (r.2, { g1 with quad := r.1 })
      | isea_address_form.ISEA_Q2DD =>
        let r := isea_ptdd M tri out
        some (r.2, { g1 with quad := r.1 })
      | isea_address_form.ISEA_Q2DI =>
        let r := isea_ptdi M g1 tri out
        some (r.2.1, { r.2.2 with quad := r.1 })
      | isea_address_form.ISEA_SEQNUM =>
        let r := isea_ptdi M g1 tri out
        let s := isea_disn r.2.2 r.2.2.quad r.2.1
        some (r.2.1, s.2)
      | isea_address_form.ISEA_HEX =>
        let r := isea_hex M g1 tri out
        some (r.1, r.2)
      | _ => some (out, g1)

/-- The member function `base_isea_spheroid::fwd`: runs `isea_forward` on a copy
of the stored configuration and hands back the point's coordinates. -/
def fwd (M : Libm T) (F : FaceLocator T) (dgg : isea_dgg T) (lp_lon lp_lat : T) :
    Option (T × T) :=
  match isea_forward M F dgg { lon := lp_lon, lat := lp_lat } with
  | none => none
  | some r => some (r.1.x, r.1.y)

/-- The `switch (g->output)` block of `isea_forward` with the final `return out`:
from the configuration after `isea_transform`, the triangle and the rescaled
point to the returned point and the updated `*g`. -/
def isea_forward_switch (M : Libm T) (g : isea_dgg T) (tri : Int) (out : isea_pt T) :
    isea_pt T × isea_dgg T :=
  match g.output with
  | isea_address_form.ISEA_PROJTRI => (out, g)
  | isea_address_form.ISEA_VERTEX2DD =>
    let r := isea_ptdd M tri out
    (r.2, { g with quad := r.1 })
  | isea_address_form.ISEA_Q2DD =>
    let r := isea_ptdd M tri out
    (r.2, { g with quad := r.1 })
  | isea_address_form.ISEA_Q2DI =>
    let r := isea_ptdi M g tri out
    (r.2.1, { r.2.2 with quad := r.1 })
  | isea_address_form.ISEA_SEQNUM =>
    let r := isea_ptdi M g tri out
    let s := isea_disn r.2.2 r.2.2.quad r.2.1
    (r.2.1, s.2)
  | isea_address_form.ISEA_HEX =>
    let r := isea_hex M g tri out
    (r.1, r.2)
  | _ => (out, g)

/-! ## Reorientation and face location -/

/-- The math library of the reorientation and Snyder stages: `Libm` together
with `tan`, `acos`, `asin` and the two-argument `atan2` (first argument `y`,
second argument `x`). -/
structure SphereLibm (T : Type) extends Libm T where
  tan : T → T
  acos : T → T
  asin : T → T
  atan2 : T → T → T

/-- The C library function `fmod` for a non-zero second argument: the first
argument minus the second times the truncated quotient. -/
def fmod (x y : T) : T := x - (c_int (x / y) : T) * y

/-- The angle `DEG36<T>()`. -/
def DEG36 (M : Libm T) : T := 36 * d2r M

/-- The angle `DEG72<T>()`. -/
def DEG72 (M : Libm T) : T := 72 * d2r M

/-- The angle `DEG90<T>()`, `geometry::math::half_pi<T>()`. -/
def DEG90 (M : Libm T) : T := M.pi / 2

/-- The angle `DEG108<T>()`. -/
def DEG108 (M : Libm T) : T := 108 * d2r M

/-- The angle `DEG120<T>()`. -/
def DEG120 (M : Libm T) : T := 120 * d2r M

/-- The angle `DEG144<T>()`. -/
def DEG144 (M : Libm T) : T := 144 * d2r M

/-- The angle `DEG180<T>()`. -/
def DEG180 (M : Libm T) : T := M.pi

/-- The constant `V_LAT`. -/
def V_LAT : T := 0.46364760899944494524

/-- The constant `E_RAD`. -/
def E_RAD : T := 0.91843818702186776133

/-- The constant `F_RAD`. -/
def F_RAD : T := 0.18871053072122403508

/-- The constant `DBL_EPSILON` of `<cfloat>` for IEEE doubles, `2 ^ -52`. -/
def DBL_EPSILON : T := 1 / 2 ^ 52

/-- The table `vertex<T>()` of the 12 icosahedron vertices; an index outside
`0..11` is outside the C array. -/
def vertex (M : Libm T) : Nat → isea_geo T
  | 0 => { lon := 0.0, lat := DEG90 M }
  | 1 => { lon := DEG180 M, lat := V_LAT }
  | 2 => { lon := -DEG108 M, lat := V_LAT }
  | 3 => { lon := -DEG36 M, lat := V_LAT }
  | 4 => { lon := DEG36 M, lat := V_LAT }
  | 5 => { lon := DEG108 M, lat := V_LAT }
  | 6 => { lon := -DEG144 M, lat := -V_LAT }
  | 7 => { lon := -DEG72 M, lat := -V_LAT }
  | 8 => { lon := 0.0, lat := -V_LAT }
  | 9 => { lon := DEG72 M, lat := -V_LAT }
  | 10 => { lon := DEG144 M, lat := -V_LAT }
  | 11 => { lon := 0.0, lat := -DEG90 M }
  | _ => { lon := 0.0, lat := 0.0 }

/-- The table `tri_v1[]`: the vertex used for the azimuth adjustment of each
triangle; an index outside `0..20` is outside the C array. -/
def tri_v1 : Nat → Nat
  | 0 => 0 | 1 => 0 | 2 => 0 | 3 => 0 | 4 => 0 | 5 => 0
  | 6 => 6 | 7 => 7 | 8 => 8 | 9 => 9 | 10 => 10
  | 11 => 2 | 12 => 3 | 13 => 4 | 14 => 5 | 15 => 1
  | 16 => 11 | 17 => 11 | 18 => 11 | 19 => 11 | 20 => 11
  | _ => 0

/-- The table `icostriangles<T>()` of the triangle centres, entry 0 unused; an
index outside `0..20` is outside the C array. -/
def icostriangles (M : Libm T) : Nat → isea_geo T
  | 0 => { lon := 0.0, lat := 0.0 }
  | 1 => { lon := -DEG144 M, lat := E_RAD }
  | 2 => { lon := -DEG72 M, lat := E_RAD }
  | 3 => { lon := 0.0, lat := E_RAD }
  | 4 => { lon := DEG72 M, lat := E_RAD }
  | 5 => { lon := DEG144 M, lat := E_RAD }
  | 6 => { lon := -DEG144 M, lat := F_RAD }
  | 7 => { lon := -DEG72 M, lat := F_RAD }
  | 8 => { lon := 0.0, lat := F_RAD }
  | 9 => { lon := DEG72 M, lat := F_RAD }
  | 10 => { lon := DEG144 M, lat := F_RAD }
  | 11 => { lon := -DEG108 M, lat := -F_RAD }
  | 12 => { lon := -DEG36 M, lat := -F_RAD }
  | 13 => { lon := DEG36 M, lat := -F_RAD }
  | 14 => { lon := DEG108 M, lat := -F_RAD }
  | 15 => { lon := DEG180 M, lat := -F_RAD }
  | 16 => { lon := -DEG108 M, lat := -E_RAD }
  | 17 => { lon := -DEG36 M, lat := -E_RAD }
  | 18 => { lon := DEG36 M, lat := -E_RAD }
  | 19 => { lon := DEG108 M, lat := -E_RAD }
  | 20 => { lon := DEG180 M, lat := -E_RAD }
  | _ => { lon := 0.0, lat := 0.0 }

/-- The function `az_adjustment`. -/
def az_adjustment (L : SphereLibm T) (triangle : Nat) : T :=
  let v := vertex L.toLibm (tri_v1 triangle)
  let c := icostriangles L.toLibm triangle
  L.atan2 (L.cos v.lat * L.sin (v.lon - c.lon))
    (L.cos c.lat * L.sin v.lat - L.sin c.lat * L.cos v.lat * L.cos (v.lon - c.lon))

/-- The function `sph_azimuth` (Snyder's equation 14). -/
def sph_azimuth (L : SphereLibm T) (f_lon f_lat t_lon t_lat : T) : T :=
  L.atan2 (L.cos t_lat * L.sin (t_lon - f_lon))
    (L.cos f_lat * L.sin t_lat - L.sin f_lat * L.cos t_lat * L.cos (t_lon - f_lon))

/-- The loop `while (Az < 0.0) { Az += DEG120; Az_adjust_multiples--; }` of
`isea_snyder_forward`, on the pair `(Az, Az_adjust_multiples)`. -/
def snyder_az_up (deg120 : T) : Nat → T × Int → T × Int
  | 0, s => s
  | n + 1, s => if s.1 < 0.0 then snyder_az_up deg120 n (s.1 + deg120, s.2 - 1) else s

/-- The loop `while (Az > DEG120 + DBL_EPSILON) { Az -= DEG120; Az_adjust_multiples++; }`
of `isea_snyder_forward`, on the pair `(Az, Az_adjust_multiples)`. -/
def snyder_az_down (deg120 : T) : Nat → T × Int → T × Int
  | 0, s => s
  | n + 1, s =>
    if s.1 > deg120 + DBL_EPSILON then snyder_az_down deg120 n (s.1 - deg120, s.2 + 1) else s

/-- Step 1 of the loop body of `isea_snyder_forward`: the spherical distance `z`
from the centre of triangle `i` to the point. -/
def snyder_face_z (L : SphereLibm T) (ll : isea_geo T) (i : Nat) : T :=
  let center := icostriangles L.toLibm i
  L.acos (L.sin center.lat * L.sin ll.lat
    + L.cos center.lat * L.cos ll.lat * L.cos (ll.lon - center.lon))

/-- Step 2 of the loop body of `isea_snyder_forward`: the azimuth `Az` from the
centre of triangle `i` to the point, after the adjustment and the two loops,
with `Az_adjust_multiples`.  Each loop gets `⌊|Az| / DEG120⌋ + 1` rounds, which
is more than it can use when `DEG120 > 0`. -/
def snyder_face_az (L : SphereLibm T) (ll : isea_geo T) (i : Nat) : T × Int :=
  let center := icostriangles L.toLibm i
  let Az0 := sph_azimuth L center.lon center.lat ll.lon ll.lat - az_adjustment L i
  let Az1 := if Az0 < 0.0 then Az0 + two_pi L.toLibm else Az0
  let a2 := snyder_az_up (DEG120 L.toLibm) (⌊|Az1| / DEG120 L.toLibm⌋₊ + 1) (Az1, 0)
  snyder_az_down (DEG120 L.toLibm) (⌊|a2.1| / DEG120 L.toLibm⌋₊ + 1) a2

/-- Equation 9 in step 3 of the loop body of `isea_snyder_forward`: the angle `q`. -/
def snyder_face_q (L : SphereLibm T) (Az : T) : T :=
  let theta : T := 30.0 * d2r L.toLibm
  let g : T := 37.37736814 * d2r L.toLibm
  let cot_theta := 1.0 / L.tan theta
  let tan_g := L.tan g
  L.atan2 tan_g (L.cos Az + L.sin Az * cot_theta)

/-- Equations 6 and 7 in step 4 of the loop body of `isea_snyder_forward`: the
spherical excess `Ag` from `Az`. -/
def snyder_face_Ag (L : SphereLibm T) (Az : T) : T :=
  let g : T := 37.37736814 * d2r L.toLibm
  let G : T := 36.0 * d2r L.toLibm
  let H := L.acos (L.sin Az * L.sin G * L.cos g - L.cos Az * L.cos G)
  Az + G + H - DEG180 L.toLibm

/-- Step 4 of the loop body of `isea_snyder_forward` (equations 5 to 8 and 10 to
12 and the rectangular coordinates): the face-local point from `z`, `Az`,
`Az_adjust_multiples` and `q`. -/
def snyder_face_xy (L : SphereLibm T) (z Az : T) (Az_adjust_multiples : Int) (q : T) :
    isea_pt T :=
  let theta : T := 30.0 * d2r L.toLibm
  let g : T := 37.37736814 * d2r L.toLibm
  let cot_theta := 1.0 / L.tan theta
  let tan_g := L.tan g
  let Rprime : T := 0.91038328153090290025
  let Ag := snyder_face_Ag L Az
  let Azprime :=
    L.atan2 (2.0 * Ag) (Rprime * Rprime * tan_g * tan_g - 2.0 * Ag * cot_theta)
  let dprime := Rprime * tan_g / (L.cos Azprime + L.sin Azprime * cot_theta)
  let f := dprime / (2.0 * Rprime * L.sin (q / 2.0))
  let rho := 2.0 * Rprime * f * L.sin (z / 2.0)
  let Azprime2 := Azprime + DEG120 L.toLibm * (Az_adjust_multiples : T)
  { x := rho * L.sin Azprime2, y := rho * L.cos Azprime2 }

/-- The body of the `for (i = 1; i <= 20; i++)` loop of `isea_snyder_forward` for
the triangle `i`: `none` is `continue` (the point is not on this triangle),
`some out` is the face-local point written before `return i`. -/
def isea_snyder_face (L : SphereLibm T) (ll : isea_geo T) (i : Nat) : Option (isea_pt T) :=
  let g : T := 37.37736814 * d2r L.toLibm
  let z := snyder_face_z L ll i
  if z > g + 0.000005 then none
  else
    let a := snyder_face_az L ll i
    let q := snyder_face_q L a.1
    if z > q + 0.000005 then none
    else some (snyder_face_xy L z a.1 a.2 q)

/-- The `for` loop of `isea_snyder_forward` from triangle `i` on, with `n`
triangles left to try. -/
def isea_snyder_scan (L : SphereLibm T) (ll : isea_geo T) : Nat → Nat → Option (Int × isea_pt T)
  | 0, _ => none
  | n + 1, i =>
    match isea_snyder_face L ll i with
    | some out => some ((i : Int), out)
    | none => isea_snyder_scan L ll n (i + 1)

/-- The function `isea_snyder_forward`: returns the triangle and `*out`; `none`
is the exception "impossible transform: ... is not on any triangle". -/
def isea_snyder_forward (L : SphereLibm T) (ll : isea_geo T) : Option (Int × isea_pt T) :=
  isea_snyder_scan L ll 20 1

/-- First loop of the longitude normalisation: `while (lon > pi) lon -= two_pi`. -/
def ctran_wrap_down (M : Libm T) : Nat → T → T
  | 0, lon => lon
  | n + 1, lon => if lon > M.pi then ctran_wrap_down M n (lon - two_pi M) else lon

/-- Second loop of the longitude normalisation: `while (lon < -pi) lon += two_pi`. -/
def ctran_wrap_up (M : Libm T) : Nat → T → T
  | 0, lon => lon
  | n + 1, lon => if lon < -M.pi then ctran_wrap_up M n (lon + two_pi M) else lon

/-- The block "normalize longitude" of `snyder_ctran` and of `isea_ctran`: `fmod`
by `two_pi` and the two loops.  Each loop gets `⌊|lon| / two_pi⌋ + 1` rounds,
which is more than it can use when `pi > 0`. -/
def ctran_normalize (M : Libm T) (lon : T) : T :=
  let l0 := fmod lon (two_pi M)
  let l1 := ctran_wrap_down M (⌊|l0| / two_pi M⌋₊ + 1) l0
  ctran_wrap_up M (⌊|l1| / two_pi M⌋₊ + 1) l1

/-- The function `snyder_ctran`: the point `pt` in the coordinate system whose
north pole is `np`. -/
def snyder_ctran (L : SphereLibm T) (np pt : isea_geo T) : isea_geo T :=
  let phi := pt.lat
  let lam := pt.lon
  let alpha := np.lat
  let beta := np.lon
  let lambda0 := beta
  let cos_p := L.cos phi
  let sin_a := L.sin alpha
  let sin_phip := sin_a * L.sin phi - L.cos alpha * cos_p * L.cos (lam - lambda0)
  let lp_b := L.atan2 (cos_p * L.sin (lam - lambda0))
    (sin_a * cos_p * L.cos (lam - lambda0) + L.cos alpha * L.sin phi)
  let lambdap := ctran_normalize L.toLibm (lp_b + beta)
  { lon := lambdap, lat := L.asin sin_phip }

/-- The function `isea_ctran`; `np->lon` is moved by `pi` for the call of
`snyder_ctran` and moved back before it is read again. -/
def isea_ctran (L : SphereLibm T) (np pt : isea_geo T) (lon0 : T) : isea_geo T :=
  let np1 : isea_geo T := { np with lon := np.lon + L.pi }
  let npt := snyder_ctran L np1 pt
  let np2 : isea_geo T := { np1 with lon := np1.lon - L.pi }
  let lon1 := npt.lon - (L.pi - lon0 + np2.lon)
  let lon2 := lon1 + L.pi
  { lon := ctran_normalize L.toLibm lon2, lat := npt.lat }

/-- The function `isea_orient_isea`: the standard orientation. -/
def isea_orient_isea (g : isea_dgg T) : isea_dgg T :=
  { g with o_lat := 1.01722196792335072101, o_lon := 0.19634954084936207740, o_az := 0.0 }

/-- The function `isea_orient_pole`: the grid pole at the geographic north pole. -/
def isea_orient_pole (M : Libm T) (g : isea_dgg T) : isea_dgg T :=
  { g with o_lat := M.pi / 2, o_lon := 0.0, o_az := 0 }

/-! ## Set-up of the projection -/

/-- The constant `ISEA_STD_LAT`. -/
def ISEA_STD_LAT : T := 1.01722196792335072101

/-- The constant `ISEA_STD_LON`. -/
def ISEA_STD_LON : T := 0.19634954084936207740

/-- The function `isea_grid_init` (for a non-null `g`): the fields `pole`,
`output`, `triangle`, `quad` and `serial` are not written. -/
def isea_grid_init (g : isea_dgg T) : isea_dgg T :=
  { g with polyhedron := 20, o_lat := ISEA_STD_LAT, o_lon := ISEA_STD_LON, o_az := 0.0,
           aperture := 4, resolution := 6, radius := 1.0, topology := 6 }

/-- The values that `pj_param` hands to `setup_isea` for the keys it asks for:
the strings of `sorient` and `smode` (empty when the option is absent), the
presence flags `t...` (non-zero when the option is given) and the values
`r...` and `i...` of the options. -/
structure isea_params (T : Type) where
  sorient : String
  tazi : Int
  razi : T
  tlon_0 : Int
  rlon_0 : T
  tlat_0 : Int
  rlat_0 : T
  taperture : Int
  iaperture : Int
  tresolution : Int
  iresolution : Int
  smode : String
  trescale : Int

/-- The block of `setup_isea` that reads `orient`; the error is the code of the
`projection_exception` thrown. -/
def setup_isea_orient (M : Libm T) (opt : String) (g : isea_dgg T) : Except Int (isea_dgg T) :=
  if opt ≠ "" then
    if opt = "isea" then Except.ok (isea_orient_isea g)
    else if opt = "pole" then Except.ok (isea_orient_pole M g)
    else Except.error (-34)
  else Except.ok g

/-- The block of `setup_isea` that reads `mode`; the error is the code of the
`projection_exception` thrown. -/
def setup_isea_mode (opt : String) (g : isea_dgg T) : Except Int (isea_dgg T) :=
  if opt ≠ "" then
    if opt = "plane" then Except.ok { g with output := isea_address_form.ISEA_PLANE }
    else if opt = "di" then Except.ok { g with output := isea_address_form.ISEA_Q2DI }
    else if opt = "dd" then Except.ok { g with output := isea_address_form.ISEA_Q2DD }
    else if opt = "hex" then Except.ok { g with output := isea_address_form.ISEA_HEX }
    else Except.error (-34)
  else Except.ok g

/-- The function `setup_isea`: from the option values `P` and the configuration
`g0` held by `proj_parm.dgg` before the call to the configuration it holds
afterwards, or the code of the `projection_exception` thrown. -/
def setup_isea (M : Libm T) (P : isea_params T) (g0 : isea_dgg T) : Except Int (isea_dgg T) :=
  let g1 : isea_dgg T := { isea_grid_init g0 with output := isea_address_form.ISEA_PLANE }
  match setup_isea_orient M P.sorient g1 with
  | Except.error e => Except.error e
  | Except.ok g2 =>
    let g3 : isea_dgg T := if P.tazi ≠ 0 then { g2 with o_az := P.razi } else g2
    let g4 : isea_dgg T := if P.tlon_0 ≠ 0 then { g3 with o_lon := P.rlon_0 } else g3
    let g5 : isea_dgg T := if P.tlat_0 ≠ 0 then { g4 with o_lat := P.rlat_0 } else g4
    let g6 : isea_dgg T := if P.taperture ≠ 0 then { g5 with aperture := P.iaperture } else g5
    let g7 : isea_dgg T :=
      if P.tresolution ≠ 0 then { g6 with resolution := P.iresolution } else g6
    match setup_isea_mode P.smode g7 with
    | Except.error e => Except.error e
    | Except.ok g8 =>
      let g9 : isea_dgg T := if P.trescale ≠ 0 then { g8 with radius := ISEA_SCALE } else g8
      let g10 : isea_dgg T :=
        if P.tresolution ≠ 0 then { g9 with resolution := P.iresolution }
        else { g9 with resolution := 4 }
      Except.ok
        (if P.taperture ≠ 0 then { g10 with aperture := P.iaperture }
         else { g10 with aperture := 3 })

/-! ## Serial numbers in 32-bit arithmetic -/

/-- The value held by a 32-bit two's-complement `int` for the mathematical result
`x` of an `int` operation: `x` wrapped modulo `2 ^ 32` into `-2^31 .. 2^31 - 1`. -/
def int32 (x : Int) : Int := (x + 2 ^ 31) % 2 ^ 32 - 2 ^ 31

/-- The variable `hexes` of `isea_disn` as a 32-bit `int`. -/
def isea_disn_hexes_int32 (g : isea_dgg T) : Int :=
  int32 (pow_round g.aperture g.resolution)

/-- The expression `(quad - 1) * hexes` of `isea_disn` in 32-bit `int` arithmetic. -/
def isea_disn_quad_offset_int32 (g : isea_dgg T) (quad : Int) : Int :=
  int32 (int32 (quad - 1) * isea_disn_hexes_int32 g)

/-- The function `isea_disn` with every `int` operation wrapped to 32 bits: the
returned serial number. -/
def isea_disn_int32 (g : isea_dgg T) (quad : Int) (di : isea_pt T) : Int :=
  if quad = 0 then 1
  else
    let hexes := isea_disn_hexes_int32 g
    if quad = 11 then int32 (int32 (1 + int32 (10 * hexes)) + 1)
    else if g.aperture = 3 ∧ g.resolution.tmod 2 = 1 then
      let height := int32 (c_int ((g.aperture : ℚ) ^ ((g.resolution - 1) / 2)))
      let sn0 := int32 (int32 (c_int di.x) * height)
      let sn1 := int32 (sn0 + (int32 (c_int di.y)).tdiv height)
      let sn2 := int32 (sn1 + isea_disn_quad_offset_int32 g quad)
      int32 (sn2 + 2)
    else
      let sidelength := int32 (pow_half_round g.aperture g.resolution)
      int32 (c_int (((isea_disn_quad_offset_int32 g quad : Int) : T)
        + (sidelength : T) * di.x + di.y + 2))

end Stages


/-! ## Sample configurations -/

/-- The configuration written by `isea_grid_init` (standard orientation, radius 1),
with the given aperture, resolution and output form and with the fields
`pole`, `triangle`, `quad` and `serial`, which it leaves unset, at zero. -/
def sample_dgg (T : Type) [LinearOrderedField T] (aperture resolution : Int)
    (output : isea_address_form) : isea_dgg T :=
  { polyhedron := 20, o_lat := 1.01722196792335072101, o_lon := 0.19634954084936207740,
    o_az := 0.0, pole := 0, topology := 6, aperture := aperture, resolution := resolution,
    radius := 1.0, output := output, triangle := 0, quad := 0, serial := 0 }

/-- A rational math library for running the definitions on concrete inputs:
pi is 355/113 and cosine and sine are their Taylor polynomials of degree 6 and
7, within 1e-4 of the true values for angles up to 60 degrees. -/
def rational_libm : Libm ℚ :=
  { pi := 355 / 113
    cos := fun x => 1 - x ^ 2 / 2 + x ^ 4 / 24 - x ^ 6 / 720
    sin := fun x => x - x ^ 3 / 6 + x ^ 5 / 120 - x ^ 7 / 5040 }

/-- A face locator for running `isea_forward` from a chosen result of the
Snyder stage: no reorientation, and every point lies on triangle `tri` at the
face-local point `out`. -/
def fixed_locator {T : Type} (tri : Int) (out : isea_pt T) : FaceLocator T :=
  { isea_ctran := fun _ p _ => p
    isea_snyder_forward := fun _ => some (tri, out) }

/-- The exact math library over the real numbers: pi, the trigonometric
functions and their inverses with the ranges of the C library, `acos` into
`[0, pi]`, `asin` into `[-pi/2, pi/2]` and `atan2 y x` into `(-pi, pi]` as the
argument of `x + y i` (`atan2 0 0 = 0`). -/
def real_libm (L : SphereLibm ℝ) : Prop :=
  L.pi = Real.pi ∧ L.cos = Real.cos ∧ L.sin = Real.sin ∧ L.tan = Real.tan ∧
    L.acos = Real.arccos ∧ L.asin = Real.arcsin ∧
    L.atan2 = fun y x => Complex.arg ⟨x, y⟩

/-- The option values of a projection string without any ISEA option. -/
def no_options (T : Type) [LinearOrderedField T] : isea_params T :=
  { sorient := "", tazi := 0, razi := 0, tlon_0 := 0, rlon_0 := 0, tlat_0 := 0, rlat_0 := 0,
    taperture := 0, iaperture := 0, tresolution := 0, iresolution := 0, smode := "",
    trescale := 0 }

/-! ## Arithmetic lemmas -/

theorem c_int_intCast {T : Type} [LinearOrderedField T] [FloorRing T] (n : Int) :
    c_int (n : T) = n := by
  unfold c_int
  split <;> simp

theorem pow_round_nat (a : Int) (r : Nat) (ha : 0 ≤ a) : pow_round a (r : Int) = a ^ r := by
  unfold pow_round c_int
  have h0 : (0 : ℚ) ≤ (a : ℚ) ^ (r : Int) := by
    rw [zpow_natCast]; exact pow_nonneg (by exact_mod_cast ha) r
  rw [if_pos (by linarith [show (0:ℚ) ≤ 0.5 by norm_num])]
  rw [zpow_natCast, Int.floor_eq_iff]
  push_cast
  constructor <;> norm_num

theorem pow_half_round_four (r : Nat) : pow_half_round 4 (r : Int) = 2 ^ r := by
  unfold pow_half_round
  have h : (4 : ℚ) * (((4 : Int) : ℚ) ^ (r : Int))
      = (((2 ^ (r + 1)) * (2 ^ (r + 1)) : Nat) : ℚ) := by
    rw [zpow_natCast]; push_cast; rw [show ((4 : ℚ)) = 2 * 2 by norm_num, mul_pow]; ring
  rw [h, Nat.floor_natCast, Nat.sqrt_eq]
  have : (2 ^ (r + 1) + 1) / 2 = 2 ^ r := by
    rw [pow_succ]; omega
  rw [this]; push_cast; rfl

theorem pow_half_round_three (k : Nat) :
    pow_half_round 3 ((2 * k : Nat) : Int) = 3 ^ k := by
  unfold pow_half_round
  have h : (4 : ℚ) * (((3 : Int) : ℚ) ^ ((2 * k : Nat) : Int))
      = (((2 * 3 ^ k) * (2 * 3 ^ k) : Nat) : ℚ) := by
    rw [zpow_natCast]; push_cast; rw [two_mul, pow_add]; ring
  rw [h, Nat.floor_natCast, Nat.sqrt_eq]
  have : (2 * 3 ^ k + 1) / 2 = 3 ^ k := by omega
  rw [this]; push_cast; rfl

/-- `c_int` commutes with the embedding of the rationals in the reals. -/
theorem c_int_ratCast (q : ℚ) : c_int (q : ℝ) = c_int q := by
  unfold c_int
  by_cases h : 0 ≤ q
  · rw [if_pos h, if_pos (by exact_mod_cast h), Rat.floor_cast]
  · rw [if_neg h, if_neg (by exact_mod_cast h), Rat.ceil_cast]

/-- Over the reals, `(int)(pow(a, r) + 0.5)` is `pow_round a r`. -/
theorem pow_round_real (a r : Int) :
    c_int (((a : ℝ) ^ ((r : Int) : ℝ)) + 0.5) = pow_round a r := by
  unfold pow_round
  rw [← c_int_ratCast, Real.rpow_intCast]
  congr 1
  push_cast
  norm_num

/-- Rounding a square root to the nearest integer, in integer arithmetic. -/
theorem floor_sqrt_add_half (q : ℝ) (hq : 0 ≤ q) :
    ⌊Real.sqrt q + 0.5⌋ = (((Nat.sqrt ⌊4 * q⌋₊ + 1) / 2 : Nat) : Int) := by
  set n := ⌊4 * q⌋₊ with hn
  set m := Nat.sqrt n with hm
  have h4q : (0 : ℝ) ≤ 4 * q := by positivity
  have hn1 : (n : ℝ) ≤ 4 * q := Nat.floor_le h4q
  have hn2 : 4 * q < (n : ℝ) + 1 := Nat.lt_floor_add_one _
  have hm1 : m * m ≤ n := Nat.sqrt_le n
  have hm2 : n < (m + 1) * (m + 1) := Nat.lt_succ_sqrt n
  have hs : Real.sqrt (4 * q) = 2 * Real.sqrt q := by
    rw [show (4 : ℝ) * q = 2 ^ 2 * q by norm_num, Real.sqrt_mul (by norm_num),
      Real.sqrt_sq (by norm_num)]
  have hlo : (m : ℝ) ≤ 2 * Real.sqrt q := by
    rw [← hs]
    apply Real.le_sqrt_of_sq_le
    have : ((m * m : ℕ) : ℝ) ≤ (n : ℝ) := by exact_mod_cast hm1
    push_cast at this
    nlinarith
  have hhi : 2 * Real.sqrt q < (m : ℝ) + 1 := by
    rw [← hs]
    rw [Real.sqrt_lt' (by positivity)]
    have : ((n + 1 : ℕ) : ℝ) ≤ (((m + 1) * (m + 1) : ℕ) : ℝ) := by exact_mod_cast hm2
    push_cast at this
    nlinarith
  have hk := Nat.div_add_mod (m + 1) 2
  have hmod : (m + 1) % 2 < 2 := Nat.mod_lt _ (by norm_num)
  have hkR : (2 : ℝ) * (((m + 1) / 2 : ℕ) : ℝ) + (((m + 1) % 2 : ℕ) : ℝ) = (m : ℝ) + 1 := by
    exact_mod_cast hk
  have hmodR0 : (0 : ℝ) ≤ (((m + 1) % 2 : ℕ) : ℝ) := by positivity
  have hmodR1 : (((m + 1) % 2 : ℕ) : ℝ) ≤ 1 := by
    have : (m + 1) % 2 ≤ 1 := by omega
    exact_mod_cast this
  generalize (m + 1) / 2 = k at hk hkR ⊢
  rw [Int.floor_eq_iff, Int.cast_natCast]
  constructor
  · norm_num
    linarith
  · norm_num
    linarith

/-- Over the reals, `(int)(pow(a, r / 2.0) + 0.5)` is `pow_half_round a r`. -/
theorem pow_half_round_real (a r : Int) (ha : 0 < a) :
    c_int (((a : ℝ) ^ (((r : Int) : ℝ) / 2.0)) + 0.5) = pow_half_round a r := by
  have ha' : (0 : ℝ) < (a : ℝ) := by exact_mod_cast ha
  have hpow : (a : ℝ) ^ (((r : Int) : ℝ) / 2.0) = Real.sqrt ((a : ℝ) ^ r) := by
    rw [Real.sqrt_eq_rpow, ← Real.rpow_intCast, ← Real.rpow_mul (le_of_lt ha')]
    congr 1
    norm_num
    ring
  have hq : (0 : ℝ) ≤ (a : ℝ) ^ r := le_of_lt (zpow_pos ha' r)
  unfold c_int
  rw [hpow, if_pos (by positivity), floor_sqrt_add_half _ hq]
  unfold pow_half_round
  have hcast : (4 : ℝ) * (a : ℝ) ^ r = (((4 * (a : ℚ) ^ r : ℚ)) : ℝ) := by push_cast; ring
  rw [hcast, ← Int.floor_toNat, ← Int.floor_toNat, Rat.floor_cast]

/-- Over the reals, the value `(int)(pow(a, (r - 1) / 2.0))` of `height` in the
aperture-3 odd branch of `isea_disn`, where `r % 2 == 1`, is the one of the model. -/
theorem height_real (a r : Int) (hr : r.tmod 2 = 1) :
    c_int ((a : ℝ) ^ ((((r : Int) : ℝ) - 1) / 2.0)) = c_int ((a : ℚ) ^ ((r - 1) / 2)) := by
  have hodd : r - 1 = 2 * ((r - 1) / 2) := by
    have h0 : 0 ≤ r := by
      by_contra hneg
      obtain ⟨n, rfl⟩ := Int.eq_negSucc_of_lt_zero (not_le.mp hneg)
      have hm : (Int.negSucc n).tmod 2 = -(((n + 1) % 2 : Nat) : Int) := rfl
      omega
    rw [Int.tmod_eq_emod h0 (by norm_num)] at hr
    omega
  have hexp : (((r : Int) : ℝ) - 1) / 2.0 = (((r - 1) / 2 : Int) : ℝ) := by
    have : ((r : Int) : ℝ) - 1 = 2 * (((r - 1) / 2 : Int) : ℝ) := by exact_mod_cast hodd
    rw [this]
    norm_num
  rw [hexp, Real.rpow_intCast, ← c_int_ratCast]
  congr 1
  push_cast
  rfl

/-- With enough rounds the first loop of `isea_rotate` ends with its exit
condition `rad < two_pi`. -/
theorem isea_rotate_down_exit {T : Type} [LinearOrderedField T] (twopi : T) (n : Nat)
    (rad : T)
    (hn : rad < twopi * ((n : T) + 1)) : isea_rotate_down twopi n rad < twopi := by
  induction n generalizing rad with
  | zero =>
    simp only [isea_rotate_down]
    simpa using hn
  | succ k ih =>
    simp only [isea_rotate_down]
    split_ifs with hge
    · apply ih
      push_cast at hn
      linarith
    · exact not_le.mp hge

/-- With enough rounds the second loop of `isea_rotate` ends with its exit
condition `rad > -two_pi`. -/
theorem isea_rotate_up_exit {T : Type} [LinearOrderedField T] (twopi : T) (n : Nat)
    (rad : T)
    (hn : -(twopi * ((n : T) + 1)) < rad) : -twopi < isea_rotate_up twopi n rad := by
  induction n generalizing rad with
  | zero =>
    simp only [isea_rotate_up]
    simpa using hn
  | succ k ih =>
    simp only [isea_rotate_up]
    split_ifs with hle
    · apply ih
      push_cast at hn
      linarith
    · exact not_le.mp hle

/-- The number of rounds `isea_rotate` gives to its loops is enough. -/
theorem isea_rotate_rounds {T : Type} [LinearOrderedField T] [FloorRing T] (twopi : T)
    (h2 : 0 < twopi) (rad : T) :
    rad < twopi * (((⌊|rad| / twopi⌋₊ + 1 : Nat) : T) + 1) ∧
      -(twopi * (((⌊|rad| / twopi⌋₊ + 1 : Nat) : T) + 1)) < rad := by
  have hfl : |rad| / twopi < (⌊|rad| / twopi⌋₊ : T) + 1 := Nat.lt_floor_add_one _
  have habs : |rad| < twopi * ((⌊|rad| / twopi⌋₊ : T) + 1) := by
    have := (div_lt_iff₀ h2).mp hfl
    linarith
  have hle := le_abs_self rad
  have hge := neg_abs_le rad
  push_cast
  constructor <;> nlinarith

theorem digits_unique (s a b a' b' : Int) (hb : 0 ≤ b) (hbs : b < s) (hb' : 0 ≤ b')
    (hbs' : b' < s) (h : s * a + b = s * a' + b') : a = a' ∧ b = b' := by
  have hs : 0 < s := by omega
  have hmod : (s * a + b) % s = (s * a' + b') % s := by rw [h]
  rw [Int.add_comm, Int.add_mul_emod_self_left, Int.add_comm (s * a'),
    Int.add_mul_emod_self_left, Int.emod_eq_of_lt hb hbs, Int.emod_eq_of_lt hb' hbs'] at hmod
  subst hmod
  have : s * a = s * a' := by omega
  exact ⟨Int.eq_of_mul_eq_mul_left (by omega) this, rfl⟩

theorem digits_range (s d i : Int) (hd : 0 ≤ d) (hds : d < s) (hi : 0 ≤ i) (his : i < s) :
    0 ≤ s * d + i ∧ s * d + i < s * s := by
  have hs : 0 < s := by omega
  constructor
  · have := Int.mul_nonneg (le_of_lt hs) hd; omega
  · have : s * d ≤ s * (s - 1) := Int.mul_le_mul_of_nonneg_left (by omega) (le_of_lt hs)
    have h2 : s * (s - 1) = s * s - s := by ring
    omega

theorem digits_exist (s n : Int) (hs : 0 < s) (hn : 0 ≤ n) (hns : n < s * s) :
    ∃ d i : Int, 0 ≤ d ∧ d < s ∧ 0 ≤ i ∧ i < s ∧ s * d + i = n := by
  refine ⟨n / s, n % s, Int.ediv_nonneg hn (le_of_lt hs), ?_, Int.emod_nonneg _ (by omega),
    Int.emod_lt_of_pos _ hs, Int.ediv_add_emod n s⟩
  exact Int.ediv_lt_of_lt_mul hs hns

section Serial

variable {T : Type} [LinearOrderedField T] [FloorRing T]

/-- The general branch of `isea_disn` on an integer pair `(d, i)`. -/
theorem isea_disn_general_eq (g : isea_dgg T) (quad d i : Int) (hq0 : quad ≠ 0)
    (hq11 : quad ≠ 11) (hbr : ¬ (g.aperture = 3 ∧ g.resolution.tmod 2 = 1)) :
    isea_disn g quad { x := (d : T), y := (i : T) }
      = ((quad - 1) * pow_round g.aperture g.resolution
            + pow_half_round g.aperture g.resolution * d + i + 2,
          { g with serial := (quad - 1) * pow_round g.aperture g.resolution
            + pow_half_round g.aperture g.resolution * d + i + 2 }) := by
  have hc : ((((quad - 1) * pow_round g.aperture g.resolution : Int) : T)
      + ((pow_half_round g.aperture g.resolution : Int) : T) * (d : T) + (i : T) + 2)
      = ((((quad - 1) * pow_round g.aperture g.resolution
            + pow_half_round g.aperture g.resolution * d + i + 2 : Int)) : T) := by
    push_cast; ring
  simp only [isea_disn, if_neg hq0, if_neg hq11, if_neg hbr, hc, c_int_intCast]

/-- The side length and cell count of the general branch, for aperture 4 and
for aperture 3 at an even resolution. -/
theorem general_sidelength (a : Int) (r : Nat) (ha : a = 4 ∨ (a = 3 ∧ r % 2 = 0)) :
    pow_round a (r : Int) = a ^ r ∧ 1 ≤ pow_half_round a (r : Int) ∧
      pow_half_round a (r : Int) * pow_half_round a (r : Int) = a ^ r ∧
      ¬ (a = 3 ∧ (r : Int).tmod 2 = 1) := by
  rcases ha with rfl | ⟨rfl, hr⟩
  · refine ⟨pow_round_nat 4 r (by norm_num), ?_, ?_, by norm_num⟩
    · rw [pow_half_round_four]; exact one_le_pow₀ (by norm_num)
    · rw [pow_half_round_four, ← mul_pow]; norm_num
  · obtain ⟨k, rfl⟩ : ∃ k, r = 2 * k := ⟨r / 2, by omega⟩
    refine ⟨pow_round_nat 3 _ (by norm_num), ?_, ?_, ?_⟩
    · rw [pow_half_round_three]; exact one_le_pow₀ (by norm_num)
    · rw [pow_half_round_three, ← pow_add]; congr 1; omega
    · rintro ⟨-, h⟩
      rw [Int.tmod_eq_emod (by positivity) (by norm_num)] at h
      omega

end Serial

/-! ## Claims about the serial number -/

section SerialClaims

variable {T : Type} [LinearOrderedField T] [FloorRing T]

/-- C1: for aperture 4 at any resolution `r ≥ 0` and for aperture 3 at an even
resolution, with `hexes = aperture ^ r` and `s` the side length (`s ≥ 1`,
`s * s = hexes`, i.e. `s = aperture ^ (r / 2)`), `isea_disn` on a quad in 1..10
and an integer pair `0 ≤ d, i < s` returns and stores
`(quad - 1) * hexes + s * d + i + 2`, a value in `2 .. 10 * hexes + 1`; distinct
`(quad, d, i)` get distinct serials, and every integer in `2 .. 10 * hexes + 1`
is the serial of some `(quad, d, i)` in that range. -/
theorem isea_disn_general_bijection (g : isea_dgg T) (r : Nat)
    (hr : g.resolution = (r : Int))
    (ha : g.aperture = 4 ∨ (g.aperture = 3 ∧ r % 2 = 0)) :
    ∃ s hexes : Int, hexes = g.aperture ^ r ∧ 1 ≤ s ∧ s * s = hexes ∧
      (∀ quad d i : Int, 1 ≤ quad → quad ≤ 10 → 0 ≤ d → d < s → 0 ≤ i → i < s →
        (isea_disn g quad { x := (d : T), y := (i : T) }).1
            = (quad - 1) * hexes + s * d + i + 2 ∧
        (isea_disn g quad { x := (d : T), y := (i : T) }).2.serial
            = (quad - 1) * hexes + s * d + i + 2 ∧
        2 ≤ (isea_disn g quad { x := (d : T), y := (i : T) }).1 ∧
        (isea_disn g quad { x := (d : T), y := (i : T) }).1 ≤ 10 * hexes + 1) ∧
      (∀ quad d i quad' d' i' : Int,
        1 ≤ quad → quad ≤ 10 → 0 ≤ d → d < s → 0 ≤ i → i < s →
        1 ≤ quad' → quad' ≤ 10 → 0 ≤ d' → d' < s → 0 ≤ i' → i' < s →
        (isea_disn g quad { x := (d : T), y := (i : T) }).1
            = (isea_disn g quad' { x := (d' : T), y := (i' : T) }).1 →
        quad = quad' ∧ d = d' ∧ i = i') ∧
      (∀ n : Int, 2 ≤ n → n ≤ 10 * hexes + 1 →
        ∃ quad d i : Int, 1 ≤ quad ∧ quad ≤ 10 ∧ 0 ≤ d ∧ d < s ∧ 0 ≤ i ∧ i < s ∧
          (isea_disn g quad { x := (d : T), y := (i : T) }).1 = n) := by
  obtain ⟨hhex, hs1, hss, hbr⟩ := general_sidelength g.aperture r ha
  rw [← hr] at hhex hs1 hss hbr
  have hval : ∀ quad d i : Int, 1 ≤ quad → quad ≤ 10 →
      isea_disn g quad { x := (d : T), y := (i : T) }
        = ((quad - 1) * g.aperture ^ r + pow_half_round g.aperture g.resolution * d + i + 2,
          { g with serial := (quad - 1) * g.aperture ^ r
              + pow_half_round g.aperture g.resolution * d + i + 2 }) := by
    intro quad d i h1 h10
    rw [isea_disn_general_eq g quad d i (by omega) (by omega) hbr, hhex]
  refine ⟨pow_half_round g.aperture g.resolution, g.aperture ^ r, rfl, hs1, hss, ?_, ?_, ?_⟩
  · intro quad d i h1 h10 hd hds hi his
    rw [hval quad d i h1 h10]
    obtain ⟨hlo, hhi⟩ := digits_range _ d i hd hds hi his
    rw [hss] at hhi
    have hH : 0 < g.aperture ^ r := by rw [← hss]; positivity
    refine ⟨rfl, rfl, ?_, ?_⟩
    · have : 0 ≤ (quad - 1) * g.aperture ^ r :=
        Int.mul_nonneg (by omega) (le_of_lt hH)
      show 2 ≤ (quad - 1) * g.aperture ^ r
        + pow_half_round g.aperture g.resolution * d + i + 2
      omega
    · have : (quad - 1) * g.aperture ^ r ≤ 9 * g.aperture ^ r :=
        Int.mul_le_mul_of_nonneg_right (by omega) (le_of_lt hH)
      show (quad - 1) * g.aperture ^ r
        + pow_half_round g.aperture g.resolution * d + i + 2 ≤ 10 * g.aperture ^ r + 1
      omega
  · intro quad d i quad' d' i' h1 h10 hd hds hi his h1' h10' hd' hds' hi' his' heq
    rw [hval quad d i h1 h10, hval quad' d' i' h1' h10'] at heq
    obtain ⟨hlo, hhi⟩ := digits_range _ d i hd hds hi his
    obtain ⟨hlo', hhi'⟩ := digits_range _ d' i' hd' hds' hi' his'
    rw [hss] at hhi hhi'
    have heq2 : g.aperture ^ r * (quad - 1)
          + (pow_half_round g.aperture g.resolution * d + i)
        = g.aperture ^ r * (quad' - 1)
          + (pow_half_round g.aperture g.resolution * d' + i') := by
      have h3 : (quad - 1) * g.aperture ^ r
            + pow_half_round g.aperture g.resolution * d + i + 2
          = (quad' - 1) * g.aperture ^ r
            + pow_half_round g.aperture g.resolution * d' + i' + 2 := heq
      linarith
    obtain ⟨hq, hrem⟩ := digits_unique _ _ _ _ _ hlo hhi hlo' hhi' heq2
    obtain ⟨hdd, hii⟩ := digits_unique _ _ _ _ _ hi his hi' his' hrem
    exact ⟨by omega, hdd, hii⟩
  · intro n hn2 hn
    have hH : 0 < g.aperture ^ r := by rw [← hss]; positivity
    have hm0 : 0 ≤ (n - 2) % g.aperture ^ r := Int.emod_nonneg _ (by omega)
    have hm1 : (n - 2) % g.aperture ^ r < g.aperture ^ r := Int.emod_lt_of_pos _ hH
    obtain ⟨d, i, hd, hds, hi, his, hdi⟩ :=
      digits_exist (pow_half_round g.aperture g.resolution) ((n - 2) % g.aperture ^ r)
        (by omega) hm0 (by rw [hss]; exact hm1)
    have hq0 : 0 ≤ (n - 2) / g.aperture ^ r := Int.ediv_nonneg (by omega) (le_of_lt hH)
    have hq1 : (n - 2) / g.aperture ^ r < 10 :=
      Int.ediv_lt_of_lt_mul hH (by omega)
    refine ⟨(n - 2) / g.aperture ^ r + 1, d, i, by omega, by omega, hd, hds, hi, his, ?_⟩
    rw [hval _ d i (by omega) (by omega)]
    have hdm := Int.ediv_add_emod (n - 2) (g.aperture ^ r)
    show ((n - 2) / g.aperture ^ r + 1 - 1) * g.aperture ^ r
        + pow_half_round g.aperture g.resolution * d + i + 2 = n
    have e1 : ((n - 2) / g.aperture ^ r + 1 - 1) * g.aperture ^ r
        = g.aperture ^ r * ((n - 2) / g.aperture ^ r) := by ring
    rw [e1]
    omega

end SerialClaims


/-- Witness of C1: aperture 4 at resolution 1 over the rationals. -/
theorem isea_disn_general_bijection_witness :
    (sample_dgg ℚ 4 1 isea_address_form.ISEA_SEQNUM).resolution = ((1 : Nat) : Int) ∧
    ((sample_dgg ℚ 4 1 isea_address_form.ISEA_SEQNUM).aperture = 4 ∨
      ((sample_dgg ℚ 4 1 isea_address_form.ISEA_SEQNUM).aperture = 3 ∧ 1 % 2 = 0)) ∧
    ∃ s hexes : Int,
      hexes = (sample_dgg ℚ 4 1 isea_address_form.ISEA_SEQNUM).aperture ^ 1 ∧ 1 ≤ s ∧
      s * s = hexes ∧
      (∀ quad d i : Int, 1 ≤ quad → quad ≤ 10 → 0 ≤ d → d < s → 0 ≤ i → i < s →
        (isea_disn (sample_dgg ℚ 4 1 isea_address_form.ISEA_SEQNUM) quad
            { x := (d : ℚ), y := (i : ℚ) }).1 = (quad - 1) * hexes + s * d + i + 2 ∧
        (isea_disn (sample_dgg ℚ 4 1 isea_address_form.ISEA_SEQNUM) quad
            { x := (d : ℚ), y := (i : ℚ) }).2.serial = (quad - 1) * hexes + s * d + i + 2 ∧
        2 ≤ (isea_disn (sample_dgg ℚ 4 1 isea_address_form.ISEA_SEQNUM) quad
            { x := (d : ℚ), y := (i : ℚ) }).1 ∧
        (isea_disn (sample_dgg ℚ 4 1 isea_address_form.ISEA_SEQNUM) quad
            { x := (d : ℚ), y := (i : ℚ) }).1 ≤ 10 * hexes + 1) ∧
      (∀ quad d i quad' d' i' : Int,
        1 ≤ quad → quad ≤ 10 → 0 ≤ d → d < s → 0 ≤ i → i < s →
        1 ≤ quad' → quad' ≤ 10 → 0 ≤ d' → d' < s → 0 ≤ i' → i' < s →
        (isea_disn (sample_dgg ℚ 4 1 isea_address_form.ISEA_SEQNUM) quad
            { x := (d : ℚ), y := (i : ℚ) }).1
          = (isea_disn (sample_dgg ℚ 4 1 isea_address_form.ISEA_SEQNUM) quad'
            { x := (d' : ℚ), y := (i' : ℚ) }).1 →
        quad = quad' ∧ d = d' ∧ i = i') ∧
      (∀ n : Int, 2 ≤ n → n ≤ 10 * hexes + 1 →
        ∃ quad d i : Int, 1 ≤ quad ∧ quad ≤ 10 ∧ 0 ≤ d ∧ d < s ∧ 0 ≤ i ∧ i < s ∧
          (isea_disn (sample_dgg ℚ 4 1 isea_address_form.ISEA_SEQNUM) quad
            { x := (d : ℚ), y := (i : ℚ) }).1 = n) :=
  ⟨rfl, Or.inl rfl,
    isea_disn_general_bijection (sample_dgg ℚ 4 1 isea_address_form.ISEA_SEQNUM) 1 rfl
      (Or.inl rfl)⟩

section PoleClaims

variable {T : Type} [LinearOrderedField T] [FloorRing T]

end PoleClaims

section HexClaims

variable {T : Type} [LinearOrderedField T] [FloorRing T]

/-- The cube triple of `hexbin2_cube` sums to zero. -/
theorem hexbin2_cube_sum (x y : T) :
    (hexbin2_cube x y).1 + (hexbin2_cube x y).2.1 + (hexbin2_cube x y).2.2 = 0 := by
  unfold hexbin2_cube
  simp only
  split_ifs <;> simp only <;> omega

/-- The cell written by `hex_iso` from an offset-form hex is in cube form and
sums to zero. -/
theorem hex_iso_sum (h : hex) (hiso : h.iso = 0) :
    (hex_iso h).iso = 1 ∧ (hex_iso h).x + (hex_iso h).y + (hex_iso h).z = 0 := by
  unfold hex_iso
  rw [if_neg (by simp [hiso])]
  simp only
  constructor
  · trivial
  · omega

/-- C3: for every planar point `(x, y)` and every cell width, the integer cube
triple `(ix, iy, iz)` that `hexbin2` ends with (rounding and correction of the
scaled coordinates) sums to zero, and the cell that `isea_dddi` and
`isea_dddi_ap3odd` obtain from the binned point through `hex_iso` is in cube
form (`iso = 1`) with `x + y + z = 0`. -/
theorem hexbin2_cube_invariant (M : Libm T) (g : isea_dgg T) (width x y : T)
    (pt : isea_pt T) :
    ((hexbin2_cube (hexbin2_scale M width x y).1 (hexbin2_scale M width x y).2).1
      + (hexbin2_cube (hexbin2_scale M width x y).1 (hexbin2_scale M width x y).2).2.1
      + (hexbin2_cube (hexbin2_scale M width x y).1 (hexbin2_scale M width x y).2).2.2 = 0) ∧
    ((isea_dddi_cell M g pt).iso = 1 ∧
      (isea_dddi_cell M g pt).x + (isea_dddi_cell M g pt).y + (isea_dddi_cell M g pt).z = 0) ∧
    ((isea_dddi_ap3odd_cell M g pt).iso = 1 ∧
      (isea_dddi_ap3odd_cell M g pt).x + (isea_dddi_ap3odd_cell M g pt).y
        + (isea_dddi_ap3odd_cell M g pt).z = 0) :=
  ⟨hexbin2_cube_sum _ _, hex_iso_sum _ rfl, hex_iso_sum _ rfl⟩

/-- C4: in `hexbin2`, with `s` the sum of the three independent roundings
`floor(v + 0.5)`: if `s = 0` the final triple is the rounded triple; if `s ≠ 0`
exactly one coordinate is changed, by subtracting `s`, and its residual
`|round(v) - v|` is maximal among the three, ties going to x before y before z;
the other two axes keep their rounded values. -/
theorem hexbin2_largest_residual (x y : T) :
    ((hexbin2_rounded x y).1 + (hexbin2_rounded x y).2.1 + (hexbin2_rounded x y).2.2 = 0 →
      hexbin2_cube x y = hexbin2_rounded x y) ∧
    ((hexbin2_rounded x y).1 + (hexbin2_rounded x y).2.1 + (hexbin2_rounded x y).2.2 ≠ 0 →
      (hexbin2_cube x y
          = ((hexbin2_rounded x y).1
              - ((hexbin2_rounded x y).1 + (hexbin2_rounded x y).2.1
                  + (hexbin2_rounded x y).2.2),
             (hexbin2_rounded x y).2.1, (hexbin2_rounded x y).2.2) ∧
        |((hexbin2_rounded x y).2.1 : T) - y| ≤ |((hexbin2_rounded x y).1 : T) - x| ∧
        |((hexbin2_rounded x y).2.2 : T) - (-x - y)| ≤ |((hexbin2_rounded x y).1 : T) - x|) ∨
      (hexbin2_cube x y
          = ((hexbin2_rounded x y).1,
             (hexbin2_rounded x y).2.1
              - ((hexbin2_rounded x y).1 + (hexbin2_rounded x y).2.1
                  + (hexbin2_rounded x y).2.2),
             (hexbin2_rounded x y).2.2) ∧
        |((hexbin2_rounded x y).1 : T) - x| < |((hexbin2_rounded x y).2.1 : T) - y| ∧
        |((hexbin2_rounded x y).2.2 : T) - (-x - y)| ≤ |((hexbin2_rounded x y).2.1 : T) - y|) ∨
      (hexbin2_cube x y
          = ((hexbin2_rounded x y).1, (hexbin2_rounded x y).2.1,
             (hexbin2_rounded x y).2.2
              - ((hexbin2_rounded x y).1 + (hexbin2_rounded x y).2.1
                  + (hexbin2_rounded x y).2.2)) ∧
        |((hexbin2_rounded x y).1 : T) - x| < |((hexbin2_rounded x y).2.2 : T) - (-x - y)| ∧
        |((hexbin2_rounded x y).2.1 : T) - y|
          < |((hexbin2_rounded x y).2.2 : T) - (-x - y)|)) := by
  unfold hexbin2_cube hexbin2_rounded
  simp only
  constructor
  · intro h0
    rw [if_neg (by simpa using h0)]
  · intro hs
    rw [if_pos hs]
    by_cases h1 : |((⌊x + 0.5⌋ : Int) : T) - x| ≥ |((⌊y + 0.5⌋ : Int) : T) - y| ∧
        |((⌊x + 0.5⌋ : Int) : T) - x| ≥ |((⌊-x - y + 0.5⌋ : Int) : T) - (-x - y)|
    · rw [if_pos h1]
      exact Or.inl ⟨rfl, h1.1, h1.2⟩
    · rw [if_neg h1]
      by_cases h2 : |((⌊y + 0.5⌋ : Int) : T) - y| ≥ |((⌊x + 0.5⌋ : Int) : T) - x| ∧
          |((⌊y + 0.5⌋ : Int) : T) - y| ≥ |((⌊-x - y + 0.5⌋ : Int) : T) - (-x - y)|
      · rw [if_pos h2]
        refine Or.inr (Or.inl ⟨rfl, ?_, h2.2⟩)
        by_contra hlt
        exact h1 ⟨not_lt.mp hlt, le_trans h2.2 (not_lt.mp hlt)⟩
      · rw [if_neg h2]
        refine Or.inr (Or.inr ⟨rfl, ?_, ?_⟩)
        · by_contra hlt
          have hzx := not_lt.mp hlt
          by_cases hxy : |((⌊y + 0.5⌋ : Int) : T) - y| ≤ |((⌊x + 0.5⌋ : Int) : T) - x|
          · exact h1 ⟨hxy, hzx⟩
          · exact h2 ⟨le_of_lt (not_le.mp hxy), le_trans hzx (le_of_lt (not_le.mp hxy))⟩
        · by_contra hlt
          have hzy := not_lt.mp hlt
          by_cases hxy : |((⌊x + 0.5⌋ : Int) : T) - x| ≤ |((⌊y + 0.5⌋ : Int) : T) - y|
          · exact h2 ⟨hxy, hzy⟩
          · exact h1 ⟨le_of_lt (not_le.mp hxy), le_trans hzy (le_of_lt (not_le.mp hxy))⟩

end HexClaims

/-- Witness of C4 at the scaled point `(1/3, 1/3)`, where the roundings
`(0, 0, -1)` sum to `-1` and the x axis is corrected to `1`. -/
theorem hexbin2_largest_residual_witness :
    (hexbin2_rounded ((1 : ℚ) / 3) (1 / 3)).1 + (hexbin2_rounded ((1 : ℚ) / 3) (1 / 3)).2.1
        + (hexbin2_rounded ((1 : ℚ) / 3) (1 / 3)).2.2 ≠ 0 ∧
    hexbin2_cube ((1 : ℚ) / 3) (1 / 3) = (1, 0, -1) := by
  have hr : hexbin2_rounded ((1 : ℚ) / 3) (1 / 3) = (0, 0, -1) := by
    unfold hexbin2_rounded
    norm_num [Int.floor_eq_iff]
  have hne : (hexbin2_rounded ((1 : ℚ) / 3) (1 / 3)).1
      + (hexbin2_rounded ((1 : ℚ) / 3) (1 / 3)).2.1
      + (hexbin2_rounded ((1 : ℚ) / 3) (1 / 3)).2.2 ≠ 0 := by
    rw [hr]; decide
  refine ⟨hne, ?_⟩
  rcases (hexbin2_largest_residual ((1 : ℚ) / 3) (1 / 3)).2 hne with h | h | h
  · rw [h.1, hr]; rfl
  · exfalso
    have := h.2.1
    rw [hr] at this
    norm_num at this
  · exfalso
    have := h.2.1
    rw [hr] at this
    norm_num at this


/-- C5: `hex_xy` and `hex_iso` are mutually inverse: on a cube-form hex
(`iso = 1`) with `x + y + z = 0`, `hex_iso` after `hex_xy` gives the hex back;
on an offset-form hex (`iso = 0`), `hex_xy` after `hex_iso` gives back the same
`x`, `y` and `iso`; hence the map from cube `(x, y)` to offset `(x, y)` is a
bijection of integer pairs, negative `x` included. -/
theorem hex_xy_hex_iso_inverse :
    (∀ h : hex, h.iso = 1 → h.x + h.y + h.z = 0 → hex_iso (hex_xy h) = h) ∧
    (∀ h : hex, h.iso = 0 →
      (hex_xy (hex_iso h)).x = h.x ∧ (hex_xy (hex_iso h)).y = h.y ∧
        (hex_xy (hex_iso h)).iso = h.iso) ∧
    Function.Bijective (fun p : Int × Int =>
      ((hex_xy { iso := 1, x := p.1, y := p.2, z := -p.1 - p.2 }).x,
       (hex_xy { iso := 1, x := p.1, y := p.2, z := -p.1 - p.2 }).y)) := by
  have hcube : ∀ h : hex, h.iso = 1 → h.x + h.y + h.z = 0 → hex_iso (hex_xy h) = h := by
    intro h hiso hsum
    obtain ⟨iso, x, y, z⟩ := h
    simp only at hiso hsum
    subst hiso
    by_cases hx : x ≥ 0
    · simp only [hex_xy, hex_iso, if_pos hx, one_ne_zero, if_false, ne_eq, not_true_eq_false,
        hex.mk.injEq, true_and]
      omega
    · simp only [hex_xy, hex_iso, if_neg hx, one_ne_zero, if_false, ne_eq, not_true_eq_false,
        hex.mk.injEq, true_and]
      omega
  have hoff : ∀ h : hex, h.iso = 0 →
      (hex_xy (hex_iso h)).x = h.x ∧ (hex_xy (hex_iso h)).y = h.y ∧
        (hex_xy (hex_iso h)).iso = h.iso := by
    intro h hiso
    obtain ⟨iso, x, y, z⟩ := h
    simp only at hiso
    subst hiso
    by_cases hx : x ≥ 0
    · simp only [hex_xy, hex_iso, if_pos hx, one_ne_zero, if_false, ne_eq, not_true_eq_false,
        true_and, and_true]
      omega
    · simp only [hex_xy, hex_iso, if_neg hx, one_ne_zero, if_false, ne_eq, not_true_eq_false,
        true_and, and_true]
      omega
  refine ⟨hcube, hoff, ?_, ?_⟩
  · intro p q hpq
    have hp := hcube { iso := 1, x := p.1, y := p.2, z := -p.1 - p.2 } rfl
      (by simp only; omega)
    have hq := hcube { iso := 1, x := q.1, y := q.2, z := -q.1 - q.2 } rfl
      (by simp only; omega)
    simp only [Prod.mk.injEq] at hpq
    have hsame : hex_xy { iso := 1, x := p.1, y := p.2, z := -p.1 - p.2 }
        = hex_xy { iso := 1, x := q.1, y := q.2, z := -q.1 - q.2 } := by
      have hx1 : (hex_xy { iso := 1, x := p.1, y := p.2, z := -p.1 - p.2 }).x = p.1 := by
        unfold hex_xy; split_ifs <;> rfl
      have hx2 : (hex_xy { iso := 1, x := q.1, y := q.2, z := -q.1 - q.2 }).x = q.1 := by
        unfold hex_xy; split_ifs <;> rfl
      have hxx : p.1 = q.1 := by rw [← hx1, ← hx2]; exact hpq.1
      have hy := hpq.2
      unfold hex_xy at hy ⊢
      rw [hxx] at hy ⊢
      split_ifs at hy ⊢ <;> simp_all
    have : ({ iso := 1, x := p.1, y := p.2, z := -p.1 - p.2 } : hex)
        = { iso := 1, x := q.1, y := q.2, z := -q.1 - q.2 } := by
      rw [← hp, ← hq, hsame]
    simp only [hex.mk.injEq, true_and] at this
    exact Prod.ext this.1 this.2.1
  · intro q
    have ho := hoff { iso := 0, x := q.1, y := q.2, z := 0 } rfl
    have hform : hex_iso { iso := 0, x := q.1, y := q.2, z := 0 }
        = { iso := 1, x := (hex_iso { iso := 0, x := q.1, y := q.2, z := 0 }).x,
            y := (hex_iso { iso := 0, x := q.1, y := q.2, z := 0 }).y,
            z := -(hex_iso { iso := 0, x := q.1, y := q.2, z := 0 }).x
                  - (hex_iso { iso := 0, x := q.1, y := q.2, z := 0 }).y } := by
      unfold hex_iso
      simp
    refine ⟨((hex_iso { iso := 0, x := q.1, y := q.2, z := 0 }).x,
      (hex_iso { iso := 0, x := q.1, y := q.2, z := 0 }).y), ?_⟩
    simp only
    rw [← hform]
    exact Prod.ext ho.1 ho.2.1

/-- Witness of C5 at a cell with negative `x`. -/
theorem hex_xy_hex_iso_inverse_witness :
    hex_iso (hex_xy { iso := 1, x := -3, y := 1, z := 2 }) = { iso := 1, x := -3, y := 1, z := 2 } ∧
    (hex_xy (hex_iso { iso := 0, x := -3, y := 5, z := 0 })).y = 5 :=
  ⟨hex_xy_hex_iso_inverse.1 { iso := 1, x := -3, y := 1, z := 2 } (by decide) (by decide),
    (hex_xy_hex_iso_inverse.2.1 { iso := 0, x := -3, y := 5, z := 0 } (by decide)).2.1⟩

/-- The quad returned by the general boundary remapping stays in `0 .. 11`. -/
theorem isea_dddi_remap_quad_range (sidelength quad : Int) (h : hex) (h1 : 1 ≤ quad)
    (h10 : quad ≤ 10) :
    0 ≤ (isea_dddi_remap sidelength quad h).1 ∧ (isea_dddi_remap sidelength quad h).1 ≤ 11 := by
  unfold isea_dddi_remap
  split_ifs <;> simp only <;> omega

/-- The quad returned by the aperture-3-odd boundary remapping stays in `0 .. 11`. -/
theorem isea_dddi_ap3odd_remap_quad_range (maxcoord quad d i : Int) (h1 : 1 ≤ quad)
    (h10 : quad ≤ 10) :
    0 ≤ (isea_dddi_ap3odd_remap maxcoord quad d i).1 ∧
      (isea_dddi_ap3odd_remap maxcoord quad d i).1 ≤ 11 := by
  have hmod : 6 ≤ quad → 0 ≤ (quad - 4).tmod 5 ∧ (quad - 4).tmod 5 ≤ 11 := by
    intro h6
    rw [Int.tmod_eq_emod (by omega) (by norm_num)]
    omega
  unfold isea_dddi_ap3odd_remap
  split_ifs <;> simp only <;> omega

section QuadClaims

variable {T : Type} [LinearOrderedField T] [FloorRing T]

/-- The quad computed by `isea_ptdd`. -/
theorem isea_ptdd_quad (M : Libm T) (tri : Int) (pt : isea_pt T) :
    (isea_ptdd M tri pt).1 = (tri - 1).tmod 5 + (tri - 1).tdiv 10 * 5 + 1 := by
  unfold isea_ptdd
  simp only
  split_ifs <;> rfl

/-- The quad of `isea_ptdd` is in `1 .. 10` for a triangle in `1 .. 20`. -/
theorem isea_ptdd_quad_range (M : Libm T) (tri : Int) (pt : isea_pt T) (h1 : 1 ≤ tri)
    (h20 : tri ≤ 20) : 1 ≤ (isea_ptdd M tri pt).1 ∧ (isea_ptdd M tri pt).1 ≤ 10 := by
  rw [isea_ptdd_quad]
  rw [Int.tmod_eq_emod (by omega) (by norm_num), Int.tdiv_eq_ediv (by omega) (by norm_num)]
  omega

/-- The quad returned by `isea_dddi` is the one it stores in `g->quad`. -/
theorem isea_dddi_stores_quad (M : Libm T) (g : isea_dgg T) (quad : Int) (pt : isea_pt T) :
    (isea_dddi M g quad pt).2.2.quad = (isea_dddi M g quad pt).1 := by
  unfold isea_dddi isea_dddi_ap3odd
  split_ifs <;> rfl

/-- The quad returned by `isea_dddi` on a quad in `1 .. 10` is in `0 .. 11`. -/
theorem isea_dddi_quad_range (M : Libm T) (g : isea_dgg T) (quad : Int) (pt : isea_pt T)
    (h1 : 1 ≤ quad) (h10 : quad ≤ 10) :
    0 ≤ (isea_dddi M g quad pt).1 ∧ (isea_dddi M g quad pt).1 ≤ 11 := by
  unfold isea_dddi isea_dddi_ap3odd
  split_ifs
  · exact isea_dddi_ap3odd_remap_quad_range _ quad _ _ h1 h10
  · exact isea_dddi_remap_quad_range _ quad _ h1 h10

/-- C7: for every triangle id in `1 .. 20`, every configuration and every planar
point, the quad returned by `isea_ptdd` is in `1 .. 10`, and the quad returned
by `isea_ptdi` (from `isea_dddi` or `isea_dddi_ap3odd`, after any boundary
remapping) is in `0 .. 11` and is the value stored in the configuration's
`quad` field. -/
theorem quad_id_range (M : Libm T) (g : isea_dgg T) (tri : Int) (pt : isea_pt T)
    (h1 : 1 ≤ tri) (h20 : tri ≤ 20) :
    (1 ≤ (isea_ptdd M tri pt).1 ∧ (isea_ptdd M tri pt).1 ≤ 10) ∧
    (0 ≤ (isea_ptdi M g tri pt).1 ∧ (isea_ptdi M g tri pt).1 ≤ 11) ∧
    (isea_ptdi M g tri pt).2.2.quad = (isea_ptdi M g tri pt).1 := by
  obtain ⟨hq1, hq10⟩ := isea_ptdd_quad_range M tri pt h1 h20
  refine ⟨⟨hq1, hq10⟩, ?_, ?_⟩
  · exact isea_dddi_quad_range M g _ _ hq1 hq10
  · exact isea_dddi_stores_quad M g _ _

/-- C8: when the binned cube cell lies in the quad's interior the quad id is
returned unchanged and `(d, i)` is read off the cell: in the general variant
of `isea_dddi`, `(d, i) = (x, -z)` whenever `0 ≤ x < sidelength` and
`0 ≤ -z < sidelength`; in `isea_dddi_ap3odd`, `(d, i) = (x - z, x + 2 y)`
whenever `0 ≤ x - z < maxcoord` and `0 ≤ x + 2 y < maxcoord`. -/
theorem isea_dddi_interior (M : Libm T) (g : isea_dgg T) (quad : Int) (pt : isea_pt T) :
    (¬ (g.aperture = 3 ∧ g.resolution.tmod 2 ≠ 0) →
      0 ≤ (isea_dddi_cell M g pt).x → (isea_dddi_cell M g pt).x < isea_dddi_sidelength g →
      0 ≤ -(isea_dddi_cell M g pt).z → -(isea_dddi_cell M g pt).z < isea_dddi_sidelength g →
      isea_dddi M g quad pt
        = (quad, { x := ((isea_dddi_cell M g pt).x : T),
                   y := ((-(isea_dddi_cell M g pt).z : Int) : T) },
            { g with quad := quad })) ∧
    (0 ≤ (isea_dddi_ap3odd_cell M g pt).x - (isea_dddi_ap3odd_cell M g pt).z →
      (isea_dddi_ap3odd_cell M g pt).x - (isea_dddi_ap3odd_cell M g pt).z
        < isea_dddi_ap3odd_maxcoord g →
      0 ≤ (isea_dddi_ap3odd_cell M g pt).x + 2 * (isea_dddi_ap3odd_cell M g pt).y →
      (isea_dddi_ap3odd_cell M g pt).x + 2 * (isea_dddi_ap3odd_cell M g pt).y
        < isea_dddi_ap3odd_maxcoord g →
      isea_dddi_ap3odd M g quad pt
        = (quad,
            { x := (((isea_dddi_ap3odd_cell M g pt).x - (isea_dddi_ap3odd_cell M g pt).z : Int) : T),
              y := (((isea_dddi_ap3odd_cell M g pt).x
                      + 2 * (isea_dddi_ap3odd_cell M g pt).y : Int) : T) },
            { g with quad := quad })) := by
  constructor
  · intro hbr hx0 hxs hz0 hzs
    obtain ⟨-, hsum⟩ : (isea_dddi_cell M g pt).iso = 1 ∧
        (isea_dddi_cell M g pt).x + (isea_dddi_cell M g pt).y + (isea_dddi_cell M g pt).z = 0 :=
      hex_iso_sum _ rfl
    have hre : isea_dddi_remap (isea_dddi_sidelength g) quad (isea_dddi_cell M g pt)
        = (quad, isea_dddi_cell M g pt) := by
      unfold isea_dddi_remap
      split_ifs <;> first | rfl | (exfalso; omega)
    unfold isea_dddi
    rw [if_neg hbr]
    simp only [hre]
  · intro hd0 hdm hi0 him
    have e : (isea_dddi_ap3odd_cell M g pt).x + (isea_dddi_ap3odd_cell M g pt).y
          + (isea_dddi_ap3odd_cell M g pt).y
        = (isea_dddi_ap3odd_cell M g pt).x + 2 * (isea_dddi_ap3odd_cell M g pt).y := by ring
    have hre : isea_dddi_ap3odd_remap (isea_dddi_ap3odd_maxcoord g) quad
          ((isea_dddi_ap3odd_cell M g pt).x - (isea_dddi_ap3odd_cell M g pt).z)
          ((isea_dddi_ap3odd_cell M g pt).x + 2 * (isea_dddi_ap3odd_cell M g pt).y)
        = (quad, (isea_dddi_ap3odd_cell M g pt).x - (isea_dddi_ap3odd_cell M g pt).z,
            (isea_dddi_ap3odd_cell M g pt).x + 2 * (isea_dddi_ap3odd_cell M g pt).y) := by
      unfold isea_dddi_ap3odd_remap
      split_ifs <;> first | rfl | (exfalso; omega)
    unfold isea_dddi_ap3odd
    simp only [e, hre]

end QuadClaims

/-- Witness of C7: triangle 11 over the rationals. -/
theorem quad_id_range_witness :
    (1 : Int) ≤ 11 ∧ (11 : Int) ≤ 20 ∧
    (1 ≤ (isea_ptdd rational_libm 11 { x := 0.75, y := 0.42 }).1 ∧
      (isea_ptdd rational_libm 11 { x := 0.75, y := 0.42 }).1 ≤ 10) ∧
    (0 ≤ (isea_ptdi rational_libm (sample_dgg ℚ 4 1 isea_address_form.ISEA_Q2DI) 11
          { x := 0.75, y := 0.42 }).1 ∧
      (isea_ptdi rational_libm (sample_dgg ℚ 4 1 isea_address_form.ISEA_Q2DI) 11
          { x := 0.75, y := 0.42 }).1 ≤ 11) ∧
    (isea_ptdi rational_libm (sample_dgg ℚ 4 1 isea_address_form.ISEA_Q2DI) 11
        { x := 0.75, y := 0.42 }).2.2.quad
      = (isea_ptdi rational_libm (sample_dgg ℚ 4 1 isea_address_form.ISEA_Q2DI) 11
        { x := 0.75, y := 0.42 }).1 :=
  ⟨by decide, by decide,
    quad_id_range rational_libm (sample_dgg ℚ 4 1 isea_address_form.ISEA_Q2DI) 11
      { x := 0.75, y := 0.42 } (by decide) (by decide)⟩

/-- The side length of the sample grid with aperture 4 at resolution 1 is 2. -/
theorem sample_sidelength_ap4_res1 (o : isea_address_form) :
    isea_dddi_sidelength (sample_dgg ℚ 4 1 o) = 2 := by
  simp only [isea_dddi_sidelength, sample_dgg]
  norm_num
  exact pow_half_round_four 1

/-- The value of `maxcoord` for the sample grid with aperture 3 at resolution 1 is 3. -/
theorem sample_maxcoord_ap3_res1 (o : isea_address_form) :
    isea_dddi_ap3odd_maxcoord (sample_dgg ℚ 3 1 o) = 3 := by
  simp only [isea_dddi_ap3odd_maxcoord, sample_dgg, c_int]
  norm_num [Int.floor_eq_iff]

/-- The quad-frame point `(0.25, 0.433)` bins to the cube cell `(1, 0, -1)` at side length 2. -/
theorem sample_cell_interior :
    isea_dddi_cell rational_libm (sample_dgg ℚ 4 1 isea_address_form.ISEA_Q2DI)
      { x := 0.25, y := 0.433 } = { iso := 1, x := 1, y := 0, z := -1 } := by
  simp only [isea_dddi_cell, sample_sidelength_ap4_res1]
  simp only [isea_rotate, d2r, two_pi, rational_libm, hexbin2, hexbin2_scale, hexbin2_cube, DEG30]
  norm_num [isea_rotate_down, isea_rotate_up, Int.floor_eq_iff, hex_xy, hex_iso]

/-- The quad-frame point `(0, 0.577)` bins to the cube cell `(0, 1, -1)` in the
aperture-3 grid at resolution 1. -/
theorem sample_cell_ap3odd_up (o : isea_address_form) :
    isea_dddi_ap3odd_cell rational_libm (sample_dgg ℚ 3 1 o)
      { x := 0, y := 0.577 } = { iso := 1, x := 0, y := 1, z := -1 } := by
  simp only [isea_dddi_ap3odd_cell, sample_dgg]
  simp only [rational_libm, hexbin2, hexbin2_scale, hexbin2_cube, DEG30, d2r]
  norm_num [Int.floor_eq_iff, hex_xy, hex_iso]

/-- The quad-frame point `(0.5, 0.2887)` bins to the cube cell `(1, 0, -1)` in the
aperture-3 grid at resolution 1. -/
theorem sample_cell_ap3odd_down (o : isea_address_form) :
    isea_dddi_ap3odd_cell rational_libm (sample_dgg ℚ 3 1 o)
      { x := 0.5, y := 0.2887 } = { iso := 1, x := 1, y := 0, z := -1 } := by
  simp only [isea_dddi_ap3odd_cell, sample_dgg]
  simp only [rational_libm, hexbin2, hexbin2_scale, hexbin2_cube, DEG30, d2r]
  norm_num [Int.floor_eq_iff, hex_xy, hex_iso]

/-- Witness of C8: an interior cell of each variant over the rationals. -/
theorem isea_dddi_interior_witness :
    isea_dddi rational_libm (sample_dgg ℚ 4 1 isea_address_form.ISEA_Q2DI) 3
        { x := 0.25, y := 0.433 }
      = (3, { x := 1, y := 1 },
          { sample_dgg ℚ 4 1 isea_address_form.ISEA_Q2DI with quad := 3 }) ∧
    isea_dddi_ap3odd rational_libm (sample_dgg ℚ 3 1 isea_address_form.ISEA_Q2DI) 3
        { x := 0, y := 0.577 }
      = (3, { x := 1, y := 2 },
          { sample_dgg ℚ 3 1 isea_address_form.ISEA_Q2DI with quad := 3 }) := by
  have h := isea_dddi_interior rational_libm (sample_dgg ℚ 4 1 isea_address_form.ISEA_Q2DI) 3
    { x := 0.25, y := 0.433 }
  have h3 := isea_dddi_interior rational_libm (sample_dgg ℚ 3 1 isea_address_form.ISEA_Q2DI) 3
    { x := 0, y := 0.577 }
  rw [sample_cell_interior, sample_sidelength_ap4_res1] at h
  rw [sample_cell_ap3odd_up, sample_maxcoord_ap3_res1] at h3
  constructor
  · have := h.1 (by simp [sample_dgg]) (by decide) (by decide) (by decide) (by decide)
    rw [this]
    norm_num
  · have := h3.2 (by decide) (by decide) (by decide) (by decide)
    rw [this]
    norm_num

/-- The northern half of the boundary rule: for a quad in `1 .. 5`, side length
`s ≥ 1` and a cube cell with `0 ≤ d ≤ s`, `0 ≤ i ≤ s` (`d = h.x`, `i = -h.z`), the
general remapping returns the north pole with `(d, i) = (0, 0)` or a quad in
`1 .. 10` with `0 ≤ d < s` and `0 ≤ i < s`. -/
theorem isea_dddi_remap_north (s quad : Int) (h : hex) (hq1 : 1 ≤ quad) (hq5 : quad ≤ 5)
    (hd0 : 0 ≤ h.x) (hds : h.x ≤ s) (hi0 : 0 ≤ -h.z) (his : -h.z ≤ s) :
    ((isea_dddi_remap s quad h).1 = 0 ∧ (isea_dddi_remap s quad h).2.x = 0 ∧
        (isea_dddi_remap s quad h).2.z = 0) ∨
    (1 ≤ (isea_dddi_remap s quad h).1 ∧ (isea_dddi_remap s quad h).1 ≤ 10 ∧
      0 ≤ (isea_dddi_remap s quad h).2.x ∧ (isea_dddi_remap s quad h).2.x < s ∧
      0 ≤ -(isea_dddi_remap s quad h).2.z ∧ -(isea_dddi_remap s quad h).2.z < s) := by
  unfold isea_dddi_remap
  rw [if_pos (by omega)]
  split_ifs <;> simp only <;>
    first
    | exact Or.inl ⟨trivial, trivial, trivial⟩
    | (right; omega)

/-- For every side length `s ≥ 1` and southern quad, the general remapping of
`isea_dddi` returns a cell on the edge `i = s` with `0 ≤ d < s` unchanged. -/
theorem isea_dddi_remap_south_edge (s quad d : Int) (h6 : 6 ≤ quad) (hd0 : 0 ≤ d)
    (hds : d < s) :
    isea_dddi_remap s quad { iso := 1, x := d, y := s - d, z := -s }
      = (quad, { iso := 1, x := d, y := s - d, z := -s }) := by
  unfold isea_dddi_remap
  rw [if_neg (by omega), if_pos (by omega)]
  simp only
  rw [if_neg (by omega), if_neg (by omega), if_neg (by omega)]

/-- C6 (the code at a failing input): in the grid with aperture 4 at
resolution 1 the side length is 2; for the southern quad 6 the general
remapping of `isea_dddi` leaves the cell `(x, y, z) = (1, 1, -2)`, that is
`(d, i) = (1, 2)` on the edge `i = sidelength`, in quad 6 unchanged, and
`isea_ptdi` returns that cell for the point `(0.75, 0.42)` of triangle 11; the
corner cell `(d, i) = (2, 2)` is sent to quad 7 with `(d, i)` still `(2, 2)`. -/
theorem isea_dddi_south_edge_not_remapped :
    isea_dddi_sidelength (sample_dgg ℚ 4 1 isea_address_form.ISEA_Q2DI) = 2 ∧
    isea_dddi_remap 2 6 { iso := 1, x := 1, y := 1, z := -2 }
      = (6, { iso := 1, x := 1, y := 1, z := -2 }) ∧
    isea_dddi_remap 2 6 { iso := 1, x := 2, y := 0, z := -2 }
      = (7, { iso := 1, x := 2, y := 0, z := -2 }) ∧
    isea_ptdi rational_libm (sample_dgg ℚ 4 1 isea_address_form.ISEA_Q2DI) 11
        { x := 0.75, y := 0.42 }
      = (6, { x := 1, y := 2 },
          { sample_dgg ℚ 4 1 isea_address_form.ISEA_Q2DI with quad := 6 }) := by
  refine ⟨sample_sidelength_ap4_res1 _, by decide, by decide, ?_⟩
  have hq : isea_ptdd rational_libm 11 { x := 0.75, y := 0.42 }
      = (6, { x := 5554000654670706209 / 493934225831054187840,
              y := 14858794883914814567773 / 17287697904086896574400 }) := by
    have e1 : Int.tdiv 10 5 = 2 := by decide
    have e2 : Int.tmod 2 2 = 0 := by decide
    have e3 : Int.tmod 10 5 = 0 := by decide
    have e4 : Int.tdiv 10 10 = 1 := by decide
    simp only [isea_ptdd, isea_rotate, d2r, two_pi, rational_libm]
    norm_num [isea_rotate_down, isea_rotate_up, e1, e2, e3, e4]
  have hc : isea_dddi_cell rational_libm (sample_dgg ℚ 4 1 isea_address_form.ISEA_Q2DI)
      { x := 5554000654670706209 / 493934225831054187840,
        y := 14858794883914814567773 / 17287697904086896574400 }
      = { iso := 1, x := 1, y := 1, z := -2 } := by
    simp only [isea_dddi_cell, sample_sidelength_ap4_res1]
    simp only [isea_rotate, d2r, two_pi, rational_libm, hexbin2, hexbin2_scale, hexbin2_cube,
      DEG30]
    norm_num [isea_rotate_down, isea_rotate_up, Int.floor_eq_iff, hex_xy, hex_iso]
  have hbr : ¬ ((sample_dgg ℚ 4 1 isea_address_form.ISEA_Q2DI).aperture = 3 ∧
      (sample_dgg ℚ 4 1 isea_address_form.ISEA_Q2DI).resolution.tmod 2 ≠ 0) := by
    simp [sample_dgg]
  simp only [isea_ptdi, hq, isea_dddi, if_neg hbr, hc, sample_sidelength_ap4_res1]
  have hre : isea_dddi_remap 2 6 { iso := 1, x := 1, y := 1, z := -2 }
      = (6, { iso := 1, x := 1, y := 1, z := -2 }) := by decide
  rw [hre]
  norm_num

/-! ## Claims about the output forms -/

/-- The configuration written by `isea_transform` is the input one with the
triangle stored. -/
theorem isea_transform_config {T : Type} [LinearOrderedField T] (F : FaceLocator T)
    (g : isea_dgg T) (p : isea_geo T)
    (tri : Int) (out0 : isea_pt T) (g1 : isea_dgg T)
    (h : isea_transform F g p = some (tri, out0, g1)) : g1 = { g with triangle := tri } := by
  unfold isea_transform at h
  simp only at h
  split at h
  · exact absurd h (by simp)
  · simp only [Option.some.injEq, Prod.mk.injEq] at h
    obtain ⟨h1, -, h3⟩ := h
    rw [← h3, h1]

/-- The stage `isea_transform` does not read the output form. -/
theorem isea_transform_output {T : Type} [LinearOrderedField T] (F : FaceLocator T)
    (g : isea_dgg T) (p : isea_geo T)
    (o : isea_address_form) :
    isea_transform F { g with output := o } p
      = (isea_transform F g p).map (fun r => (r.1, r.2.1, { r.2.2 with output := o })) := by
  unfold isea_transform
  simp only
  split <;> simp_all

section OutputClaims

variable {T : Type} [LinearOrderedField T] [FloorRing T]

/-- The configuration returned by `isea_disn` is the input one with the
returned serial number in its `serial` field. -/
theorem isea_disn_stores (g : isea_dgg T) (quad : Int) (di : isea_pt T) :
    (isea_disn g quad di).2 = { g with serial := (isea_disn g quad di).1 } := by
  unfold isea_disn
  split_ifs <;> rfl

/-- The quad and point of `isea_dddi` do not depend on the output form, which it
leaves in place. -/
theorem isea_dddi_output (M : Libm T) (g : isea_dgg T) (quad : Int) (pt : isea_pt T)
    (o : isea_address_form) :
    isea_dddi M { g with output := o } quad pt
      = ((isea_dddi M g quad pt).1, (isea_dddi M g quad pt).2.1,
          { (isea_dddi M g quad pt).2.2 with output := o }) := by
  unfold isea_dddi isea_dddi_ap3odd
  simp only
  split_ifs <;> rfl

/-- The configuration returned by `isea_dddi` is the input one with the returned
quad in its `quad` field. -/
theorem isea_dddi_config (M : Libm T) (g : isea_dgg T) (quad : Int) (pt : isea_pt T) :
    (isea_dddi M g quad pt).2.2 = { g with quad := (isea_dddi M g quad pt).1 } := by
  unfold isea_dddi isea_dddi_ap3odd
  split_ifs <;> rfl

/-- The serial number of `isea_disn` depends on the configuration only through
its aperture and resolution. -/
theorem isea_disn_fst_congr (g g' : isea_dgg T) (quad : Int) (di : isea_pt T)
    (ha : g.aperture = g'.aperture) (hr : g.resolution = g'.resolution) :
    (isea_disn g quad di).1 = (isea_disn g' quad di).1 := by
  unfold isea_disn
  rw [ha, hr]
  split_ifs <;> rfl

/-- C9 (amended): when the output form is ISEA_SEQNUM, the point that
`isea_forward` returns, and that `fwd` hands back to the caller, is the pair
`(d, i)` computed by `isea_ptdi`, the same point as in ISEA_Q2DI mode; the
serial number that `isea_disn` computes for the quad and `(d, i)` of the point
is written to the `serial` field of the configuration and is not returned. -/
theorem isea_forward_seqnum (M : Libm T) (F : FaceLocator T) (g : isea_dgg T)
    (p : isea_geo T) (hout : g.output = isea_address_form.ISEA_SEQNUM) :
    (isea_forward M F g p).map Prod.fst
      = (isea_forward M F { g with output := isea_address_form.ISEA_Q2DI } p).map Prod.fst ∧
    fwd M F g p.lon p.lat
      = fwd M F { g with output := isea_address_form.ISEA_Q2DI } p.lon p.lat ∧
    (isea_transform F g p = none → isea_forward M F g p = none) ∧
    (∀ (tri : Int) (out0 : isea_pt T) (g1 : isea_dgg T),
      isea_transform F g p = some (tri, out0, g1) →
      isea_forward M F g p
        = some ((isea_ptdi M g1 tri
              { x := out0.x / g1.radius * ISEA_SCALE + 0.5
                y := out0.y / g1.radius * ISEA_SCALE + 2.0 * 0.14433756729740644112 }).2.1,
            { (isea_ptdi M g1 tri
              { x := out0.x / g1.radius * ISEA_SCALE + 0.5
                y := out0.y / g1.radius * ISEA_SCALE + 2.0 * 0.14433756729740644112 }).2.2 with
              serial := (isea_disn g
                (isea_ptdi M g1 tri
                  { x := out0.x / g1.radius * ISEA_SCALE + 0.5
                    y := out0.y / g1.radius * ISEA_SCALE + 2.0 * 0.14433756729740644112 }).1
                (isea_ptdi M g1 tri
                  { x := out0.x / g1.radius * ISEA_SCALE + 0.5
                    y := out0.y / g1.radius * ISEA_SCALE
                      + 2.0 * 0.14433756729740644112 }).2.1).1 })) := by
  have hmain : ∀ (tri : Int) (out0 : isea_pt T) (g1 : isea_dgg T),
      isea_transform F g p = some (tri, out0, g1) →
      isea_forward M F g p
        = some ((isea_ptdi M g1 tri
              { x := out0.x / g1.radius * ISEA_SCALE + 0.5
                y := out0.y / g1.radius * ISEA_SCALE + 2.0 * 0.14433756729740644112 }).2.1,
            { (isea_ptdi M g1 tri
              { x := out0.x / g1.radius * ISEA_SCALE + 0.5
                y := out0.y / g1.radius * ISEA_SCALE + 2.0 * 0.14433756729740644112 }).2.2 with
              serial := (isea_disn g
                (isea_ptdi M g1 tri
                  { x := out0.x / g1.radius * ISEA_SCALE + 0.5
                    y := out0.y / g1.radius * ISEA_SCALE + 2.0 * 0.14433756729740644112 }).1
                (isea_ptdi M g1 tri
                  { x := out0.x / g1.radius * ISEA_SCALE + 0.5
                    y := out0.y / g1.radius * ISEA_SCALE
                      + 2.0 * 0.14433756729740644112 }).2.1).1 }) := by
    intro tri out0 g1 htr
    have hg1 := isea_transform_config F g p tri out0 g1 htr
    have ho1 : g1.output = isea_address_form.ISEA_SEQNUM := by rw [hg1]; exact hout
    unfold isea_forward
    rw [htr]
    simp only [ho1]
    rw [if_neg (by decide)]
    simp only [isea_disn_stores]
    have hcfg := isea_dddi_config M g1 (isea_ptdd M tri
      { x := out0.x / g1.radius * ISEA_SCALE + 0.5
        y := out0.y / g1.radius * ISEA_SCALE + 2.0 * 0.14433756729740644112 }).1
      (isea_ptdd M tri
      { x := out0.x / g1.radius * ISEA_SCALE + 0.5
        y := out0.y / g1.radius * ISEA_SCALE + 2.0 * 0.14433756729740644112 }).2
    have key : (isea_disn (isea_ptdi M g1 tri
          { x := out0.x / g1.radius * ISEA_SCALE + 0.5
            y := out0.y / g1.radius * ISEA_SCALE + 2.0 * 0.14433756729740644112 }).2.2
        (isea_ptdi M g1 tri
          { x := out0.x / g1.radius * ISEA_SCALE + 0.5
            y := out0.y / g1.radius * ISEA_SCALE + 2.0 * 0.14433756729740644112 }).2.2.quad
        (isea_ptdi M g1 tri
          { x := out0.x / g1.radius * ISEA_SCALE + 0.5
            y := out0.y / g1.radius * ISEA_SCALE + 2.0 * 0.14433756729740644112 }).2.1).1
        = (isea_disn g
        (isea_ptdi M g1 tri
          { x := out0.x / g1.radius * ISEA_SCALE + 0.5
            y := out0.y / g1.radius * ISEA_SCALE + 2.0 * 0.14433756729740644112 }).1
        (isea_ptdi M g1 tri
          { x := out0.x / g1.radius * ISEA_SCALE + 0.5
            y := out0.y / g1.radius * ISEA_SCALE + 2.0 * 0.14433756729740644112 }).2.1).1 := by
      unfold isea_ptdi
      simp only
      rw [hcfg]
      apply isea_disn_fst_congr
      · simp only [hg1]
      · simp only [hg1]
    rw [key]
  have hq2di : ∀ (tri : Int) (out0 : isea_pt T) (g1 : isea_dgg T),
      isea_transform F g p = some (tri, out0, g1) →
      (isea_forward M F { g with output := isea_address_form.ISEA_Q2DI } p).map Prod.fst
        = some (isea_ptdi M g1 tri
              { x := out0.x / g1.radius * ISEA_SCALE + 0.5
                y := out0.y / g1.radius * ISEA_SCALE + 2.0 * 0.14433756729740644112 }).2.1 := by
    intro tri out0 g1 htr
    unfold isea_forward
    rw [isea_transform_output, htr]
    simp only [Option.map_some']
    rw [if_neg (by decide)]
    simp only [isea_ptdi, isea_dddi_output, Option.map_some']
  have hnone : isea_transform F g p = none →
      isea_forward M F { g with output := isea_address_form.ISEA_Q2DI } p = none := by
    intro htr
    unfold isea_forward
    rw [isea_transform_output, htr]
    rfl
  have hnone' : isea_transform F g p = none → isea_forward M F g p = none := by
    intro htr
    unfold isea_forward
    rw [htr]
  have hfst : (isea_forward M F g p).map Prod.fst
      = (isea_forward M F { g with output := isea_address_form.ISEA_Q2DI } p).map Prod.fst := by
    cases htr : isea_transform F g p with
    | none => rw [hnone htr, hnone' htr]
    | some r =>
      obtain ⟨tri, out0, g1⟩ := r
      rw [hq2di tri out0 g1 htr, hmain tri out0 g1 htr]
      rfl
  refine ⟨hfst, ?_, hnone', hmain⟩
  have hfwd : ∀ g' : isea_dgg T, fwd M F g' p.lon p.lat
      = ((isea_forward M F g' p).map Prod.fst).map (fun q => (q.x, q.y)) := by
    intro g'
    unfold fwd
    cases isea_forward M F g' p <;> rfl
  rw [hfwd, hfwd, hfst]

end OutputClaims

/-- Witness of C9 (amended): the sample grid with aperture 4 at resolution 1. -/
theorem isea_forward_seqnum_witness :
    (sample_dgg ℚ 4 1 isea_address_form.ISEA_SEQNUM).output = isea_address_form.ISEA_SEQNUM ∧
    (isea_forward rational_libm (fixed_locator 1 { x := 0, y := -0.2 })
        (sample_dgg ℚ 4 1 isea_address_form.ISEA_SEQNUM) { lon := 0, lat := 0 }).map Prod.fst
      = (isea_forward rational_libm (fixed_locator 1 { x := 0, y := -0.2 })
        { sample_dgg ℚ 4 1 isea_address_form.ISEA_SEQNUM with
          output := isea_address_form.ISEA_Q2DI } { lon := 0, lat := 0 }).map Prod.fst :=
  ⟨rfl, (isea_forward_seqnum rational_libm (fixed_locator 1 { x := 0, y := -0.2 })
    (sample_dgg ℚ 4 1 isea_address_form.ISEA_SEQNUM) { lon := 0, lat := 0 } rfl).1⟩

/-- The power roundings of the sample grid with aperture 4 at resolution 1. -/
theorem sample_pow_ap4_res1 : pow_round 4 1 = 4 ∧ pow_half_round 4 1 = 2 := by
  constructor
  · simpa using pow_round_nat 4 1 (by norm_num)
  · simpa using pow_half_round_four 1

/-- C9 (counterexample): in ISEA_SEQNUM mode, with aperture 4 at resolution 1, for
a point that the Snyder stage places on triangle 1 at the face-local point
`(0, -0.2)`, `fwd` hands back the pair `(d, i) = (1, 1)` while the serial
number that `isea_disn` computes, 5, is only stored in the configuration. -/
theorem seqnum_address_is_not_serial :
    fwd rational_libm (fixed_locator 1 { x := 0, y := -0.2 })
        (sample_dgg ℚ 4 1 isea_address_form.ISEA_SEQNUM) 0 0 = some (1, 1) ∧
    (isea_forward rational_libm (fixed_locator 1 { x := 0, y := -0.2 })
        (sample_dgg ℚ 4 1 isea_address_form.ISEA_SEQNUM) { lon := 0, lat := 0 }).map
          (fun r => (r.2.quad, r.2.serial)) = some (1, 5) := by
  have e1 : Int.tdiv 0 5 = 0 := by decide
  have e2 : Int.tmod 0 2 = 0 := by decide
  have e3 : Int.tmod 0 5 = 0 := by decide
  have e4 : Int.tdiv 0 10 = 0 := by decide
  obtain ⟨hp, hs⟩ := sample_pow_ap4_res1
  have hfw : isea_forward rational_libm (fixed_locator 1 { x := 0, y := -0.2 })
        (sample_dgg ℚ 4 1 isea_address_form.ISEA_SEQNUM) { lon := 0, lat := 0 }
      = some ({ x := 1, y := 1 },
          { sample_dgg ℚ 4 1 isea_address_form.ISEA_SEQNUM with
            triangle := 1, quad := 1, serial := 5 }) := by
    simp only [isea_forward, isea_transform, fixed_locator, sample_dgg, isea_ptdi, isea_ptdd,
      isea_dddi, isea_dddi_cell, isea_dddi_sidelength, isea_disn, isea_rotate, d2r, two_pi,
      rational_libm, ISEA_SCALE, hexbin2, hexbin2_scale, hexbin2_cube, DEG30]
    norm_num [isea_rotate_down, isea_rotate_up, e1, e2, e3, e4, hp, hs, Int.floor_eq_iff,
      hex_xy, hex_iso, isea_dddi_remap, c_int]
    intro h
    exact absurd h (by decide)
  constructor
  · simp only [fwd, hfw]
  · simp only [hfw, Option.map_some']

/-- C10 (the code at a failing input): in the grid with aperture 3 at resolution 1
(`hexes = 3`, `height = 1`, `maxcoord = 3`), the quad-frame points `(0, 0.577)`
and `(0.5, 0.2887)` of quad 1 are addressed by `isea_dddi_ap3odd` as the
un-remapped cells `(d, i) = (1, 2)` and `(2, 1)`, and `isea_disn` gives both the
serial 5; the cell `(2, 1)` of quad 10 gets the serial 32, which is the serial
of the south pole (quad 11). -/
theorem isea_disn_ap3odd_collision :
    isea_dddi_ap3odd_maxcoord (sample_dgg ℚ 3 1 isea_address_form.ISEA_SEQNUM) = 3 ∧
    isea_dddi_ap3odd rational_libm (sample_dgg ℚ 3 1 isea_address_form.ISEA_SEQNUM) 1
        { x := 0, y := 0.577 }
      = (1, { x := 1, y := 2 },
          { sample_dgg ℚ 3 1 isea_address_form.ISEA_SEQNUM with quad := 1 }) ∧
    isea_dddi_ap3odd rational_libm (sample_dgg ℚ 3 1 isea_address_form.ISEA_SEQNUM) 1
        { x := 0.5, y := 0.2887 }
      = (1, { x := 2, y := 1 },
          { sample_dgg ℚ 3 1 isea_address_form.ISEA_SEQNUM with quad := 1 }) ∧
    (isea_disn (sample_dgg ℚ 3 1 isea_address_form.ISEA_SEQNUM) 1 { x := 1, y := 2 }).1 = 5 ∧
    (isea_disn (sample_dgg ℚ 3 1 isea_address_form.ISEA_SEQNUM) 1 { x := 2, y := 1 }).1 = 5 ∧
    (isea_disn (sample_dgg ℚ 3 1 isea_address_form.ISEA_SEQNUM) 10 { x := 2, y := 1 }).1 = 32 ∧
    (isea_disn (sample_dgg ℚ 3 1 isea_address_form.ISEA_SEQNUM) 11 { x := 0, y := 0 }).1
      = 32 := by
  have hp : pow_round 3 1 = 3 := by simpa using pow_round_nat 3 1 (by norm_num)
  have e1 : Int.tmod 1 2 = 1 := by decide
  have e2 : Int.tdiv 2 1 = 2 := by decide
  have e3 : Int.tdiv 1 1 = 1 := by decide
  have e4 : Int.tdiv 0 1 = 0 := by decide
  have hh : c_int ((3 : ℚ) ^ (((1 : Int) - 1) / 2)) = 1 := by
    norm_num [c_int]
  have c1 : c_int (1 : ℚ) = 1 := by simpa using c_int_intCast (T := ℚ) 1
  have c2 : c_int (2 : ℚ) = 2 := by simpa using c_int_intCast (T := ℚ) 2
  refine ⟨sample_maxcoord_ap3_res1 _, ?_, ?_, ?_, ?_, ?_, ?_⟩
  · simp only [isea_dddi_ap3odd, sample_cell_ap3odd_up, sample_maxcoord_ap3_res1]
    norm_num [isea_dddi_ap3odd_remap]
  · simp only [isea_dddi_ap3odd, sample_cell_ap3odd_down, sample_maxcoord_ap3_res1]
    norm_num [isea_dddi_ap3odd_remap]
  · simp only [isea_disn, sample_dgg, hp]
    norm_num [e1, e2, e3, e4, hh, c1, c2]
  · simp only [isea_disn, sample_dgg, hp]
    norm_num [e1, e2, e3, e4, hh, c1, c2]
  · simp only [isea_disn, sample_dgg, hp]
    norm_num [e1, e2, e3, e4, hh, c1, c2]
  · simp only [isea_disn, sample_dgg, hp]
    norm_num

/-! ## Quad adjacency -/

/-- The point `(0.95, 0.02)` of triangle 11, next to the vertex shared by the
quads 6 and 7, is addressed in the aperture-4 grid at resolution 1 as quad 7
with `(d, i) = (2, 2)`. -/
theorem sample_ptdi_corner (o : isea_address_form) :
    isea_ptdi rational_libm (sample_dgg ℚ 4 1 o) 11 { x := 0.95, y := 0.02 }
      = (7, { x := 2, y := 2 }, { sample_dgg ℚ 4 1 o with quad := 7 }) := by
  have hq : isea_ptdd rational_libm 11 { x := 0.95, y := 0.02 }
      = (6, { x := 4746985792076015199137 / 10372618742452137944640,
              y := 43187411542896530777339 / 51863093712260689723200 }) := by
    have e1 : Int.tdiv 10 5 = 2 := by decide
    have e2 : Int.tmod 2 2 = 0 := by decide
    have e3 : Int.tmod 10 5 = 0 := by decide
    have e4 : Int.tdiv 10 10 = 1 := by decide
    simp only [isea_ptdd, isea_rotate, d2r, two_pi, rational_libm]
    norm_num [isea_rotate_down, isea_rotate_up, e1, e2, e3, e4]
  have hc : isea_dddi_cell rational_libm (sample_dgg ℚ 4 1 o)
      { x := 4746985792076015199137 / 10372618742452137944640,
        y := 43187411542896530777339 / 51863093712260689723200 }
      = { iso := 1, x := 2, y := 0, z := -2 } := by
    simp only [isea_dddi_cell, sample_sidelength_ap4_res1]
    simp only [isea_rotate, d2r, two_pi, rational_libm, hexbin2, hexbin2_scale, hexbin2_cube,
      DEG30]
    norm_num [isea_rotate_down, isea_rotate_up, Int.floor_eq_iff, hex_xy, hex_iso]
  have hbr : ¬ ((sample_dgg ℚ 4 1 o).aperture = 3 ∧
      (sample_dgg ℚ 4 1 o).resolution.tmod 2 ≠ 0) := by
    simp [sample_dgg]
  simp only [isea_ptdi, hq, isea_dddi, if_neg hbr, hc, sample_sidelength_ap4_res1]
  have hre : isea_dddi_remap 2 6 { iso := 1, x := 2, y := 0, z := -2 }
      = (7, { iso := 1, x := 2, y := 0, z := -2 }) := by decide
  rw [hre]
  norm_num

/-- Re-addressing is stable away from the southern corner: for side length
`s ≥ 1`, a quad in `1 .. 10` and a cube cell with `0 ≤ d ≤ s`, `0 ≤ i ≤ s`
(`d = h.x`, `i = -h.z`) that is not the cell `(d, i) = (s, s)` of a southern quad,
applying the general remapping to its own result changes nothing. -/
theorem isea_dddi_remap_stable (s quad : Int) (h : hex) (hs : 1 ≤ s) (hq1 : 1 ≤ quad)
    (hq10 : quad ≤ 10) (hsum : h.x + h.y + h.z = 0) (hd0 : 0 ≤ h.x) (hds : h.x ≤ s)
    (hi0 : 0 ≤ -h.z) (his : -h.z ≤ s) (hcorner : ¬ (6 ≤ quad ∧ h.x = s ∧ h.z = -s)) :
    isea_dddi_remap s (isea_dddi_remap s quad h).1 (isea_dddi_remap s quad h).2
      = isea_dddi_remap s quad h := by
  obtain ⟨iso, x, y, z⟩ := h
  simp only at hsum hd0 hds hi0 his hcorner
  by_cases hq5 : quad ≤ 5
  · by_cases h1 : x = 0 ∧ z = -s
    · have e : isea_dddi_remap s quad { iso := iso, x := x, y := y, z := z }
          = (0, { iso := iso, x := 0, y := 0, z := 0 }) := by
        simp only [isea_dddi_remap, if_pos hq5, if_pos h1]
      rw [e]
      simp only [isea_dddi_remap]
      rw [if_pos (by omega), if_neg (by omega), if_neg (by omega), if_neg (by omega)]
    · by_cases h2 : z = -s
      · have e : isea_dddi_remap s quad { iso := iso, x := x, y := y, z := z }
            = ((if quad + 1 = 6 then 1 else quad + 1),
                { iso := iso, x := 0, y := s - x, z := x - s }) := by
          simp only [isea_dddi_remap, if_pos hq5, if_neg h1, if_pos h2]
        rw [e]
        have hq' : (if quad + 1 = 6 then (1 : Int) else quad + 1) ≤ 5 := by
          split_ifs <;> omega
        simp only [isea_dddi_remap]
        rw [if_pos hq', if_neg (by omega), if_neg (by omega), if_neg (by omega)]
      · by_cases h3 : x = s
        · have e : isea_dddi_remap s quad { iso := iso, x := x, y := y, z := z }
              = (quad + 5, { iso := iso, x := 0, y := -z, z := z }) := by
            simp only [isea_dddi_remap, if_pos hq5, if_neg h1, if_neg h2, if_pos h3]
          rw [e]
          simp only [isea_dddi_remap]
          rw [if_neg (by omega), if_pos (by omega), if_neg (by omega), if_neg (by omega),
            if_neg (by omega)]
        · have e : isea_dddi_remap s quad { iso := iso, x := x, y := y, z := z }
              = (quad, { iso := iso, x := x, y := y, z := z }) := by
            simp only [isea_dddi_remap, if_pos hq5, if_neg h1, if_neg h2, if_neg h3]
          rw [e, e]
  · have hq6 : quad ≥ 6 := by omega
    by_cases h1 : z = 0 ∧ x = s
    · have e : isea_dddi_remap s quad { iso := iso, x := x, y := y, z := z }
          = (11, { iso := iso, x := 0, y := 0, z := 0 }) := by
        simp only [isea_dddi_remap, if_neg hq5, if_pos hq6, if_pos h1]
      rw [e]
      simp only [isea_dddi_remap]
      rw [if_neg (by omega), if_pos (by omega), if_neg (by omega), if_neg (by omega),
        if_neg (by omega)]
    · by_cases h2 : x = s
      · have e : isea_dddi_remap s quad { iso := iso, x := x, y := y, z := z }
            = ((if quad + 1 = 11 then 6 else quad + 1),
                { iso := iso, x := y + s, y := 0, z := -(y + s) }) := by
          simp only [isea_dddi_remap, if_neg hq5, if_pos hq6, if_neg h1, if_pos h2]
        rw [e]
        have hq' : ¬ (if quad + 1 = 11 then (6 : Int) else quad + 1) ≤ 5 := by
          split_ifs <;> omega
        have hq'' : (if quad + 1 = 11 then (6 : Int) else quad + 1) ≥ 6 := by
          split_ifs <;> omega
        simp only [isea_dddi_remap]
        rw [if_neg hq', if_pos hq'', if_neg (by omega), if_neg (by omega), if_neg (by omega)]
      · by_cases h3 : y = -s
        · exfalso; omega
        · have e : isea_dddi_remap s quad { iso := iso, x := x, y := y, z := z }
              = (quad, { iso := iso, x := x, y := y, z := z }) := by
            simp only [isea_dddi_remap, if_neg hq5, if_pos hq6, if_neg h1, if_neg h2, if_neg h3]
          rw [e, e]

/-- C11 (the code at a failing input): in the aperture-4 grid at resolution 1
(side length 2), the point `(0.95, 0.02)` of triangle 11 (quad 6) bins to the
corner cell `(d, i) = (2, 2)`; the general remapping of `isea_dddi` sends it from
quad 6 to quad 7 with `(d, i) = (2, 2)`, and re-addressing that result from quad
7 sends it on to quad 8 with `(d, i) = (2, 2)`; `isea_disn` gives the serial 32
in the frame of quad 7 and 36 in the frame of quad 8. -/
theorem isea_dddi_corner_not_stable :
    isea_ptdi rational_libm (sample_dgg ℚ 4 1 isea_address_form.ISEA_SEQNUM) 11
        { x := 0.95, y := 0.02 }
      = (7, { x := 2, y := 2 },
          { sample_dgg ℚ 4 1 isea_address_form.ISEA_SEQNUM with quad := 7 }) ∧
    isea_dddi_remap 2 6 { iso := 1, x := 2, y := 0, z := -2 }
      = (7, { iso := 1, x := 2, y := 0, z := -2 }) ∧
    isea_dddi_remap 2 7 { iso := 1, x := 2, y := 2 - 2, z := -2 }
      = (8, { iso := 1, x := 2, y := 0, z := -2 }) ∧
    (isea_disn (sample_dgg ℚ 4 1 isea_address_form.ISEA_SEQNUM) 7 { x := 2, y := 2 }).1 = 32 ∧
    (isea_disn (sample_dgg ℚ 4 1 isea_address_form.ISEA_SEQNUM) 8 { x := 2, y := 2 }).1
      = 36 := by
  obtain ⟨hp, hs⟩ := sample_pow_ap4_res1
  have e1 : Int.tmod 1 2 = 1 := by decide
  refine ⟨sample_ptdi_corner _, by decide, by decide, ?_, ?_⟩
  · simp only [isea_disn, sample_dgg, hp, hs, c_int]
    norm_num [Int.floor_eq_iff]
  · simp only [isea_disn, sample_dgg, hp, hs, c_int]
    norm_num [Int.floor_eq_iff]

/-! ## Triangles and quads -/

/-- The quad formula of `isea_ptdd` on the triangle ids `1 .. 20`, tabulated. -/
theorem ptdd_quad_table (t : Int) (h1 : 1 ≤ t) (h20 : t ≤ 20) :
    (t - 1).tmod 5 + (t - 1).tdiv 10 * 5 + 1 = (t - 1) % 5 + (t - 1) / 10 * 5 + 1 ∧
    (DOWNTRI t = true ↔ ((6 ≤ t ∧ t ≤ 10) ∨ (16 ≤ t ∧ t ≤ 20))) := by
  have e5 : (t - 1).tmod 5 = (t - 1) % 5 := Int.tmod_eq_emod (by omega) (by norm_num)
  have e10 : (t - 1).tdiv 10 = (t - 1) / 10 := Int.tdiv_eq_ediv (by omega) (by norm_num)
  have d5 : (t - 1).tdiv 5 = (t - 1) / 5 := Int.tdiv_eq_ediv (by omega) (by norm_num)
  have hd0 : 0 ≤ (t - 1) / 5 := Int.ediv_nonneg (by omega) (by norm_num)
  have m2 : ((t - 1) / 5).tmod 2 = ((t - 1) / 5) % 2 := Int.tmod_eq_emod hd0 (by norm_num)
  refine ⟨by rw [e5, e10], ?_⟩
  unfold DOWNTRI
  rw [decide_eq_true_iff, d5, m2]
  omega

section TriangleClaims

variable {T : Type} [LinearOrderedField T] [FloorRing T]

/-- C12: for every triangle id `t` in `1 .. 20`, `isea_ptdd` returns the quad
`((t - 1) mod 5) + ((t - 1) / 10) * 5 + 1`, which lies in `1 .. 10`; triangles
`1 .. 10` map to quads `1 .. 5` and triangles `11 .. 20` to quads `6 .. 10`;
`DOWNTRI t` holds exactly for `t` in `6 .. 10` or `16 .. 20`; and every quad in
`1 .. 10` is the image of exactly two triangles, one upward and one downward. -/
theorem isea_ptdd_quad_of_triangle (M : Libm T) (pt : isea_pt T) :
    (∀ t : Int, 1 ≤ t → t ≤ 20 →
      (isea_ptdd M t pt).1 = (t - 1) % 5 + (t - 1) / 10 * 5 + 1 ∧
      1 ≤ (isea_ptdd M t pt).1 ∧ (isea_ptdd M t pt).1 ≤ 10 ∧
      (t ≤ 10 → (isea_ptdd M t pt).1 ≤ 5) ∧ (11 ≤ t → 6 ≤ (isea_ptdd M t pt).1) ∧
      (DOWNTRI t = true ↔ ((6 ≤ t ∧ t ≤ 10) ∨ (16 ≤ t ∧ t ≤ 20)))) ∧
    (∀ q : Int, 1 ≤ q → q ≤ 10 →
      ∃ u d : Int, (1 ≤ u ∧ u ≤ 20) ∧ (1 ≤ d ∧ d ≤ 20) ∧
        DOWNTRI u = false ∧ DOWNTRI d = true ∧
        (isea_ptdd M u pt).1 = q ∧ (isea_ptdd M d pt).1 = q ∧
        ∀ t : Int, 1 ≤ t → t ≤ 20 → (isea_ptdd M t pt).1 = q → t = u ∨ t = d) := by
  constructor
  · intro t h1 h20
    obtain ⟨hq, hdown⟩ := ptdd_quad_table t h1 h20
    rw [isea_ptdd_quad, hq]
    refine ⟨rfl, ?_, ?_, ?_, ?_, hdown⟩ <;> omega
  · intro q hq1 hq10
    have hval : ∀ t : Int, 1 ≤ t → t ≤ 20 →
        (isea_ptdd M t pt).1 = (t - 1) % 5 + (t - 1) / 10 * 5 + 1 := by
      intro t h1 h20
      rw [isea_ptdd_quad, (ptdd_quad_table t h1 h20).1]
    have hdn : ∀ t : Int, 1 ≤ t → t ≤ 20 →
        (DOWNTRI t = true ↔ ((6 ≤ t ∧ t ≤ 10) ∨ (16 ≤ t ∧ t ≤ 20))) :=
      fun t h1 h20 => (ptdd_quad_table t h1 h20).2
    by_cases hq5 : q ≤ 5
    · refine ⟨q, q + 5, ⟨by omega, by omega⟩, ⟨by omega, by omega⟩, ?_, ?_, ?_, ?_, ?_⟩
      · have := hdn q (by omega) (by omega)
        cases hD : DOWNTRI q
        · rfl
        · exfalso; have := this.mp hD; omega
      · exact (hdn (q + 5) (by omega) (by omega)).mpr (by omega)
      · rw [hval q (by omega) (by omega)]; omega
      · rw [hval (q + 5) (by omega) (by omega)]; omega
      · intro t h1 h20 ht
        rw [hval t h1 h20] at ht
        omega
    · refine ⟨q + 5, q + 10, ⟨by omega, by omega⟩, ⟨by omega, by omega⟩, ?_, ?_, ?_, ?_, ?_⟩
      · have := hdn (q + 5) (by omega) (by omega)
        cases hD : DOWNTRI (q + 5)
        · rfl
        · exfalso; have := this.mp hD; omega
      · exact (hdn (q + 10) (by omega) (by omega)).mpr (by omega)
      · rw [hval (q + 5) (by omega) (by omega)]; omega
      · rw [hval (q + 10) (by omega) (by omega)]; omega
      · intro t h1 h20 ht
        rw [hval t h1 h20] at ht
        omega

end TriangleClaims

/-- Witness of C12: triangle 17 goes to quad 7, the image of the triangles 12 and 17. -/
theorem isea_ptdd_quad_of_triangle_witness :
    (isea_ptdd rational_libm 17 { x := 0.5, y := 0.25 }).1 = (17 - 1) % 5 + (17 - 1) / 10 * 5 + 1 ∧
    ∃ u d : Int, (1 ≤ u ∧ u ≤ 20) ∧ (1 ≤ d ∧ d ≤ 20) ∧
        DOWNTRI u = false ∧ DOWNTRI d = true ∧
        (isea_ptdd rational_libm u { x := 0.5, y := 0.25 }).1 = 7 ∧
        (isea_ptdd rational_libm d { x := 0.5, y := 0.25 }).1 = 7 ∧
        ∀ t : Int, 1 ≤ t → t ≤ 20 →
          (isea_ptdd rational_libm t { x := 0.5, y := 0.25 }).1 = 7 → t = u ∨ t = d :=
  ⟨((isea_ptdd_quad_of_triangle rational_libm { x := 0.5, y := 0.25 }).1 17 (by decide)
      (by decide)).1,
    (isea_ptdd_quad_of_triangle rational_libm { x := 0.5, y := 0.25 }).2 7 (by decide)
      (by decide)⟩

/-! ## Rotation and plane placement -/

/-- The first loop of `isea_rotate` leaves an angle below `two_pi` as it is. -/
theorem isea_rotate_down_of_lt {T : Type} [LinearOrderedField T] (twopi : T) (n : Nat)
    (rad : T) (h : rad < twopi) : isea_rotate_down twopi n rad = rad := by
  cases n with
  | zero => rfl
  | succ k => simp only [isea_rotate_down, if_neg (not_le.mpr h)]

/-- The second loop of `isea_rotate` leaves an angle above `-two_pi` as it is. -/
theorem isea_rotate_up_of_gt {T : Type} [LinearOrderedField T] (twopi : T) (n : Nat)
    (rad : T) (h : -twopi < rad) : isea_rotate_up twopi n rad = rad := by
  cases n with
  | zero => rfl
  | succ k => simp only [isea_rotate_up, if_neg (not_le.mpr h)]

section RotationClaims

variable {T : Type} [LinearOrderedField T] [FloorRing T]

/-- C14: with the exact cosine and sine (`cos 0 = 1`, `sin 0 = 0`), `isea_rotate`
by 360 degrees and by 0 degrees both return the point they are given: the
second normalisation loop takes `-2 pi` to 0. -/
theorem isea_rotate_full_turn (M : Libm T) (pt : isea_pt T) (hpi : 0 < M.pi)
    (hcos : M.cos 0 = 1) (hsin : M.sin 0 = 0) :
    isea_rotate M pt 360.0 = pt ∧ isea_rotate M pt 0.0 = pt := by
  have h2 : 0 < two_pi M := by unfold two_pi; linarith
  have h360 : -(360.0 : T) * d2r M = -two_pi M := by
    unfold d2r two_pi; norm_num; ring
  have h000 : -(0.0 : T) * d2r M = 0 := by norm_num
  constructor
  · unfold isea_rotate
    simp only [h360]
    rw [isea_rotate_down_of_lt _ _ _ (by linarith)]
    have hup : isea_rotate_up (two_pi M) (⌊|-two_pi M| / two_pi M⌋₊ + 1) (-two_pi M) = 0 := by
      simp only [isea_rotate_up, le_refl, if_true, neg_add_cancel]
      exact isea_rotate_up_of_gt _ _ _ (by linarith)
    rw [hup, hcos, hsin]
    cases pt
    simp
  · unfold isea_rotate
    simp only [h000]
    rw [isea_rotate_down_of_lt _ _ _ h2, isea_rotate_up_of_gt _ _ _ (by linarith)]
    rw [hcos, hsin]
    cases pt
    simp

end RotationClaims

/-- Witness of C14: the real cosine and sine. -/
theorem isea_rotate_full_turn_witness :
    (0 : ℝ) < Real.pi ∧ Real.cos 0 = 1 ∧ Real.sin 0 = 0 ∧
    isea_rotate { pi := Real.pi, cos := Real.cos, sin := Real.sin } { x := 3, y := 4 } 360.0
      = { x := 3, y := 4 } ∧
    isea_rotate { pi := Real.pi, cos := Real.cos, sin := Real.sin } { x := 3, y := 4 } 0.0
      = { x := 3, y := 4 } :=
  ⟨Real.pi_pos, Real.cos_zero, Real.sin_zero,
    isea_rotate_full_turn { pi := Real.pi, cos := Real.cos, sin := Real.sin } { x := 3, y := 4 }
      Real.pi_pos Real.cos_zero Real.sin_zero⟩

/-! ## Packed hexagon coordinates -/

section HexPackClaims

variable {T : Type} [LinearOrderedField T] [FloorRing T]

end HexPackClaims

section SideClaims

variable {T : Type} [LinearOrderedField T] [FloorRing T]

end SideClaims

/-- The result of `isea_transform` when the Snyder stage finds a triangle. -/
theorem isea_transform_some {T : Type} [LinearOrderedField T] (F : FaceLocator T) (g : isea_dgg T) (p : isea_geo T)
    (tri : Int) (s : isea_pt T)
    (hs : F.isea_snyder_forward (F.isea_ctran { lon := g.o_lon, lat := g.o_lat } p g.o_az)
      = some (tri, s)) :
    isea_transform F g p
      = some (tri, { x := s.x * g.radius, y := s.y * g.radius },
          { g with triangle := tri }) := by
  unfold isea_transform
  simp only [hs]

/-- The offset `2.0 * .14433756729740644112` that `isea_forward` adds to y is
half the tangent of 30 degrees, to within 1e-9. -/
theorem recentre_offset_bound :
    |(2.0 * 0.14433756729740644112 : ℝ) - Real.tan (30 * (Real.pi / 180)) / 2| ≤ 1e-9 := by
  have hang : (30 : ℝ) * (Real.pi / 180) = Real.pi / 6 := by ring
  have h3 : Real.sqrt 3 * Real.sqrt 3 = 3 := Real.mul_self_sqrt (by norm_num)
  have hpos : 0 < Real.sqrt 3 := Real.sqrt_pos.mpr (by norm_num)
  have hlo : (1.7320508075 : ℝ) < Real.sqrt 3 := by
    rw [Real.lt_sqrt (by norm_num)]; norm_num
  have hhi : Real.sqrt 3 < (1.7320508076 : ℝ) := by
    rw [Real.sqrt_lt' (by norm_num)]; norm_num
  have hinv : 1 / Real.sqrt 3 = Real.sqrt 3 / 3 := by
    rw [div_eq_div_iff (ne_of_gt hpos) (by norm_num)]
    linarith
  rw [hang, Real.tan_pi_div_six, hinv, abs_le]
  constructor <;> norm_num <;> linarith

/-- The tangent of 30 degrees is above 0.57. -/
theorem tan_thirty_lower : (0.57 : ℝ) < Real.tan (30 * (Real.pi / 180)) := by
  have hang : (30 : ℝ) * (Real.pi / 180) = Real.pi / 6 := by ring
  have h3 : Real.sqrt 3 * Real.sqrt 3 = 3 := Real.mul_self_sqrt (by norm_num)
  have hpos : 0 < Real.sqrt 3 := Real.sqrt_pos.mpr (by norm_num)
  have hlo : (1.73 : ℝ) < Real.sqrt 3 := by
    rw [Real.lt_sqrt (by norm_num)]; norm_num
  have hinv : 1 / Real.sqrt 3 = Real.sqrt 3 / 3 := by
    rw [div_eq_div_iff (ne_of_gt hpos) (by norm_num)]
    linarith
  rw [hang, Real.tan_pi_div_six, hinv]
  linarith

section ForwardClaims

variable {T : Type} [LinearOrderedField T] [FloorRing T]

/-- Outside the plane form, `isea_forward` is `isea_transform`, the rescaling to
the unit triangle and the `switch` block. -/
theorem isea_forward_eq_switch (M : Libm T) (F : FaceLocator T) (g : isea_dgg T)
    (p : isea_geo T) (hout : g.output ≠ isea_address_form.ISEA_PLANE) :
    isea_forward M F g p
      = (isea_transform F g p).map (fun r =>
          isea_forward_switch M r.2.2 r.1
            { x := r.2.1.x / r.2.2.radius * ISEA_SCALE + 0.5
              y := r.2.1.y / r.2.2.radius * ISEA_SCALE + 2.0 * 0.14433756729740644112 }) := by
  cases htr : isea_transform F g p with
  | none =>
    unfold isea_forward
    rw [htr]
    rfl
  | some r =>
    obtain ⟨tri, out0, g1⟩ := r
    have hg1 := isea_transform_config F g p tri out0 g1 htr
    have ho1 : g1.output ≠ isea_address_form.ISEA_PLANE := by rw [hg1]; exact hout
    unfold isea_forward isea_forward_switch
    rw [htr]
    simp only [Option.map_some', if_neg ho1]
    cases hO : g1.output <;> rfl

/-- C16 (amended): for every output form other than the plane form and every
radius other than 0, `isea_forward` multiplies the face-local point `(x, y)`
delivered by the Snyder step by `ISEA_SCALE` (the radius applied by
`isea_transform` is divided out again) and re-centres it by adding 0.5 to x and
`2.0 * .14433756729740644112`, which is `tan(30 degrees) / 2` to within 1e-9, to
y, before the `switch` on the output form and so before any quad placement. -/
theorem isea_forward_rescale (M : Libm T) (F : FaceLocator T) (g : isea_dgg T)
    (p : isea_geo T) (tri : Int) (s : isea_pt T)
    (hout : g.output ≠ isea_address_form.ISEA_PLANE) (hrad : g.radius ≠ 0)
    (hs : F.isea_snyder_forward (F.isea_ctran { lon := g.o_lon, lat := g.o_lat } p g.o_az)
      = some (tri, s)) :
    isea_forward M F g p
      = some (isea_forward_switch M { g with triangle := tri } tri
          { x := s.x * ISEA_SCALE + 0.5
            y := s.y * ISEA_SCALE + 2.0 * 0.14433756729740644112 }) ∧
    |(2.0 * 0.14433756729740644112 : ℝ) - Real.tan (30 * (Real.pi / 180)) / 2| ≤ 1e-9 := by
  refine ⟨?_, recentre_offset_bound⟩
  rw [isea_forward_eq_switch M F g p hout, isea_transform_some F g p tri s hs]
  simp only [Option.map_some']
  have ex : s.x * g.radius / g.radius = s.x := by field_simp
  have ey : s.y * g.radius / g.radius = s.y := by field_simp
  rw [ex, ey]

end ForwardClaims

/-- Witness of C16 (amended): the projected-triangle form over the rationals,
where the face-local point `(0.1, 0.2)` is returned rescaled and re-centred. -/
theorem isea_forward_rescale_witness :
    (sample_dgg ℚ 4 1 isea_address_form.ISEA_PROJTRI).output ≠ isea_address_form.ISEA_PLANE ∧
    (sample_dgg ℚ 4 1 isea_address_form.ISEA_PROJTRI).radius ≠ 0 ∧
    isea_forward rational_libm (fixed_locator 1 { x := 0.1, y := 0.2 })
        (sample_dgg ℚ 4 1 isea_address_form.ISEA_PROJTRI) { lon := 0, lat := 0 }
      = some (isea_forward_switch rational_libm
          { sample_dgg ℚ 4 1 isea_address_form.ISEA_PROJTRI with triangle := 1 } 1
          { x := 0.1 * ISEA_SCALE + 0.5
            y := 0.2 * ISEA_SCALE + 2.0 * 0.14433756729740644112 }) :=
  ⟨by decide, by norm_num [sample_dgg],
    (isea_forward_rescale rational_libm (fixed_locator 1 { x := 0.1, y := 0.2 })
      (sample_dgg ℚ 4 1 isea_address_form.ISEA_PROJTRI) { lon := 0, lat := 0 } 1
      { x := 0.1, y := 0.2 } (by decide) (by norm_num [sample_dgg]) rfl).1⟩

/-- C16 (counterexample): in the projected-triangle form with radius 1, the centre
`(0, 0)` of a face is returned as `(0.5, 0.28867513459481288224)`: the amount added
to y is more than 0.8 away from `2 * tan(30 degrees)`. -/
theorem recentre_offset_not_two_tan :
    (isea_forward { pi := Real.pi, cos := Real.cos, sin := Real.sin }
        (fixed_locator 1 { x := 0, y := 0 })
        (sample_dgg ℝ 4 1 isea_address_form.ISEA_PROJTRI) { lon := 0, lat := 0 }).map Prod.fst
      = some { x := 0.5, y := 0.28867513459481288224 } ∧
    (0.8 : ℝ) < |0.28867513459481288224 - 2 * Real.tan (30 * (Real.pi / 180))| := by
  constructor
  · rw [isea_forward_eq_switch _ _ _ _ (by decide),
      isea_transform_some (fixed_locator 1 { x := (0 : ℝ), y := 0 })
        (sample_dgg ℝ 4 1 isea_address_form.ISEA_PROJTRI) { lon := 0, lat := 0 } 1
        { x := 0, y := 0 } rfl]
    simp only [Option.map_some', isea_forward_switch, sample_dgg]
    norm_num
  · have h := tan_thirty_lower
    rw [abs_sub_comm, lt_abs]
    left
    linarith


section CacheClaims

variable {T : Type} [LinearOrderedField T] [FloorRing T]

/-- The quad and point of `isea_dddi` depend on the configuration only through
its aperture and resolution. -/
theorem isea_dddi_congr (M : Libm T) (g g' : isea_dgg T) (quad : Int) (pt : isea_pt T)
    (ha : g.aperture = g'.aperture) (hr : g.resolution = g'.resolution) :
    (isea_dddi M g quad pt).1 = (isea_dddi M g' quad pt).1 ∧
      (isea_dddi M g quad pt).2.1 = (isea_dddi M g' quad pt).2.1 := by
  unfold isea_dddi isea_dddi_ap3odd isea_dddi_ap3odd_maxcoord isea_dddi_ap3odd_cell
    isea_dddi_cell isea_dddi_sidelength
  rw [ha, hr]
  split_ifs <;> exact ⟨rfl, rfl⟩

/-- The point, the quad and the serial number that the `switch` block of
`isea_forward` produces depend on the configuration only through its aperture,
resolution and output form. -/
theorem isea_forward_switch_congr (M : Libm T) (g g' : isea_dgg T) (tri : Int)
    (out : isea_pt T) (ha : g.aperture = g'.aperture) (hr : g.resolution = g'.resolution)
    (ho : g.output = g'.output) :
    (isea_forward_switch M g tri out).1 = (isea_forward_switch M g' tri out).1 ∧
    (g.output = isea_address_form.ISEA_SEQNUM →
      (isea_forward_switch M g tri out).2.quad = (isea_forward_switch M g' tri out).2.quad ∧
      (isea_forward_switch M g tri out).2.serial
        = (isea_forward_switch M g' tri out).2.serial ∧
      (isea_forward_switch M g tri out).2.serial
        = (isea_disn g (isea_forward_switch M g tri out).2.quad
            (isea_forward_switch M g tri out).1).1) := by
  obtain ⟨hq, hp⟩ := isea_dddi_congr M g g' (isea_ptdd M tri out).1 (isea_ptdd M tri out).2 ha hr
  have hcfg := isea_dddi_config M g (isea_ptdd M tri out).1 (isea_ptdd M tri out).2
  have hcfg' := isea_dddi_config M g' (isea_ptdd M tri out).1 (isea_ptdd M tri out).2
  unfold isea_forward_switch
  rw [← ho]
  cases hO : g.output
  case ISEA_SEQNUM =>
    simp only [isea_ptdi, isea_disn_stores, true_implies]
    rw [hcfg, hcfg']
    simp only
    refine ⟨hp, hq, ?_, ?_⟩
    · rw [← hq, ← hp]
      exact isea_disn_fst_congr _ _ _ _ ha hr
    · exact isea_disn_fst_congr _ _ _ _ rfl rfl
  case ISEA_Q2DI =>
    simp only [isea_ptdi, reduceCtorEq, false_implies, and_true]
    exact hp
  case ISEA_HEX =>
    simp only [isea_hex, isea_ptdi, reduceCtorEq, false_implies, and_true]
    rw [hp, hq]
  all_goals simp only [reduceCtorEq, false_implies, and_true]

/-- C18: the point returned by `isea_forward`, and handed back by `fwd`, depends
only on the pole, azimuth, aperture, resolution, radius and output form of the
configuration and on the input point: two configurations that agree on these
fields, whatever their cached `triangle`, `quad` and `serial`, give the same
point; in ISEA_SEQNUM mode they also store the same quad and serial, and the
serial stored is the one `isea_disn` computes from the quad stored by the same
call. -/
theorem isea_forward_cache_independent (M : Libm T) (F : FaceLocator T)
    (g g' : isea_dgg T) (p : isea_geo T)
    (hlat : g.o_lat = g'.o_lat) (hlon : g.o_lon = g'.o_lon) (haz : g.o_az = g'.o_az)
    (ha : g.aperture = g'.aperture) (hr : g.resolution = g'.resolution)
    (hrad : g.radius = g'.radius) (ho : g.output = g'.output) :
    (isea_forward M F g p).map Prod.fst = (isea_forward M F g' p).map Prod.fst ∧
    fwd M F g p.lon p.lat = fwd M F g' p.lon p.lat ∧
    (g.output = isea_address_form.ISEA_SEQNUM →
      (isea_forward M F g p).map (fun r => (r.2.quad, r.2.serial))
        = (isea_forward M F g' p).map (fun r => (r.2.quad, r.2.serial)) ∧
      ∀ (pt : isea_pt T) (g1 : isea_dgg T), isea_forward M F g p = some (pt, g1) →
        g1.serial = (isea_disn g g1.quad pt).1) := by
  have hfwd : ∀ g0 : isea_dgg T, fwd M F g0 p.lon p.lat
      = ((isea_forward M F g0 p).map Prod.fst).map (fun q => (q.x, q.y)) := by
    intro g0
    unfold fwd
    cases isea_forward M F g0 p <;> rfl
  cases hs : F.isea_snyder_forward (F.isea_ctran { lon := g.o_lon, lat := g.o_lat } p g.o_az) with
  | none =>
    have hs' : F.isea_snyder_forward
        (F.isea_ctran { lon := g'.o_lon, lat := g'.o_lat } p g'.o_az) = none := by
      rw [← hlon, ← hlat, ← haz]; exact hs
    have h1 : isea_forward M F g p = none := by
      unfold isea_forward isea_transform
      simp only [hs]
    have h2 : isea_forward M F g' p = none := by
      unfold isea_forward isea_transform
      simp only [hs']
    rw [hfwd, hfwd, h1, h2]
    refine ⟨rfl, rfl, fun _ => ⟨rfl, ?_⟩⟩
    intro pt g1 hcon
    exact absurd hcon (by simp)
  | some r =>
    obtain ⟨tri, s⟩ := r
    have hs' : F.isea_snyder_forward
        (F.isea_ctran { lon := g'.o_lon, lat := g'.o_lat } p g'.o_az) = some (tri, s) := by
      rw [← hlon, ← hlat, ← haz]; exact hs
    have ht := isea_transform_some F g p tri s hs
    have ht' := isea_transform_some F g' p tri s hs'
    by_cases hpl : g.output = isea_address_form.ISEA_PLANE
    · have hpl' : g'.output = isea_address_form.ISEA_PLANE := by rw [← ho]; exact hpl
      have h1 : (isea_forward M F g p).map Prod.fst
          = (isea_forward M F g' p).map Prod.fst := by
        unfold isea_forward
        rw [ht, ht']
        simp only [hpl, hpl', if_true, hrad]
        cases isea_tri_plane M tri { x := s.x * g'.radius, y := s.y * g'.radius } g'.radius
          <;> rfl
      rw [hfwd, hfwd, h1]
      refine ⟨rfl, rfl, fun hseq => ?_⟩
      rw [hpl] at hseq
      exact absurd hseq (by decide)
    · have hpl' : g'.output ≠ isea_address_form.ISEA_PLANE := by rw [← ho]; exact hpl
      have e1 := isea_forward_eq_switch M F g p hpl
      have e2 := isea_forward_eq_switch M F g' p hpl'
      rw [ht] at e1
      rw [ht'] at e2
      simp only [Option.map_some'] at e1 e2
      rw [← hrad] at e2
      obtain ⟨hpt, hseq⟩ := isea_forward_switch_congr M { g with triangle := tri }
        { g' with triangle := tri, radius := g.radius } tri
        { x := s.x * g.radius / g.radius * ISEA_SCALE + 0.5
          y := s.y * g.radius / g.radius * ISEA_SCALE + 2.0 * 0.14433756729740644112 }
        ha hr ho
      have h1 : (isea_forward M F g p).map Prod.fst
          = (isea_forward M F g' p).map Prod.fst := by
        rw [e1, e2]
        simp only [Option.map_some']
        exact congrArg some hpt
      rw [hfwd, hfwd, h1]
      refine ⟨rfl, rfl, fun hsq => ?_⟩
      obtain ⟨hq, hser, hdisn⟩ := hseq hsq
      constructor
      · rw [e1, e2]
        simp only [Option.map_some']
        rw [hq, hser]
      · intro pt g1 hres
        rw [e1] at hres
        simp only [Option.some.injEq] at hres
        have hpt1 : pt = (isea_forward_switch M { g with triangle := tri } tri
            { x := s.x * g.radius / g.radius * ISEA_SCALE + 0.5
              y := s.y * g.radius / g.radius * ISEA_SCALE
                + 2.0 * 0.14433756729740644112 }).1 := by rw [hres]
        have hg1 : g1 = (isea_forward_switch M { g with triangle := tri } tri
            { x := s.x * g.radius / g.radius * ISEA_SCALE + 0.5
              y := s.y * g.radius / g.radius * ISEA_SCALE
                + 2.0 * 0.14433756729740644112 }).2 := by rw [hres]
        rw [hg1, hpt1, hdisn]
        exact isea_disn_fst_congr _ _ _ _ rfl rfl

end CacheClaims

/-- Witness of C18: two configurations over the rationals that differ in the
cached triangle, quad and serial. -/
theorem isea_forward_cache_independent_witness :
    (isea_forward rational_libm (fixed_locator 1 { x := 0, y := -0.2 })
        (sample_dgg ℚ 4 1 isea_address_form.ISEA_SEQNUM) { lon := 0, lat := 0 }).map Prod.fst
      = (isea_forward rational_libm (fixed_locator 1 { x := 0, y := -0.2 })
        { sample_dgg ℚ 4 1 isea_address_form.ISEA_SEQNUM with
          triangle := 7, quad := 3, serial := 99 } { lon := 0, lat := 0 }).map Prod.fst ∧
    fwd rational_libm (fixed_locator 1 { x := 0, y := -0.2 })
        (sample_dgg ℚ 4 1 isea_address_form.ISEA_SEQNUM) 0 0
      = fwd rational_libm (fixed_locator 1 { x := 0, y := -0.2 })
        { sample_dgg ℚ 4 1 isea_address_form.ISEA_SEQNUM with
          triangle := 7, quad := 3, serial := 99 } 0 0 :=
  ⟨(isea_forward_cache_independent rational_libm (fixed_locator 1 { x := 0, y := -0.2 })
      (sample_dgg ℚ 4 1 isea_address_form.ISEA_SEQNUM)
      { sample_dgg ℚ 4 1 isea_address_form.ISEA_SEQNUM with
        triangle := 7, quad := 3, serial := 99 } { lon := 0, lat := 0 }
      rfl rfl rfl rfl rfl rfl rfl).1,
    (isea_forward_cache_independent rational_libm (fixed_locator 1 { x := 0, y := -0.2 })
      (sample_dgg ℚ 4 1 isea_address_form.ISEA_SEQNUM)
      { sample_dgg ℚ 4 1 isea_address_form.ISEA_SEQNUM with
        triangle := 7, quad := 3, serial := 99 } { lon := 0, lat := 0 }
      rfl rfl rfl rfl rfl rfl rfl).2.1⟩

/-! ## Enclosures of sine and cosine -/

/-- The Taylor polynomial of degree 7 of `exp (x i)`, split into the cosine and
sine polynomials. -/
theorem exp_taylor_sum (x : ℝ) :
    (∑ m ∈ Finset.range 8, ((x : ℂ) * Complex.I) ^ m / (m.factorial : ℂ)) =
      (((1 - x ^ 2 / 2 + x ^ 4 / 24 - x ^ 6 / 720 : ℝ) : ℂ)) +
        (((x - x ^ 3 / 6 + x ^ 5 / 120 - x ^ 7 / 5040 : ℝ) : ℂ)) * Complex.I := by
  simp only [Finset.sum_range_succ, Finset.range_zero, Finset.sum_empty, Nat.factorial, mul_pow]
  apply Complex.ext <;> simp [pow_succ, Complex.I_mul_I] <;> ring

/-- Remainder of the Taylor polynomial of degree 7 of `exp (x i)` for `|x| ≤ 1`. -/
theorem exp_taylor_bound (x : ℝ) (hx : |x| ≤ 1) :
    Complex.abs (Complex.exp (x * Complex.I) -
      ((((1 - x ^ 2 / 2 + x ^ 4 / 24 - x ^ 6 / 720 : ℝ) : ℂ)) +
        (((x - x ^ 3 / 6 + x ^ 5 / 120 - x ^ 7 / 5040 : ℝ) : ℂ)) * Complex.I)) ≤
      |x| ^ 8 * (1 / 35840) := by
  rw [← exp_taylor_sum]
  have h := Complex.exp_bound (x := (x : ℂ) * Complex.I) (n := 8) (by simpa using hx)
    (by norm_num)
  refine h.trans ?_
  have : Complex.abs ((x : ℂ) * Complex.I) = |x| := by simp
  rw [this]
  norm_num [Nat.factorial]

/-- Cosine is within `|x| ^ 8 / 35840` of its Taylor polynomial of degree 6 for `|x| ≤ 1`. -/
theorem cos_taylor (x : ℝ) (hx : |x| ≤ 1) :
    |Real.cos x - (1 - x ^ 2 / 2 + x ^ 4 / 24 - x ^ 6 / 720)| ≤ |x| ^ 8 * (1 / 35840) := by
  refine le_trans ?_ (exp_taylor_bound x hx)
  have h := Complex.abs_re_le_abs (Complex.exp (x * Complex.I) -
      ((((1 - x ^ 2 / 2 + x ^ 4 / 24 - x ^ 6 / 720 : ℝ) : ℂ)) +
        (((x - x ^ 3 / 6 + x ^ 5 / 120 - x ^ 7 / 5040 : ℝ) : ℂ)) * Complex.I))
  refine le_trans (le_of_eq ?_) h
  congr 1
  simp only [Complex.sub_re, Complex.add_re, Complex.ofReal_re, Complex.mul_re,
    Complex.ofReal_im, Complex.I_re, Complex.I_im, Complex.exp_ofReal_mul_I_re]
  ring

/-- Sine is within `|x| ^ 8 / 35840` of its Taylor polynomial of degree 7 for `|x| ≤ 1`. -/
theorem sin_taylor (x : ℝ) (hx : |x| ≤ 1) :
    |Real.sin x - (x - x ^ 3 / 6 + x ^ 5 / 120 - x ^ 7 / 5040)| ≤ |x| ^ 8 * (1 / 35840) := by
  refine le_trans ?_ (exp_taylor_bound x hx)
  have h := Complex.abs_im_le_abs (Complex.exp (x * Complex.I) -
      ((((1 - x ^ 2 / 2 + x ^ 4 / 24 - x ^ 6 / 720 : ℝ) : ℂ)) +
        (((x - x ^ 3 / 6 + x ^ 5 / 120 - x ^ 7 / 5040 : ℝ) : ℂ)) * Complex.I))
  refine le_trans (le_of_eq ?_) h
  congr 1
  simp only [Complex.sub_im, Complex.add_im, Complex.ofReal_re, Complex.mul_im,
    Complex.ofReal_im, Complex.I_re, Complex.I_im, Complex.exp_ofReal_mul_I_im]
  ring

/-- Rational enclosure of cosine on `[0, 1]`: a number below the Taylor
polynomial less the remainder is below the cosine, a number above the
polynomial plus the remainder is above it. -/
theorem cos_enclosure (x lo hi : ℝ) (h0 : 0 ≤ x) (h1 : x ≤ 1)
    (hlo : lo < 1 - x ^ 2 / 2 + x ^ 4 / 24 - x ^ 6 / 720 - x ^ 8 / 35840)
    (hhi : 1 - x ^ 2 / 2 + x ^ 4 / 24 - x ^ 6 / 720 + x ^ 8 / 35840 < hi) :
    lo < Real.cos x ∧ Real.cos x < hi := by
  have h := cos_taylor x (by rw [abs_of_nonneg h0]; exact h1)
  rw [abs_of_nonneg h0] at h
  obtain ⟨ha, hb⟩ := abs_le.mp h
  generalize 1 - x ^ 2 / 2 + x ^ 4 / 24 - x ^ 6 / 720 = p at *
  generalize x ^ 8 = e at *
  constructor
  · linarith only [ha, hlo]
  · linarith only [hb, hhi]

/-- Rational enclosure of sine on `[0, 1]`, as for the cosine. -/
theorem sin_enclosure (x lo hi : ℝ) (h0 : 0 ≤ x) (h1 : x ≤ 1)
    (hlo : lo < x - x ^ 3 / 6 + x ^ 5 / 120 - x ^ 7 / 5040 - x ^ 8 / 35840)
    (hhi : x - x ^ 3 / 6 + x ^ 5 / 120 - x ^ 7 / 5040 + x ^ 8 / 35840 < hi) :
    lo < Real.sin x ∧ Real.sin x < hi := by
  have h := sin_taylor x (by rw [abs_of_nonneg h0]; exact h1)
  rw [abs_of_nonneg h0] at h
  obtain ⟨ha, hb⟩ := abs_le.mp h
  generalize x - x ^ 3 / 6 + x ^ 5 / 120 - x ^ 7 / 5040 = p at *
  generalize x ^ 8 = e at *
  constructor
  · linarith only [ha, hlo]
  · linarith only [hb, hhi]

/-- Sine and cosine of the latitude `E_RAD` of the upper triangle centres. -/
theorem trig_E_RAD :
    (0.79461 < Real.sin (E_RAD : ℝ) ∧ Real.sin (E_RAD : ℝ) < 0.79470) ∧
      (0.60702 < Real.cos (E_RAD : ℝ) ∧ Real.cos (E_RAD : ℝ) < 0.60711) := by
  unfold E_RAD
  exact ⟨sin_enclosure _ _ _ (by norm_num) (by norm_num) (by norm_num) (by norm_num),
    cos_enclosure _ _ _ (by norm_num) (by norm_num) (by norm_num) (by norm_num)⟩

/-- Product of two enclosures of positive numbers. -/
theorem mul_enclosure (a b al ah bl bh lo hi : ℝ) (hal : 0 ≤ al) (hbl : 0 ≤ bl) (ha1 : al < a)
    (ha2 : a < ah) (hb1 : bl < b) (hb2 : b < bh) (hlo : lo ≤ al * bl) (hhi : ah * bh ≤ hi) :
    lo < a * b ∧ a * b < hi := by
  have h1 : al * bl < a * b := by nlinarith only [hal, hbl, ha1, hb1]
  have h2 : a * b < ah * bh := by nlinarith only [hal, hbl, ha1, ha2, hb1, hb2]
  exact ⟨lt_of_le_of_lt hlo h1, lt_of_lt_of_le h2 hhi⟩

/-- Sine and cosine of the standard pole latitude `ISEA_STD_LAT`, by the
double-angle formulas from half the angle. -/
theorem trig_ISEA_STD_LAT :
    (0.85060 < Real.sin (1.01722196792335072101 : ℝ) ∧
      Real.sin (1.01722196792335072101 : ℝ) < 0.85070) ∧
    (0.52568 < Real.cos (1.01722196792335072101 : ℝ) ∧
      Real.cos (1.01722196792335072101 : ℝ) < 0.52578) := by
  obtain ⟨hs1, hs2⟩ := sin_enclosure (0.508610983961675360505 : ℝ) 0.48695 0.48697
    (by norm_num) (by norm_num) (by norm_num) (by norm_num)
  obtain ⟨hc1, hc2⟩ := cos_enclosure (0.508610983961675360505 : ℝ) 0.87341 0.87343
    (by norm_num) (by norm_num) (by norm_num) (by norm_num)
  have e : (1.01722196792335072101 : ℝ) = 2 * 0.508610983961675360505 := by norm_num
  rw [e, Real.sin_two_mul, Real.cos_two_mul]
  generalize Real.sin (0.508610983961675360505 : ℝ) = s at hs1 hs2 ⊢
  generalize Real.cos (0.508610983961675360505 : ℝ) = c at hc1 hc2 ⊢
  obtain ⟨hp1, hp2⟩ := mul_enclosure s c 0.48695 0.48697 0.87341 0.87343 0.42530 0.42535
    (by norm_num) (by norm_num) hs1 hs2 hc1 hc2 (by norm_num) (by norm_num)
  obtain ⟨hq1, hq2⟩ := mul_enclosure c c 0.87341 0.87343 0.87341 0.87343 0.76284 0.76289
    (by norm_num) (by norm_num) hc1 hc2 hc1 hc2 (by norm_num) (by norm_num)
  refine ⟨⟨?_, ?_⟩, ?_, ?_⟩
  · linarith only [hp1]
  · linarith only [hp2]
  · rw [pow_two]; linarith only [hq1]
  · rw [pow_two]; linarith only [hq2]

/-- The first normalisation loop leaves a longitude of at most `pi` as it is. -/
theorem ctran_wrap_down_of_le {T : Type} [LinearOrderedField T] (M : Libm T) (n : Nat)
    (lon : T) (h : lon ≤ M.pi) :
    ctran_wrap_down M n lon = lon := by
  cases n with
  | zero => rfl
  | succ k => simp only [ctran_wrap_down, if_neg (not_lt.mpr h)]

/-- The second normalisation loop leaves a longitude of at least `-pi` as it is. -/
theorem ctran_wrap_up_of_ge {T : Type} [LinearOrderedField T] (M : Libm T) (n : Nat)
    (lon : T) (h : -M.pi ≤ lon) :
    ctran_wrap_up M n lon = lon := by
  cases n with
  | zero => rfl
  | succ k => simp only [ctran_wrap_up, if_neg (not_lt.mpr h)]

section Normalisation

variable {T : Type} [LinearOrderedField T] [FloorRing T]

/-- The conversion `(int) x` of a number of absolute value below 1 is 0. -/
theorem c_int_of_abs_lt_one (x : T) (h : |x| < 1) : c_int x = 0 := by
  obtain ⟨h1, h2⟩ := abs_lt.mp h
  unfold c_int
  split_ifs with h0
  · rw [Int.floor_eq_iff]
    constructor
    · simpa using h0
    · simpa using h2
  · rw [Int.ceil_eq_iff]
    constructor
    · simpa using h1
    · push_neg at h0
      simpa using h0.le

/-- The function `fmod` leaves a number of absolute value below the modulus as it is. -/
theorem fmod_of_abs_lt (x y : T) (hy : 0 < y) (h : |x| < y) : fmod x y = x := by
  have : c_int (x / y) = 0 := by
    apply c_int_of_abs_lt_one
    rw [abs_div, abs_of_pos hy, div_lt_one hy]
    exact h
  unfold fmod
  rw [this]
  simp

/-- The longitude normalisation leaves every longitude in `[-pi, pi]` as it is,
the value `-pi` included. -/
theorem ctran_normalize_of_abs_le (M : Libm T) (hpi : 0 < M.pi) (lon : T) (h : |lon| ≤ M.pi) :
    ctran_normalize M lon = lon := by
  obtain ⟨h1, h2⟩ := abs_le.mp h
  unfold ctran_normalize
  simp only
  rw [fmod_of_abs_lt lon (two_pi M) (by unfold two_pi; linarith)
    (lt_of_le_of_lt h (by unfold two_pi; linarith))]
  rw [ctran_wrap_down_of_le M _ lon h2, ctran_wrap_up_of_ge M _ lon h1]

/-- The longitude normalisation subtracts `two_pi` from a longitude in `(pi, two_pi)`. -/
theorem ctran_normalize_of_gt (M : Libm T) (lon : T) (h1 : M.pi < lon)
    (h2 : lon < two_pi M) : ctran_normalize M lon = lon - two_pi M := by
  have h2' : lon < 2 * M.pi := h2
  unfold ctran_normalize
  simp only
  rw [fmod_of_abs_lt lon (two_pi M) (by unfold two_pi; linarith)
    (by rw [abs_of_pos (by linarith)]; exact h2)]
  have hstep : ∀ n : Nat, ctran_wrap_down M (n + 1) lon = lon - two_pi M := by
    intro n
    simp only [ctran_wrap_down, if_pos h1]
    exact ctran_wrap_down_of_le M n _ (by unfold two_pi; linarith)
  rw [hstep]
  exact ctran_wrap_up_of_ge M _ _ (by unfold two_pi; linarith)

end Normalisation

/-! ## The Snyder stage over the exact real library -/

/-- The value `atan2 0 x` for `x ≥ 0`. -/
theorem arg_mk_zero_of_nonneg (x : ℝ) (hx : 0 ≤ x) : Complex.arg ⟨x, 0⟩ = 0 := by
  have : (⟨x, 0⟩ : ℂ) = (x : ℂ) := rfl
  rw [this]
  exact Complex.arg_ofReal_of_nonneg hx

/-- The value `atan2 0 x` for `x < 0`. -/
theorem arg_mk_zero_of_neg (x : ℝ) (hx : x < 0) : Complex.arg ⟨x, 0⟩ = Real.pi := by
  have : (⟨x, 0⟩ : ℂ) = (x : ℂ) := rfl
  rw [this]
  exact Complex.arg_ofReal_of_neg hx

/-- The azimuth adjustment of the triangles 1 to 5 around the north vertex is 0. -/
theorem az_adjustment_upper (L : SphereLibm ℝ) (hL : real_libm L) (i : Nat) (h1 : 1 ≤ i)
    (h5 : i ≤ 5) : az_adjustment L i = 0 := by
  obtain ⟨hpi, hcos, hsin, -, -, -, hatan2⟩ := hL
  have hc := trig_E_RAD.2.1
  have key : Complex.arg ⟨Real.cos (E_RAD : ℝ), 0⟩ = 0 :=
    arg_mk_zero_of_nonneg _ (by linarith only [hc])
  interval_cases i <;>
  · unfold az_adjustment
    simp only [tri_v1, vertex, icostriangles, hcos, hsin, hatan2, hpi, DEG90,
      Real.cos_pi_div_two, Real.sin_pi_div_two, zero_mul, mul_zero, mul_one, sub_zero]
    exact key

section Scan

variable {T : Type} [LinearOrderedField T] [FloorRing T]

end Scan

/-- The image of the geographic north pole under `isea_ctran` with the standard
orientation: longitude exactly `-pi`, latitude the pole latitude. -/
theorem isea_ctran_north_std (L : SphereLibm ℝ) (hL : real_libm L) :
    isea_ctran L { lon := 0.19634954084936207740, lat := 1.01722196792335072101 }
      { lon := 0, lat := L.pi / 2 } 0.0
      = { lon := -Real.pi, lat := 1.01722196792335072101 } := by
  obtain ⟨⟨pi, cos, sin⟩, tan, acos, asin, atan2⟩ := L
  simp only [real_libm] at hL
  obtain ⟨rfl, rfl, rfl, rfl, rfl, rfl, rfl⟩ := hL
  have hpi3 := Real.pi_gt_three
  have hpi4 := Real.pi_le_four
  have hc := trig_ISEA_STD_LAT.2.1
  unfold isea_ctran snyder_ctran
  simp only [Real.cos_pi_div_two, Real.sin_pi_div_two, mul_zero, zero_mul, mul_one, zero_add,
    sub_zero]
  rw [arg_mk_zero_of_nonneg _ (by linarith only [hc])]
  have h1 : ctran_normalize { pi := Real.pi, cos := Real.cos, sin := Real.sin }
      (0 + (0.19634954084936207740 + Real.pi)) = 0.19634954084936207740 + Real.pi - 2 * Real.pi := by
    rw [ctran_normalize_of_gt _ _ (by simp only; norm_num)
      (by unfold two_pi; simp only; norm_num; linarith only [hpi3])]
    unfold two_pi; simp only; ring
  rw [h1]
  have h2 : 0.19634954084936207740 + Real.pi - 2 * Real.pi
      - (Real.pi - 0.0 + (0.19634954084936207740 + Real.pi - Real.pi)) + Real.pi = -Real.pi := by
    ring
  rw [h2, ctran_normalize_of_abs_le _ Real.pi_pos _ (by simp only; rw [abs_neg, abs_of_pos Real.pi_pos])]
  rw [Real.arcsin_sin (by linarith only [hpi3]) (by norm_num; linarith only [hpi3])]

/-! ## Lattice cells over the exact real library -/

section SeqnumForm

variable {T : Type} [LinearOrderedField T] [FloorRing T]

end SeqnumForm

/-- The azimuth adjustment of the triangles 16 to 20 around the south vertex is `pi`. -/
theorem az_adjustment_lower (L : SphereLibm ℝ) (hL : real_libm L) (i : Nat) (h1 : 16 ≤ i)
    (h5 : i ≤ 20) : az_adjustment L i = Real.pi := by
  obtain ⟨hpi, hcos, hsin, -, -, -, hatan2⟩ := hL
  have hc := trig_E_RAD.2.1
  have key : Complex.arg ⟨-Real.cos (E_RAD : ℝ), 0⟩ = Real.pi :=
    arg_mk_zero_of_neg _ (by linarith only [hc])
  interval_cases i <;>
  · unfold az_adjustment
    simp only [tri_v1, vertex, icostriangles, hcos, hsin, hatan2, hpi, DEG90, Real.cos_neg,
      Real.sin_neg, Real.cos_pi_div_two, Real.sin_pi_div_two, zero_mul, mul_zero, mul_one,
      sub_zero, mul_neg, neg_zero]
    exact key

section CtranRange

variable {T : Type} [LinearOrderedField T] [FloorRing T]

/-- The conversion `(int) x` differs from `x` by less than 1. -/
theorem abs_sub_c_int_lt_one (x : T) : |x - (c_int x : T)| < 1 := by
  unfold c_int
  split_ifs with h0
  · rw [abs_lt]
    constructor
    · linarith [Int.floor_le x]
    · linarith [Int.lt_floor_add_one x]
  · rw [abs_lt]
    constructor
    · linarith [Int.ceil_lt_add_one x]
    · linarith [Int.le_ceil x]

/-- The remainder `fmod x y` is smaller in absolute value than a positive modulus. -/
theorem abs_fmod_lt (x y : T) (hy : 0 < y) : |fmod x y| < y := by
  have h := abs_sub_c_int_lt_one (x / y)
  have e : fmod x y = (x / y - (c_int (x / y) : T)) * y := by
    unfold fmod
    field_simp
    ring
  rw [e, abs_mul, abs_of_pos hy]
  calc |x / y - (c_int (x / y) : T)| * y < 1 * y := mul_lt_mul_of_pos_right h hy
    _ = y := one_mul y

end CtranRange

/-- The first normalisation loop, given at least one round, brings a longitude
of `(-two_pi, two_pi)` into `(-two_pi, pi]`. -/
theorem ctran_wrap_down_range {T : Type} [LinearOrderedField T] (M : Libm T)
    (n : Nat) (lon : T) (h1 : -two_pi M < lon) (h2 : lon < two_pi M) :
    -two_pi M < ctran_wrap_down M (n + 1) lon ∧ ctran_wrap_down M (n + 1) lon ≤ M.pi := by
  unfold two_pi at h1 h2 ⊢
  by_cases h : lon > M.pi
  · simp only [ctran_wrap_down, if_pos h]
    rw [ctran_wrap_down_of_le M n _ (by unfold two_pi; linarith)]
    unfold two_pi
    constructor <;> linarith
  · simp only [ctran_wrap_down, if_neg h]
    exact ⟨h1, not_lt.mp h⟩

/-- The second normalisation loop, given at least one round, brings a longitude
of `(-two_pi, pi]` into `[-pi, pi]`. -/
theorem ctran_wrap_up_range {T : Type} [LinearOrderedField T] (M : Libm T)
    (n : Nat) (lon : T) (h1 : -two_pi M < lon) (h2 : lon ≤ M.pi) :
    -M.pi ≤ ctran_wrap_up M (n + 1) lon ∧ ctran_wrap_up M (n + 1) lon ≤ M.pi := by
  unfold two_pi at h1
  by_cases h : lon < -M.pi
  · simp only [ctran_wrap_up, if_pos h]
    rw [ctran_wrap_up_of_ge M n _ (by unfold two_pi; linarith)]
    unfold two_pi
    constructor <;> linarith
  · simp only [ctran_wrap_up, if_neg h]
    exact ⟨not_lt.mp h, h2⟩

section CtranClaims

variable {T : Type} [LinearOrderedField T] [FloorRing T]

/-- The longitude normalisation returns a value of `[-pi, pi]` for every input. -/
theorem ctran_normalize_range (M : Libm T) (hpi : 0 < M.pi) (lon : T) :
    -M.pi ≤ ctran_normalize M lon ∧ ctran_normalize M lon ≤ M.pi := by
  have h2pi : 0 < two_pi M := by unfold two_pi; linarith
  obtain ⟨h1, h2⟩ := abs_lt.mp (abs_fmod_lt lon (two_pi M) h2pi)
  unfold ctran_normalize
  simp only
  obtain ⟨h3, h4⟩ := ctran_wrap_down_range M ⌊|fmod lon (two_pi M)| / two_pi M⌋₊
    (fmod lon (two_pi M)) h1 h2
  exact ctran_wrap_up_range M _ _ h3 h4

/-- C21 (amended): for every pole, azimuth `lon0` and input point, and every
math library with `pi > 0` whose `asin` returns values of `[-pi/2, pi/2]`, the
longitude of the point returned by `isea_ctran` lies in the closed interval
`[-pi, pi]` and its latitude lies in `[-pi/2, pi/2]`. -/
theorem isea_ctran_range (L : SphereLibm T) (hpi : 0 < L.pi)
    (hasin : ∀ x : T, -(L.pi / 2) ≤ L.asin x ∧ L.asin x ≤ L.pi / 2)
    (np pt : isea_geo T) (lon0 : T) :
    (-L.pi ≤ (isea_ctran L np pt lon0).lon ∧ (isea_ctran L np pt lon0).lon ≤ L.pi) ∧
    (-(L.pi / 2) ≤ (isea_ctran L np pt lon0).lat ∧ (isea_ctran L np pt lon0).lat ≤ L.pi / 2) := by
  unfold isea_ctran snyder_ctran
  simp only
  exact ⟨ctran_normalize_range L.toLibm hpi _, hasin _⟩

end CtranClaims

/-- Witness of C21 over the exact real library: the pole of the standard
orientation, azimuth 0 and the point (lon, lat) = (1, 1/2). -/
theorem isea_ctran_range_witness :
    (-Real.pi ≤
        (isea_ctran
          { pi := Real.pi, cos := Real.cos, sin := Real.sin, tan := Real.tan, acos := Real.arccos,
            asin := Real.arcsin, atan2 := fun y x => Complex.arg ⟨x, y⟩ }
          { lon := 0.19634954084936207740, lat := 1.01722196792335072101 }
          { lon := 1, lat := 1 / 2 } 0).lon ∧
      (isea_ctran
          { pi := Real.pi, cos := Real.cos, sin := Real.sin, tan := Real.tan, acos := Real.arccos,
            asin := Real.arcsin, atan2 := fun y x => Complex.arg ⟨x, y⟩ }
          { lon := 0.19634954084936207740, lat := 1.01722196792335072101 }
          { lon := 1, lat := 1 / 2 } 0).lon ≤ Real.pi) ∧
    (-(Real.pi / 2) ≤
        (isea_ctran
          { pi := Real.pi, cos := Real.cos, sin := Real.sin, tan := Real.tan, acos := Real.arccos,
            asin := Real.arcsin, atan2 := fun y x => Complex.arg ⟨x, y⟩ }
          { lon := 0.19634954084936207740, lat := 1.01722196792335072101 }
          { lon := 1, lat := 1 / 2 } 0).lat ∧
      (isea_ctran
          { pi := Real.pi, cos := Real.cos, sin := Real.sin, tan := Real.tan, acos := Real.arccos,
            asin := Real.arcsin, atan2 := fun y x => Complex.arg ⟨x, y⟩ }
          { lon := 0.19634954084936207740, lat := 1.01722196792335072101 }
          { lon := 1, lat := 1 / 2 } 0).lat ≤ Real.pi / 2) :=
  isea_ctran_range
    { pi := Real.pi, cos := Real.cos, sin := Real.sin, tan := Real.tan, acos := Real.arccos,
      asin := Real.arcsin, atan2 := fun y x => Complex.arg ⟨x, y⟩ }
    Real.pi_pos (fun x => ⟨Real.neg_pi_div_two_le_arcsin x, Real.arcsin_le_pi_div_two x⟩)
    { lon := 0.19634954084936207740, lat := 1.01722196792335072101 }
    { lon := 1, lat := 1 / 2 } 0

/-- C21 (counterexample): over the exact real math library, with the pole of the
standard orientation (`ISEA_STD_LAT`, `ISEA_STD_LON`) and azimuth 0, `isea_ctran`
returns the longitude `-pi` for the geographic north pole (lon = 0, lat = pi/2),
so the returned longitude is not in the half-open interval `(-pi, pi]`. -/
theorem isea_ctran_returns_minus_pi :
    (isea_ctran
        { pi := Real.pi, cos := Real.cos, sin := Real.sin, tan := Real.tan, acos := Real.arccos,
          asin := Real.arcsin, atan2 := fun y x => Complex.arg ⟨x, y⟩ }
        { lon := 0.19634954084936207740, lat := 1.01722196792335072101 }
        { lon := 0, lat := Real.pi / 2 } 0.0).lon = -Real.pi ∧
    ¬ (-Real.pi <
        (isea_ctran
          { pi := Real.pi, cos := Real.cos, sin := Real.sin, tan := Real.tan, acos := Real.arccos,
            asin := Real.arcsin, atan2 := fun y x => Complex.arg ⟨x, y⟩ }
          { lon := 0.19634954084936207740, lat := 1.01722196792335072101 }
          { lon := 0, lat := Real.pi / 2 } 0.0).lon ∧
      (isea_ctran
          { pi := Real.pi, cos := Real.cos, sin := Real.sin, tan := Real.tan, acos := Real.arccos,
            asin := Real.arcsin, atan2 := fun y x => Complex.arg ⟨x, y⟩ }
          { lon := 0.19634954084936207740, lat := 1.01722196792335072101 }
          { lon := 0, lat := Real.pi / 2 } 0.0).lon ≤ Real.pi) := by
  have h := isea_ctran_north_std
    { pi := Real.pi, cos := Real.cos, sin := Real.sin, tan := Real.tan, acos := Real.arccos,
      asin := Real.arcsin, atan2 := fun y x => Complex.arg ⟨x, y⟩ }
    ⟨rfl, rfl, rfl, rfl, rfl, rfl, rfl⟩
  simp only at h
  rw [h]
  exact ⟨rfl, fun hc => lt_irrefl _ hc.1⟩

/-! ## Snapping to the lattice -/

/-- The correction of the axis with the largest residual: three residuals of
`(-1/2, 1/2]` with sum `s = 1` or `s = -1` have the sign of `s`, and the largest
one, moved by `-s`, has absolute value at most 2/3. -/
theorem largest_residual_corrected {T : Type} [LinearOrderedField T] (a b c s : T)
    (hs : s = 1 ∨ s = -1) (hsum : a + b + c = s)
    (ha1 : -(1 / 2) < a) (ha2 : a ≤ 1 / 2) (hb1 : -(1 / 2) < b) (hb2 : b ≤ 1 / 2)
    (hc1 : -(1 / 2) < c) (hc2 : c ≤ 1 / 2) (hab : |b| ≤ |a|) (hac : |c| ≤ |a|) :
    |a - s| ≤ 2 / 3 := by
  rcases hs with h | h
  · subst h
    have ha0 : 0 ≤ a := by linarith only [hsum, hb2, hc2]
    have hb0 : 0 ≤ b := by linarith only [hsum, ha2, hc2]
    have hc0 : 0 ≤ c := by linarith only [hsum, ha2, hb2]
    rw [abs_of_nonneg ha0, abs_of_nonneg hb0] at hab
    rw [abs_of_nonneg ha0, abs_of_nonneg hc0] at hac
    rw [abs_le]
    constructor <;> linarith only [hsum, hab, hac, ha2]
  · subst h
    have ha0 : a ≤ 0 := by linarith only [hsum, hb1, hc1]
    have hb0 : b ≤ 0 := by linarith only [hsum, ha1, hc1]
    have hc0 : c ≤ 0 := by linarith only [hsum, ha1, hb1]
    rw [abs_of_nonpos ha0, abs_of_nonpos hb0] at hab
    rw [abs_of_nonpos ha0, abs_of_nonpos hc0] at hac
    rw [abs_le]
    constructor <;> linarith only [hsum, hab, hac, ha1]

section SnapClaims

variable {T : Type} [LinearOrderedField T] [FloorRing T]

/-- The rounding `floor(v + 0.5)` is within 1/2 of `v`, the lower end excluded. -/
theorem floor_half_bounds (v : T) :
    -(1 / 2) < ((⌊v + 0.5⌋ : Int) : T) - v ∧ ((⌊v + 0.5⌋ : Int) : T) - v ≤ 1 / 2 := by
  have e5 : (0.5 : T) = 1 / 2 := by norm_num
  have h1 := Int.floor_le (v + 0.5)
  have h2 := Int.lt_floor_add_one (v + 0.5)
  rw [e5] at h1 h2
  constructor <;> linarith only [h1, h2]

/-- C30: for every scaled cube position `(x, y, z = -x - y)` of `hexbin2`, the
sum of the three independent roundings `floor(v + 0.5)` is -1, 0 or 1; each
rounding is within 1/2 of its coordinate; the final corrected triple keeps the
rounded value on at least two axes (so it is within 1/2 there), and each of its
coordinates is within 2/3 of the coordinate it stands for. -/
theorem hexbin2_nearby_node (x y : T) :
    ((hexbin2_rounded x y).1 + (hexbin2_rounded x y).2.1 + (hexbin2_rounded x y).2.2 = -1 ∨
      (hexbin2_rounded x y).1 + (hexbin2_rounded x y).2.1 + (hexbin2_rounded x y).2.2 = 0 ∨
      (hexbin2_rounded x y).1 + (hexbin2_rounded x y).2.1 + (hexbin2_rounded x y).2.2 = 1) ∧
    (|((hexbin2_rounded x y).1 : T) - x| ≤ 1 / 2 ∧
      |((hexbin2_rounded x y).2.1 : T) - y| ≤ 1 / 2 ∧
      |((hexbin2_rounded x y).2.2 : T) - (-x - y)| ≤ 1 / 2) ∧
    (((hexbin2_cube x y).2.1 = (hexbin2_rounded x y).2.1 ∧
        (hexbin2_cube x y).2.2 = (hexbin2_rounded x y).2.2) ∨
      ((hexbin2_cube x y).1 = (hexbin2_rounded x y).1 ∧
        (hexbin2_cube x y).2.2 = (hexbin2_rounded x y).2.2) ∨
      ((hexbin2_cube x y).1 = (hexbin2_rounded x y).1 ∧
        (hexbin2_cube x y).2.1 = (hexbin2_rounded x y).2.1)) ∧
    (|((hexbin2_cube x y).1 : T) - x| ≤ 2 / 3 ∧
      |((hexbin2_cube x y).2.1 : T) - y| ≤ 2 / 3 ∧
      |((hexbin2_cube x y).2.2 : T) - (-x - y)| ≤ 2 / 3) := by
  obtain ⟨hx1, hx2⟩ := floor_half_bounds x
  obtain ⟨hy1, hy2⟩ := floor_half_bounds y
  obtain ⟨hz1, hz2⟩ := floor_half_bounds (-x - y)
  unfold hexbin2_cube hexbin2_rounded
  simp only
  generalize ⌊x + 0.5⌋ = ix at hx1 hx2 ⊢
  generalize ⌊y + 0.5⌋ = iy at hy1 hy2 ⊢
  generalize ⌊-x - y + 0.5⌋ = iz at hz1 hz2 ⊢
  have hs1 : -2 < ix + iy + iz := by
    have : ((-2 : Int) : T) < ((ix + iy + iz : Int) : T) := by
      push_cast; linarith only [hx1, hy1, hz1]
    exact_mod_cast this
  have hs2 : ix + iy + iz < 2 := by
    have : ((ix + iy + iz : Int) : T) < ((2 : Int) : T) := by
      push_cast; linarith only [hx2, hy2, hz2]
    exact_mod_cast this
  have hax : |(ix : T) - x| ≤ 1 / 2 := abs_le.mpr ⟨hx1.le, hx2⟩
  have hay : |(iy : T) - y| ≤ 1 / 2 := abs_le.mpr ⟨hy1.le, hy2⟩
  have haz : |(iz : T) - (-x - y)| ≤ 1 / 2 := abs_le.mpr ⟨hz1.le, hz2⟩
  have h23 : (1 : T) / 2 ≤ 2 / 3 := by norm_num
  refine ⟨by omega, ⟨hax, hay, haz⟩, ?_⟩
  by_cases h0 : ix + iy + iz = 0
  · rw [if_neg (by simpa using h0)]
    exact ⟨Or.inl ⟨rfl, rfl⟩, hax.trans h23, hay.trans h23, haz.trans h23⟩
  · rw [if_pos h0]
    have hs : ((ix + iy + iz : Int) : T) = 1 ∨ ((ix + iy + iz : Int) : T) = -1 := by
      rcases (by omega : ix + iy + iz = 1 ∨ ix + iy + iz = -1) with h | h
      · left; rw [h]; norm_num
      · right; rw [h]; norm_num
    have hsum : ((ix : T) - x) + ((iy : T) - y) + ((iz : T) - (-x - y))
        = ((ix + iy + iz : Int) : T) := by push_cast; ring
    by_cases hA : |(ix : T) - x| ≥ |(iy : T) - y| ∧ |(ix : T) - x| ≥ |(iz : T) - (-x - y)|
    · rw [if_pos hA]
      refine ⟨Or.inl ⟨rfl, rfl⟩, ?_, hay.trans h23, haz.trans h23⟩
      have e : ((ix - (ix + iy + iz) : Int) : T) - x
          = ((ix : T) - x) - ((ix + iy + iz : Int) : T) := by push_cast; ring
      rw [e]
      exact largest_residual_corrected _ _ _ _ hs hsum hx1 hx2 hy1 hy2 hz1 hz2 hA.1 hA.2
    · rw [if_neg hA]
      by_cases hB : |(iy : T) - y| ≥ |(ix : T) - x| ∧ |(iy : T) - y| ≥ |(iz : T) - (-x - y)|
      · rw [if_pos hB]
        refine ⟨Or.inr (Or.inl ⟨rfl, rfl⟩), hax.trans h23, ?_, haz.trans h23⟩
        have e : ((iy - (ix + iy + iz) : Int) : T) - y
            = ((iy : T) - y) - ((ix + iy + iz : Int) : T) := by push_cast; ring
        rw [e]
        exact largest_residual_corrected ((iy : T) - y) ((ix : T) - x) ((iz : T) - (-x - y)) _
          hs (by rw [← hsum]; ring) hy1 hy2 hx1 hx2 hz1 hz2 hB.1 hB.2
      · rw [if_neg hB]
        have hzx : |(ix : T) - x| ≤ |(iz : T) - (-x - y)| := by
          by_contra hlt
          have hlt' := le_of_lt (not_le.mp hlt)
          by_cases hxy : |(iy : T) - y| ≤ |(ix : T) - x|
          · exact hA ⟨hxy, hlt'⟩
          · exact hB ⟨le_of_lt (not_le.mp hxy), le_trans hlt' (le_of_lt (not_le.mp hxy))⟩
        have hzy : |(iy : T) - y| ≤ |(iz : T) - (-x - y)| := by
          by_contra hlt
          have hlt' := le_of_lt (not_le.mp hlt)
          by_cases hxy : |(ix : T) - x| ≤ |(iy : T) - y|
          · exact hB ⟨hxy, hlt'⟩
          · exact hA ⟨le_of_lt (not_le.mp hxy), le_trans hlt' (le_of_lt (not_le.mp hxy))⟩
        refine ⟨Or.inr (Or.inr ⟨rfl, rfl⟩), hax.trans h23, hay.trans h23, ?_⟩
        have e : ((iz - (ix + iy + iz) : Int) : T) - (-x - y)
            = ((iz : T) - (-x - y)) - ((ix + iy + iz : Int) : T) := by push_cast; ring
        rw [e]
        exact largest_residual_corrected ((iz : T) - (-x - y)) ((ix : T) - x) ((iy : T) - y) _
          hs (by rw [← hsum]; ring) hz1 hz2 hx1 hx2 hy1 hy2 hzx hzy

end SnapClaims

/-! ## Resolution monotonicity -/

section MonotoneClaims

variable {T : Type} [LinearOrderedField T] [FloorRing T]

end MonotoneClaims

/-- C29: every branch of the boundary remapping of the general variant of
`isea_dddi` keeps the cube invariant: if the binned cell has `x + y + z = 0`
before the remapping, the cell held after it, in each of the six boundary
cases and when no case applies, has `x + y + z = 0`. -/
theorem isea_dddi_remap_cube_sum (sidelength quad : Int) (h : hex)
    (hsum : h.x + h.y + h.z = 0) :
    (isea_dddi_remap sidelength quad h).2.x + (isea_dddi_remap sidelength quad h).2.y
      + (isea_dddi_remap sidelength quad h).2.z = 0 := by
  unfold isea_dddi_remap
  split_ifs <;> simp only <;> omega

/-- Witness of C29: the lower-right transition of quad 3 at side length 2. -/
theorem isea_dddi_remap_cube_sum_witness :
    (2 : Int) + (-1) + (-1) = 0 ∧
    (isea_dddi_remap 2 3 { iso := 1, x := 2, y := -1, z := -1 }).2.x
      + (isea_dddi_remap 2 3 { iso := 1, x := 2, y := -1, z := -1 }).2.y
      + (isea_dddi_remap 2 3 { iso := 1, x := 2, y := -1, z := -1 }).2.z = 0 :=
  ⟨by decide, isea_dddi_remap_cube_sum 2 3 { iso := 1, x := 2, y := -1, z := -1 } (by decide)⟩

/-- The quad-frame point `(0, 0.86)` bins to the cube cell `(1, 1, -2)` at side length 2. -/
theorem sample_cell_top_edge (o : isea_address_form) :
    isea_dddi_cell rational_libm (sample_dgg ℚ 4 1 o)
      { x := 0, y := 0.86 } = { iso := 1, x := 1, y := 1, z := -2 } := by
  simp only [isea_dddi_cell, sample_sidelength_ap4_res1]
  simp only [isea_rotate, d2r, two_pi, rational_libm, hexbin2, hexbin2_scale, hexbin2_cube, DEG30]
  norm_num [isea_rotate_down, isea_rotate_up, Int.floor_eq_iff, hex_xy, hex_iso]

/-- The quad-frame point `(0.74, 0.43)` bins to the cube cell `(2, -1, -1)` at side length 2. -/
theorem sample_cell_right_edge (o : isea_address_form) :
    isea_dddi_cell rational_libm (sample_dgg ℚ 4 1 o)
      { x := 0.74, y := 0.43 } = { iso := 1, x := 2, y := -1, z := -1 } := by
  simp only [isea_dddi_cell, sample_sidelength_ap4_res1]
  simp only [isea_rotate, d2r, two_pi, rational_libm, hexbin2, hexbin2_scale, hexbin2_cube, DEG30]
  norm_num [isea_rotate_down, isea_rotate_up, Int.floor_eq_iff, hex_xy, hex_iso]

/-- The quad-frame point `(0.5, 0.86)` bins to the cube cell `(1, 1, -2)` in the
aperture-3 grid at resolution 1. -/
theorem sample_cell_ap3odd_apex (o : isea_address_form) :
    isea_dddi_ap3odd_cell rational_libm (sample_dgg ℚ 3 1 o)
      { x := 0.5, y := 0.86 } = { iso := 1, x := 1, y := 1, z := -2 } := by
  simp only [isea_dddi_ap3odd_cell, sample_dgg]
  simp only [rational_libm, hexbin2, hexbin2_scale, hexbin2_cube, DEG30, d2r]
  norm_num [Int.floor_eq_iff, hex_xy, hex_iso]

/-- The quad-frame point `(0.98, 0.01)` bins to the cube cell `(2, -1, -1)` in the
aperture-3 grid at resolution 1. -/
theorem sample_cell_ap3odd_right (o : isea_address_form) :
    isea_dddi_ap3odd_cell rational_libm (sample_dgg ℚ 3 1 o)
      { x := 0.98, y := 0.01 } = { iso := 1, x := 2, y := -1, z := -1 } := by
  simp only [isea_dddi_ap3odd_cell, sample_dgg]
  simp only [rational_libm, hexbin2, hexbin2_scale, hexbin2_cube, DEG30, d2r]
  norm_num [Int.floor_eq_iff, hex_xy, hex_iso]

/-- The quad returned by the general remapping in its two same-ring
transitions of a northern quad and in the next-quad transition of a southern
quad. -/
theorem isea_dddi_remap_same_ring (s q : Int) (h : hex) :
    (1 ≤ q → q ≤ 5 → h.z = -s → h.x ≠ 0 → (isea_dddi_remap s q h).1 = q % 5 + 1) ∧
    (1 ≤ q → q ≤ 5 → h.z ≠ -s → h.x = s → (isea_dddi_remap s q h).1 = q + 5) ∧
    (6 ≤ q → q ≤ 10 → h.x = s → h.z ≠ 0 → (isea_dddi_remap s q h).1 = (q - 5) % 5 + 6) := by
  unfold isea_dddi_remap
  refine ⟨?_, ?_, ?_⟩
  · intro h1 h5 hz hx
    rw [if_pos h5, if_neg (fun hc => hx hc.1), if_pos hz]
    simp only
    split_ifs <;> omega
  · intro h1 h5 hz hx
    rw [if_pos h5, if_neg (fun hc => hz hc.2), if_neg hz, if_pos hx]
  · intro h6 h10 hx hz
    rw [if_neg (by omega), if_pos (by omega), if_neg (fun hc => hz hc.1), if_pos hx]
    simp only
    split_ifs <;> omega

/-- The quad returned by the aperture-3-odd remapping in its two same-ring
transitions of a northern quad and in the next-quad transition of a southern
quad. -/
theorem isea_dddi_ap3odd_remap_same_ring (m q d i : Int) :
    (1 ≤ q → q ≤ 5 → i = m → d ≠ 0 → (isea_dddi_ap3odd_remap m q d i).1 = q % 5 + 1) ∧
    (1 ≤ q → q ≤ 5 → i ≠ m → d = m → (isea_dddi_ap3odd_remap m q d i).1 = q + 5) ∧
    (6 ≤ q → q ≤ 10 → d = m → i ≠ 0 → (isea_dddi_ap3odd_remap m q d i).1 = (q - 5) % 5 + 6) := by
  unfold isea_dddi_ap3odd_remap
  refine ⟨?_, ?_, ?_⟩
  · intro h1 h5 hi hd
    rw [if_pos h5, if_neg (fun hc => hd hc.1), if_pos hi]
    simp only
    split_ifs <;> omega
  · intro h1 h5 hi hd
    rw [if_pos h5, if_neg (fun hc => hi hc.2), if_neg hi, if_pos hd]
  · intro h6 h10 hd hi
    rw [if_neg (by omega), if_pos (by omega), if_neg (fun hc => hi hc.1), if_pos hd]
    simp only
    split_ifs <;> omega

section RingClaims

variable {T : Type} [LinearOrderedField T] [FloorRing T]

/-- C28: in the general variant of `isea_dddi` (cell `h`, side length `s`) and in
`isea_dddi_ap3odd` (`d = h.x - h.z`, `i = h.x + 2 h.y`, `m = maxcoord`) the
same-ring transitions stay in their ring of five quads with wrap-around.  From
a northern quad `q` in `1 .. 5` the next-quad transition (`h.z = -s` with
`h.x ≠ 0`; `i = m` with `d ≠ 0`) returns `(q mod 5) + 1`, in `1 .. 5`, and the
lower-right transition (`h.x = s` with `h.z ≠ -s`; `d = m` with `i ≠ m`) returns
`q + 5`, in `6 .. 10`; from a southern quad `q` in `6 .. 10` the next-quad
transition (`h.x = s` with `h.z ≠ 0`; `d = m` with `i ≠ 0`) returns
`((q - 5) mod 5) + 6`, in `6 .. 10`. -/
theorem same_ring_transitions (M : Libm T) (g : isea_dgg T) (q : Int) (pt : isea_pt T) :
    (¬ (g.aperture = 3 ∧ g.resolution.tmod 2 ≠ 0) →
      (1 ≤ q → q ≤ 5 → (isea_dddi_cell M g pt).z = -isea_dddi_sidelength g →
        (isea_dddi_cell M g pt).x ≠ 0 →
        (isea_dddi M g q pt).1 = q % 5 + 1 ∧
          1 ≤ (isea_dddi M g q pt).1 ∧ (isea_dddi M g q pt).1 ≤ 5) ∧
      (1 ≤ q → q ≤ 5 → (isea_dddi_cell M g pt).z ≠ -isea_dddi_sidelength g →
        (isea_dddi_cell M g pt).x = isea_dddi_sidelength g →
        (isea_dddi M g q pt).1 = q + 5 ∧
          6 ≤ (isea_dddi M g q pt).1 ∧ (isea_dddi M g q pt).1 ≤ 10) ∧
      (6 ≤ q → q ≤ 10 → (isea_dddi_cell M g pt).x = isea_dddi_sidelength g →
        (isea_dddi_cell M g pt).z ≠ 0 →
        (isea_dddi M g q pt).1 = (q - 5) % 5 + 6 ∧
          6 ≤ (isea_dddi M g q pt).1 ∧ (isea_dddi M g q pt).1 ≤ 10)) ∧
    ((1 ≤ q → q ≤ 5 →
        (isea_dddi_ap3odd_cell M g pt).x + 2 * (isea_dddi_ap3odd_cell M g pt).y
          = isea_dddi_ap3odd_maxcoord g →
        (isea_dddi_ap3odd_cell M g pt).x - (isea_dddi_ap3odd_cell M g pt).z ≠ 0 →
        (isea_dddi_ap3odd M g q pt).1 = q % 5 + 1 ∧
          1 ≤ (isea_dddi_ap3odd M g q pt).1 ∧ (isea_dddi_ap3odd M g q pt).1 ≤ 5) ∧
      (1 ≤ q → q ≤ 5 →
        (isea_dddi_ap3odd_cell M g pt).x + 2 * (isea_dddi_ap3odd_cell M g pt).y
          ≠ isea_dddi_ap3odd_maxcoord g →
        (isea_dddi_ap3odd_cell M g pt).x - (isea_dddi_ap3odd_cell M g pt).z
          = isea_dddi_ap3odd_maxcoord g →
        (isea_dddi_ap3odd M g q pt).1 = q + 5 ∧
          6 ≤ (isea_dddi_ap3odd M g q pt).1 ∧ (isea_dddi_ap3odd M g q pt).1 ≤ 10) ∧
      (6 ≤ q → q ≤ 10 →
        (isea_dddi_ap3odd_cell M g pt).x - (isea_dddi_ap3odd_cell M g pt).z
          = isea_dddi_ap3odd_maxcoord g →
        (isea_dddi_ap3odd_cell M g pt).x + 2 * (isea_dddi_ap3odd_cell M g pt).y ≠ 0 →
        (isea_dddi_ap3odd M g q pt).1 = (q - 5) % 5 + 6 ∧
          6 ≤ (isea_dddi_ap3odd M g q pt).1 ∧ (isea_dddi_ap3odd M g q pt).1 ≤ 10)) := by
  have e : (isea_dddi_ap3odd_cell M g pt).x + (isea_dddi_ap3odd_cell M g pt).y
        + (isea_dddi_ap3odd_cell M g pt).y
      = (isea_dddi_ap3odd_cell M g pt).x + 2 * (isea_dddi_ap3odd_cell M g pt).y := by ring
  obtain ⟨a1, a2, a3⟩ := isea_dddi_remap_same_ring (isea_dddi_sidelength g) q
    (isea_dddi_cell M g pt)
  obtain ⟨b1, b2, b3⟩ := isea_dddi_ap3odd_remap_same_ring (isea_dddi_ap3odd_maxcoord g) q
    ((isea_dddi_ap3odd_cell M g pt).x - (isea_dddi_ap3odd_cell M g pt).z)
    ((isea_dddi_ap3odd_cell M g pt).x + 2 * (isea_dddi_ap3odd_cell M g pt).y)
  constructor
  · intro hbr
    unfold isea_dddi
    rw [if_neg hbr]
    simp only
    refine ⟨?_, ?_, ?_⟩
    · intro h1 h5 hz hx
      rw [a1 h1 h5 hz hx]
      omega
    · intro h1 h5 hz hx
      rw [a2 h1 h5 hz hx]
      omega
    · intro h6 h10 hx hz
      rw [a3 h6 h10 hx hz]
      omega
  · unfold isea_dddi_ap3odd
    simp only [e]
    refine ⟨?_, ?_, ?_⟩
    · intro h1 h5 hi hd
      rw [b1 h1 h5 hi hd]
      omega
    · intro h1 h5 hi hd
      rw [b2 h1 h5 hi hd]
      omega
    · intro h6 h10 hd hi
      rw [b3 h6 h10 hd hi]
      omega

end RingClaims

/-- Witness of C28 over the rationals: in the aperture-4 grid at resolution 1
(side length 2) quad 5 goes to quad 1 and quad 3 to quad 8, and quad 10 to
quad 6; in the aperture-3 grid at resolution 1 (`maxcoord = 3`) likewise. -/
theorem same_ring_transitions_witness :
    ((isea_dddi rational_libm (sample_dgg ℚ 4 1 isea_address_form.ISEA_Q2DI) 5
        { x := 0, y := 0.86 }).1 = 1 ∧
      (isea_dddi rational_libm (sample_dgg ℚ 4 1 isea_address_form.ISEA_Q2DI) 3
        { x := 0.74, y := 0.43 }).1 = 8 ∧
      (isea_dddi rational_libm (sample_dgg ℚ 4 1 isea_address_form.ISEA_Q2DI) 10
        { x := 0.74, y := 0.43 }).1 = 6) ∧
    ((isea_dddi_ap3odd rational_libm (sample_dgg ℚ 3 1 isea_address_form.ISEA_Q2DI) 5
        { x := 0.5, y := 0.86 }).1 = 1 ∧
      (isea_dddi_ap3odd rational_libm (sample_dgg ℚ 3 1 isea_address_form.ISEA_Q2DI) 3
        { x := 0.98, y := 0.01 }).1 = 8 ∧
      (isea_dddi_ap3odd rational_libm (sample_dgg ℚ 3 1 isea_address_form.ISEA_Q2DI) 10
        { x := 0.5, y := 0.86 }).1 = 6) := by
  have hbr : ¬ ((sample_dgg ℚ 4 1 isea_address_form.ISEA_Q2DI).aperture = 3 ∧
      (sample_dgg ℚ 4 1 isea_address_form.ISEA_Q2DI).resolution.tmod 2 ≠ 0) := by
    simp [sample_dgg]
  have g5 := ((same_ring_transitions rational_libm
    (sample_dgg ℚ 4 1 isea_address_form.ISEA_Q2DI) 5 { x := 0, y := 0.86 }).1 hbr).1
  have g3 := ((same_ring_transitions rational_libm
    (sample_dgg ℚ 4 1 isea_address_form.ISEA_Q2DI) 3 { x := 0.74, y := 0.43 }).1 hbr).2.1
  have g10 := ((same_ring_transitions rational_libm
    (sample_dgg ℚ 4 1 isea_address_form.ISEA_Q2DI) 10 { x := 0.74, y := 0.43 }).1 hbr).2.2
  have t5 := (same_ring_transitions rational_libm
    (sample_dgg ℚ 3 1 isea_address_form.ISEA_Q2DI) 5 { x := 0.5, y := 0.86 }).2.1
  have t3 := (same_ring_transitions rational_libm
    (sample_dgg ℚ 3 1 isea_address_form.ISEA_Q2DI) 3 { x := 0.98, y := 0.01 }).2.2.1
  have t10 := (same_ring_transitions rational_libm
    (sample_dgg ℚ 3 1 isea_address_form.ISEA_Q2DI) 10 { x := 0.5, y := 0.86 }).2.2.2
  rw [sample_cell_top_edge, sample_sidelength_ap4_res1] at g5
  rw [sample_cell_right_edge, sample_sidelength_ap4_res1] at g3 g10
  rw [sample_cell_ap3odd_apex, sample_maxcoord_ap3_res1] at t5 t10
  rw [sample_cell_ap3odd_right, sample_maxcoord_ap3_res1] at t3
  exact ⟨⟨(g5 (by decide) (by decide) (by decide) (by decide)).1,
      (g3 (by decide) (by decide) (by decide) (by decide)).1,
      (g10 (by decide) (by decide) (by decide) (by decide)).1⟩,
    ⟨(t5 (by decide) (by decide) (by decide) (by decide)).1,
      (t3 (by decide) (by decide) (by decide) (by decide)).1,
      (t10 (by decide) (by decide) (by decide) (by decide)).1⟩⟩

/-- The value of `maxcoord` for the sample grid with aperture 3 at resolution 3 is 9. -/
theorem sample_maxcoord_ap3_res3 (o : isea_address_form) :
    isea_dddi_ap3odd_maxcoord (sample_dgg ℚ 3 3 o) = 9 := by
  simp only [isea_dddi_ap3odd_maxcoord, sample_dgg, c_int]
  norm_num [Int.floor_eq_iff]

/-- The quad-frame point `(-0.15, 0.85)` bins to the cube cell `(-1, 5, -4)` in the
aperture-3 grid at resolution 3. -/
theorem sample_cell_ap3odd_top (o : isea_address_form) :
    isea_dddi_ap3odd_cell rational_libm (sample_dgg ℚ 3 3 o)
      { x := -0.15, y := 0.85 } = { iso := 1, x := -1, y := 5, z := -4 } := by
  simp only [isea_dddi_ap3odd_cell, sample_dgg]
  simp only [rational_libm, hexbin2, hexbin2_scale, hexbin2_cube, DEG30, d2r]
  norm_num [Int.floor_eq_iff, hex_xy, hex_iso]

/-- In the general variant the polar quads carry only the pole cell: when the
general remapping returns quad 0 or quad 11 for an input quad in `1 .. 10`, the
cell it holds has `x = 0` and `z = 0`, so `(d, i) = (0, 0)`. -/
theorem isea_dddi_remap_polar (s quad : Int) (h : hex) (h1 : 1 ≤ quad) (h10 : quad ≤ 10)
    (hq : (isea_dddi_remap s quad h).1 = 0 ∨ (isea_dddi_remap s quad h).1 = 11) :
    (isea_dddi_remap s quad h).2.x = 0 ∧ (isea_dddi_remap s quad h).2.z = 0 := by
  unfold isea_dddi_remap at hq ⊢
  split_ifs at hq ⊢ <;> simp only at hq ⊢ <;>
    first
    | exact ⟨rfl, rfl⟩
    | exact ⟨trivial, trivial⟩
    | trivial
    | (exfalso; omega)

/-- C26 (the code at a failing input): in the grid with aperture 3 at
resolution 3 (`maxcoord = 9`), for the southern quad 9 and the quad-frame point
`(-0.15, 0.85)`, binned to `(d, i) = (3, 9)` on the edge `i = maxcoord`,
`isea_dddi` (through `isea_dddi_ap3odd`) returns quad `(9 - 4) % 5 = 0` with
`(d, i) = (3, 0)`, and `isea_disn` gives that address the serial 1 of the north
pole. -/
theorem isea_dddi_ap3odd_polar_quad_keeps_d :
    isea_dddi_ap3odd_remap 9 9 3 9 = (0, 3, 0) ∧
    isea_dddi rational_libm (sample_dgg ℚ 3 3 isea_address_form.ISEA_Q2DI) 9
        { x := -0.15, y := 0.85 }
      = (0, { x := 3, y := 0 },
          { sample_dgg ℚ 3 3 isea_address_form.ISEA_Q2DI with quad := 0 }) ∧
    (isea_disn (sample_dgg ℚ 3 3 isea_address_form.ISEA_Q2DI) 0 { x := 3, y := 0 }).1 = 1 := by
  refine ⟨by decide, ?_, by simp [isea_disn]⟩
  have hbr : (sample_dgg ℚ 3 3 isea_address_form.ISEA_Q2DI).aperture = 3 ∧
      (sample_dgg ℚ 3 3 isea_address_form.ISEA_Q2DI).resolution.tmod 2 ≠ 0 := by
    simp only [sample_dgg]
    decide
  simp only [isea_dddi, if_pos hbr, isea_dddi_ap3odd, sample_cell_ap3odd_top,
    sample_maxcoord_ap3_res3]
  have hre : isea_dddi_ap3odd_remap 9 9 (-1 - -4) (-1 + 5 + 5) = (0, 3, 0) := by decide
  rw [hre]
  norm_num

/-- An unknown orientation string makes `setup_isea` throw. -/
theorem setup_isea_orient_error {T : Type} [LinearOrderedField T] (M : Libm T) (P : isea_params T) (g0 : isea_dgg T)
    (h0 : P.sorient ≠ "") (h1 : P.sorient ≠ "isea") (h2 : P.sorient ≠ "pole") :
    setup_isea M P g0 = Except.error (-34) := by
  simp only [setup_isea, setup_isea_orient, if_pos h0, if_neg h1, if_neg h2]

/-- The block that reads `orient` throws error -34 or returns a configuration
with the fields other than the orientation unchanged. -/
theorem setup_isea_orient_cases {T : Type} [LinearOrderedField T] (M : Libm T) (opt : String) (g : isea_dgg T) :
    setup_isea_orient M opt g = Except.error (-34) ∨
    ∃ g2, setup_isea_orient M opt g = Except.ok g2 ∧ g2.output = g.output ∧
      g2.radius = g.radius := by
  unfold setup_isea_orient
  split_ifs
  · exact Or.inr ⟨_, rfl, rfl, rfl⟩
  · exact Or.inr ⟨_, rfl, rfl, rfl⟩
  · exact Or.inl rfl
  · exact Or.inr ⟨_, rfl, rfl, rfl⟩

/-- The block that reads `orient` accepts the empty string, "isea" and "pole". -/
theorem setup_isea_orient_ok {T : Type} [LinearOrderedField T] (M : Libm T) (opt : String) (g : isea_dgg T)
    (h : opt = "" ∨ opt = "isea" ∨ opt = "pole") :
    ∃ g2, setup_isea_orient M opt g = Except.ok g2 ∧ g2.output = g.output ∧
      g2.radius = g.radius := by
  rcases setup_isea_orient_cases M opt g with he | hok
  · exfalso
    unfold setup_isea_orient at he
    rcases h with h | h | h <;> subst h <;> simp at he
  · exact hok

/-- An unknown mode string makes `setup_isea` throw. -/
theorem setup_isea_mode_error {T : Type} [LinearOrderedField T] (M : Libm T) (P : isea_params T) (g0 : isea_dgg T)
    (h0 : P.smode ≠ "") (h1 : P.smode ≠ "plane") (h2 : P.smode ≠ "di") (h3 : P.smode ≠ "dd")
    (h4 : P.smode ≠ "hex") :
    setup_isea M P g0 = Except.error (-34) := by
  unfold setup_isea
  simp only
  rcases setup_isea_orient_cases M P.sorient
    { isea_grid_init g0 with output := isea_address_form.ISEA_PLANE } with he | ⟨g2, hg2, -⟩
  · rw [he]
  · rw [hg2]
    simp only [setup_isea_mode, if_pos h0, if_neg h1, if_neg h2, if_neg h3, if_neg h4]

/-- The output form written by the block that reads `mode`, for each accepted
string. -/
theorem setup_isea_mode_ok {T : Type} (opt : String) (g : isea_dgg T)
    (hg : g.output = isea_address_form.ISEA_PLANE)
    (h : opt = "" ∨ opt = "plane" ∨ opt = "di" ∨ opt = "dd" ∨ opt = "hex") :
    ∃ g8, setup_isea_mode opt g = Except.ok g8 ∧ g8.radius = g.radius ∧
      ((opt = "" ∨ opt = "plane") → g8.output = isea_address_form.ISEA_PLANE) ∧
      (opt = "di" → g8.output = isea_address_form.ISEA_Q2DI) ∧
      (opt = "dd" → g8.output = isea_address_form.ISEA_Q2DD) ∧
      (opt = "hex" → g8.output = isea_address_form.ISEA_HEX) := by
  unfold setup_isea_mode
  rcases h with h | h | h | h | h <;> subst h <;> simp [hg]

/-- With accepted strings `setup_isea` returns a configuration: its output form
is the one named by `mode`, its aperture and resolution are the given values or
3 and 4, and its radius is `ISEA_SCALE` with `rescale` and 1 without. -/
theorem setup_isea_accepts {T : Type} [LinearOrderedField T] (M : Libm T) (P : isea_params T) (g0 : isea_dgg T)
    (ho : P.sorient = "" ∨ P.sorient = "isea" ∨ P.sorient = "pole")
    (hm : P.smode = "" ∨ P.smode = "plane" ∨ P.smode = "di" ∨ P.smode = "dd" ∨
      P.smode = "hex") :
    ∃ g, setup_isea M P g0 = Except.ok g ∧
      (((P.smode = "" ∨ P.smode = "plane") → g.output = isea_address_form.ISEA_PLANE) ∧
        (P.smode = "di" → g.output = isea_address_form.ISEA_Q2DI) ∧
        (P.smode = "dd" → g.output = isea_address_form.ISEA_Q2DD) ∧
        (P.smode = "hex" → g.output = isea_address_form.ISEA_HEX)) ∧
      g.aperture = (if P.taperture ≠ 0 then P.iaperture else 3) ∧
      g.resolution = (if P.tresolution ≠ 0 then P.iresolution else 4) ∧
      g.radius = (if P.trescale ≠ 0 then ISEA_SCALE else 1.0) := by
  obtain ⟨g2, hg2, ho2, hr2⟩ := setup_isea_orient_ok M P.sorient
    { isea_grid_init g0 with output := isea_address_form.ISEA_PLANE } ho
  have hr1 : g2.radius = 1.0 := by rw [hr2]; rfl
  have ho1 : g2.output = isea_address_form.ISEA_PLANE := by rw [ho2]
  unfold setup_isea
  simp only
  rw [hg2]
  simp only
  generalize hg7 : ite (P.tresolution ≠ 0) _ _ = g7
  have h7 : g7.output = isea_address_form.ISEA_PLANE ∧ g7.radius = 1.0 := by
    rw [← hg7]
    split_ifs <;> exact ⟨ho1, hr1⟩
  obtain ⟨g8, hg8, hr8, hout⟩ := setup_isea_mode_ok P.smode g7 h7.1 hm
  rw [hg8]
  simp only
  refine ⟨_, rfl, ?_, ?_, ?_, ?_⟩
  · obtain ⟨o1, o2, o3, o4⟩ := hout
    refine ⟨?_, ?_, ?_, ?_⟩
    · intro h
      rw [← o1 h]
      split_ifs <;> rfl
    · intro h
      rw [← o2 h]
      split_ifs <;> rfl
    · intro h
      rw [← o3 h]
      split_ifs <;> rfl
    · intro h
      rw [← o4 h]
      split_ifs <;> rfl
  · split_ifs <;> rfl
  · split_ifs <;> rfl
  · have hr : g8.radius = 1.0 := by rw [hr8]; exact h7.2
    split_ifs <;> first | rfl | exact hr

/-- C23: `setup_isea` throws the projection exception (code -34) whenever
`orient` is a non-empty string other than "isea" and "pole", and whenever `mode`
is a non-empty string other than "plane", "di", "dd" and "hex"; otherwise it
returns a configuration whose output form is PLANE for an absent `mode` and for
"plane", Q2DI for "di", Q2DD for "dd" and HEX for "hex"; no returned
configuration has the output form SEQNUM or PROJTRI. -/
theorem setup_isea_strings {T : Type} [LinearOrderedField T] (M : Libm T) (P : isea_params T)
    (g0 : isea_dgg T) :
    (P.sorient ≠ "" → P.sorient ≠ "isea" → P.sorient ≠ "pole" →
      setup_isea M P g0 = Except.error (-34)) ∧
    (P.smode ≠ "" → P.smode ≠ "plane" → P.smode ≠ "di" → P.smode ≠ "dd" → P.smode ≠ "hex" →
      setup_isea M P g0 = Except.error (-34)) ∧
    ((P.sorient = "" ∨ P.sorient = "isea" ∨ P.sorient = "pole") →
      (P.smode = "" ∨ P.smode = "plane" ∨ P.smode = "di" ∨ P.smode = "dd" ∨ P.smode = "hex") →
      ∃ g, setup_isea M P g0 = Except.ok g ∧
        ((P.smode = "" ∨ P.smode = "plane") → g.output = isea_address_form.ISEA_PLANE) ∧
        (P.smode = "di" → g.output = isea_address_form.ISEA_Q2DI) ∧
        (P.smode = "dd" → g.output = isea_address_form.ISEA_Q2DD) ∧
        (P.smode = "hex" → g.output = isea_address_form.ISEA_HEX)) ∧
    (∀ g, setup_isea M P g0 = Except.ok g →
      g.output ≠ isea_address_form.ISEA_SEQNUM ∧ g.output ≠ isea_address_form.ISEA_PROJTRI) := by
  refine ⟨setup_isea_orient_error M P g0, setup_isea_mode_error M P g0, ?_, ?_⟩
  · intro ho hm
    obtain ⟨g, hg, hout, -⟩ := setup_isea_accepts M P g0 ho hm
    exact ⟨g, hg, hout⟩
  · intro g hg
    by_cases ho : P.sorient = "" ∨ P.sorient = "isea" ∨ P.sorient = "pole"
    · by_cases hm : P.smode = "" ∨ P.smode = "plane" ∨ P.smode = "di" ∨ P.smode = "dd" ∨
          P.smode = "hex"
      · obtain ⟨g', hg', ⟨o1, o2, o3, o4⟩, -⟩ := setup_isea_accepts M P g0 ho hm
        rw [hg] at hg'
        obtain rfl : g = g' := by simpa using hg'
        rcases hm with h | h | h | h | h
        · rw [o1 (Or.inl h)]; exact ⟨by decide, by decide⟩
        · rw [o1 (Or.inr h)]; exact ⟨by decide, by decide⟩
        · rw [o2 h]; exact ⟨by decide, by decide⟩
        · rw [o3 h]; exact ⟨by decide, by decide⟩
        · rw [o4 h]; exact ⟨by decide, by decide⟩
      · push_neg at hm
        rw [setup_isea_mode_error M P g0 hm.1 hm.2.1 hm.2.2.1 hm.2.2.2.1 hm.2.2.2.2] at hg
        exact absurd hg (by simp)
    · push_neg at ho
      rw [setup_isea_orient_error M P g0 ho.1 ho.2.1 ho.2.2] at hg
      exact absurd hg (by simp)

/-- Witness of C23 over the rationals: the orientation "north" and the mode
"seqnum" are refused, and the orientation "pole" with the mode "hex" gives the
output form HEX, from a configuration that held the form SEQNUM before. -/
theorem setup_isea_strings_witness :
    setup_isea rational_libm { no_options ℚ with sorient := "north" }
        (sample_dgg ℚ 4 6 isea_address_form.ISEA_SEQNUM) = Except.error (-34) ∧
    setup_isea rational_libm { no_options ℚ with smode := "seqnum" }
        (sample_dgg ℚ 4 6 isea_address_form.ISEA_SEQNUM) = Except.error (-34) ∧
    ∃ g, setup_isea rational_libm { no_options ℚ with sorient := "pole", smode := "hex" }
        (sample_dgg ℚ 4 6 isea_address_form.ISEA_SEQNUM) = Except.ok g ∧
      g.output = isea_address_form.ISEA_HEX :=
  ⟨(setup_isea_strings rational_libm { no_options ℚ with sorient := "north" }
      (sample_dgg ℚ 4 6 isea_address_form.ISEA_SEQNUM)).1 (by decide) (by decide) (by decide),
    (setup_isea_strings rational_libm { no_options ℚ with smode := "seqnum" }
      (sample_dgg ℚ 4 6 isea_address_form.ISEA_SEQNUM)).2.1 (by decide) (by decide) (by decide)
      (by decide) (by decide),
    ((setup_isea_strings rational_libm { no_options ℚ with sorient := "pole", smode := "hex" }
      (sample_dgg ℚ 4 6 isea_address_form.ISEA_SEQNUM)).2.2.1
      (Or.inr (Or.inr rfl)) (Or.inr (Or.inr (Or.inr (Or.inr rfl))))).imp
      (fun _ h => ⟨h.1, h.2.2.2.2 rfl⟩)⟩

/-- C24 (amended): `setup_isea` raises no configuration error for the value of
the aperture or of the resolution: whenever the `orient` and `mode` strings are
accepted it returns a configuration, and every integer aperture and every
integer resolution given is stored unchanged in it. -/
theorem setup_isea_no_range_check {T : Type} [LinearOrderedField T] (M : Libm T)
    (P : isea_params T) (g0 : isea_dgg T)
    (ho : P.sorient = "" ∨ P.sorient = "isea" ∨ P.sorient = "pole")
    (hm : P.smode = "" ∨ P.smode = "plane" ∨ P.smode = "di" ∨ P.smode = "dd" ∨
      P.smode = "hex") :
    ∃ g, setup_isea M P g0 = Except.ok g ∧
      (P.taperture ≠ 0 → g.aperture = P.iaperture) ∧
      (P.tresolution ≠ 0 → g.resolution = P.iresolution) := by
  obtain ⟨g, hg, -, hap, hres, -⟩ := setup_isea_accepts M P g0 ho hm
  refine ⟨g, hg, ?_, ?_⟩
  · intro ha
    rw [hap, if_pos ha]
  · intro hr
    rw [hres, if_pos hr]

/-- Witness of C24 (amended): aperture 7 and resolution -3 with the mode "di". -/
theorem setup_isea_no_range_check_witness :
    ∃ g, setup_isea rational_libm
        { no_options ℚ with smode := "di", taperture := 1, iaperture := 7, tresolution := 1,
                            iresolution := -3 }
        (sample_dgg ℚ 4 6 isea_address_form.ISEA_PLANE) = Except.ok g ∧
      g.aperture = 7 ∧ g.resolution = -3 :=
  (setup_isea_no_range_check rational_libm
    { no_options ℚ with smode := "di", taperture := 1, iaperture := 7, tresolution := 1,
                        iresolution := -3 }
    (sample_dgg ℚ 4 6 isea_address_form.ISEA_PLANE) (Or.inl rfl)
    (Or.inr (Or.inr (Or.inl rfl)))).imp
    (fun _ h => ⟨h.1, h.2.1 (by decide), h.2.2 (by decide)⟩)

/-- C24 (counterexample): with the aperture 5 and the resolution -1 given and no
other option, `setup_isea` throws nothing and returns the plane-form
configuration with aperture 5 and resolution -1. -/
theorem setup_isea_accepts_aperture_five :
    setup_isea rational_libm
        { no_options ℚ with taperture := 1, iaperture := 5, tresolution := 1, iresolution := -1 }
        (sample_dgg ℚ 4 6 isea_address_form.ISEA_PLANE)
      = Except.ok (sample_dgg ℚ 5 (-1) isea_address_form.ISEA_PLANE) ∧
    ¬ ∃ e, setup_isea rational_libm
        { no_options ℚ with taperture := 1, iaperture := 5, tresolution := 1, iresolution := -1 }
        (sample_dgg ℚ 4 6 isea_address_form.ISEA_PLANE) = Except.error e := by
  have h : setup_isea rational_libm
        { no_options ℚ with taperture := 1, iaperture := 5, tresolution := 1, iresolution := -1 }
        (sample_dgg ℚ 4 6 isea_address_form.ISEA_PLANE)
      = Except.ok (sample_dgg ℚ 5 (-1) isea_address_form.ISEA_PLANE) := by
    simp [setup_isea, setup_isea_orient, setup_isea_mode, no_options, isea_grid_init, sample_dgg,
      ISEA_STD_LAT, ISEA_STD_LON]
  refine ⟨h, ?_⟩
  rintro ⟨e, he⟩
  rw [h] at he
  exact absurd he (by simp)

/-- C25: `isea_grid_init` writes resolution 6 and aperture 4, and `setup_isea`
replaces them: with an absent resolution option the returned configuration has
resolution 4 and with a given one the given value; with an absent aperture
option it has aperture 3.  Without any option the result has the output form
PLANE, the standard pole (`ISEA_STD_LAT`, `ISEA_STD_LON`), azimuth 0, radius 1,
resolution 4 and aperture 3. -/
theorem setup_isea_defaults {T : Type} [LinearOrderedField T] (M : Libm T) (P : isea_params T)
    (g0 : isea_dgg T) :
    ((isea_grid_init g0).resolution = 6 ∧ (isea_grid_init g0).aperture = 4) ∧
    ((P.sorient = "" ∨ P.sorient = "isea" ∨ P.sorient = "pole") →
      (P.smode = "" ∨ P.smode = "plane" ∨ P.smode = "di" ∨ P.smode = "dd" ∨ P.smode = "hex") →
      ∃ g, setup_isea M P g0 = Except.ok g ∧
        (P.tresolution = 0 → g.resolution = 4) ∧
        (P.tresolution ≠ 0 → g.resolution = P.iresolution) ∧
        (P.taperture = 0 → g.aperture = 3)) ∧
    (P.sorient = "" → P.smode = "" → P.tazi = 0 → P.tlon_0 = 0 → P.tlat_0 = 0 →
      P.taperture = 0 → P.tresolution = 0 → P.trescale = 0 →
      ∃ g, setup_isea M P g0 = Except.ok g ∧
        g.output = isea_address_form.ISEA_PLANE ∧
        g.o_lat = ISEA_STD_LAT ∧ g.o_lon = ISEA_STD_LON ∧ g.o_az = 0 ∧ g.radius = 1 ∧
        g.resolution = 4 ∧ g.aperture = 3) := by
  refine ⟨⟨rfl, rfl⟩, ?_, ?_⟩
  · intro ho hm
    obtain ⟨g, hg, -, hap, hres, -⟩ := setup_isea_accepts M P g0 ho hm
    refine ⟨g, hg, ?_, ?_, ?_⟩
    · intro h
      rw [hres, if_neg (by simpa using h)]
    · intro h
      rw [hres, if_pos h]
    · intro h
      rw [hap, if_neg (by simpa using h)]
  · intro h1 h2 h3 h4 h5 h6 h7 h8
    refine ⟨{ isea_grid_init g0 with output := isea_address_form.ISEA_PLANE, resolution := 4,
                                     aperture := 3 }, ?_, rfl, rfl, rfl, ?_, ?_, rfl, rfl⟩
    · simp [setup_isea, setup_isea_orient, setup_isea_mode, h1, h2, h3, h4, h5, h6, h7, h8]
    · simp only [isea_grid_init]
      norm_num
    · simp only [isea_grid_init]
      norm_num

/-- Witness of C25 over the rationals: no option at all, and the single option
resolution 7. -/
theorem setup_isea_defaults_witness :
    (∃ g, setup_isea rational_libm (no_options ℚ)
        (sample_dgg ℚ 4 6 isea_address_form.ISEA_SEQNUM) = Except.ok g ∧
      g.output = isea_address_form.ISEA_PLANE ∧
      g.o_lat = ISEA_STD_LAT ∧ g.o_lon = ISEA_STD_LON ∧ g.o_az = 0 ∧ g.radius = 1 ∧
      g.resolution = 4 ∧ g.aperture = 3) ∧
    (∃ g, setup_isea rational_libm { no_options ℚ with tresolution := 1, iresolution := 7 }
        (sample_dgg ℚ 4 6 isea_address_form.ISEA_SEQNUM) = Except.ok g ∧
      g.resolution = 7 ∧ g.aperture = 3) :=
  ⟨(setup_isea_defaults rational_libm (no_options ℚ)
      (sample_dgg ℚ 4 6 isea_address_form.ISEA_SEQNUM)).2.2 rfl rfl rfl rfl rfl rfl rfl rfl,
    ((setup_isea_defaults rational_libm { no_options ℚ with tresolution := 1, iresolution := 7 }
      (sample_dgg ℚ 4 6 isea_address_form.ISEA_SEQNUM)).2.1 (Or.inl rfl) (Or.inl rfl)).imp
      (fun _ h => ⟨h.1, h.2.2.1 (by decide), h.2.2.2 rfl⟩)⟩

/-! ## Divisors of the addressing stages -/

section DivisorClaims

variable {T : Type} [LinearOrderedField T] [FloorRing T]

end DivisorClaims

/-- C32 (amended): in `hex_xy` (on a cube-form hex) and in `hex_iso` (on an
offset-form hex), the term subtracted from `-y` is `(x + 1) / 2` for `x ≥ 0` and
`x / 2` rounded toward zero for negative `x`; in both cases this is
`(x + 1) / 2` rounded toward minus infinity. -/
theorem hex_offset_term (h : hex) :
    (h.iso ≠ 0 →
      (0 ≤ h.x → (hex_xy h).y = -h.y - (h.x + 1).tdiv 2) ∧
      (h.x < 0 → (hex_xy h).y = -h.y - h.x.tdiv 2 ∧ h.x.tdiv 2 = -((-h.x) / 2)) ∧
      (hex_xy h).y = -h.y - (h.x + 1) / 2) ∧
    (h.iso = 0 →
      (0 ≤ h.x → (hex_iso h).y = -h.y - (h.x + 1).tdiv 2) ∧
      (h.x < 0 → (hex_iso h).y = -h.y - h.x.tdiv 2 ∧ h.x.tdiv 2 = -((-h.x) / 2)) ∧
      (hex_iso h).y = -h.y - (h.x + 1) / 2) := by
  have key : ∀ x : Int, (0 ≤ x → (x + 1).tdiv 2 = (x + 1) / 2) ∧
      (x < 0 → x.tdiv 2 = -((-x) / 2) ∧ x.tdiv 2 = (x + 1) / 2) := by
    intro x
    constructor
    · intro hx
      exact Int.tdiv_eq_ediv (by omega) (by norm_num)
    · intro hx
      have e : x.tdiv 2 = -((-x).tdiv 2) := by
        rw [← Int.neg_tdiv, neg_neg]
      have e2 : (-x).tdiv 2 = (-x) / 2 := Int.tdiv_eq_ediv (by omega) (by norm_num)
      rw [e, e2]
      exact ⟨rfl, by omega⟩
  constructor
  · intro hiso
    unfold hex_xy
    rw [if_neg hiso]
    refine ⟨?_, ?_, ?_⟩
    · intro hx
      rw [if_pos hx]
    · intro hx
      rw [if_neg (by omega)]
      exact ⟨rfl, ((key h.x).2 hx).1⟩
    · by_cases hx : 0 ≤ h.x
      · rw [if_pos hx]
        simp only
        rw [(key h.x).1 hx]
      · rw [if_neg hx]
        simp only
        rw [((key h.x).2 (by omega)).2]
  · intro hiso
    unfold hex_iso
    rw [if_neg (by simpa using hiso)]
    simp only
    refine ⟨?_, ?_, ?_⟩
    · intro hx
      rw [if_pos hx]
    · intro hx
      rw [if_neg (by omega)]
      exact ⟨rfl, ((key h.x).2 hx).1⟩
    · by_cases hx : 0 ≤ h.x
      · rw [if_pos hx, (key h.x).1 hx]
      · rw [if_neg hx, ((key h.x).2 (by omega)).2]

/-- Witness of C32 (amended): the cube-form hex with `x = -3`, `y = 1` and the
offset-form hex with `x = -3`, `y = 0`. -/
theorem hex_offset_term_witness :
    ((hex_xy { iso := 1, x := -3, y := 1, z := 2 }).y = -1 - (-3 : Int).tdiv 2 ∧
        (-3 : Int).tdiv 2 = -((- -3) / 2)) ∧
      (hex_xy { iso := 1, x := -3, y := 1, z := 2 }).y = -1 - (-3 + 1) / 2 ∧
    ((hex_iso { iso := 0, x := -3, y := 0, z := 0 }).y = -0 - (-3 : Int).tdiv 2 ∧
        (-3 : Int).tdiv 2 = -((- -3) / 2)) ∧
      (hex_iso { iso := 0, x := -3, y := 0, z := 0 }).y = -0 - (-3 + 1) / 2 :=
  ⟨((hex_offset_term { iso := 1, x := -3, y := 1, z := 2 }).1 (by decide)).2.1 (by decide),
    ((hex_offset_term { iso := 1, x := -3, y := 1, z := 2 }).1 (by decide)).2.2,
    ((hex_offset_term { iso := 0, x := -3, y := 0, z := 0 }).2 rfl).2.1 (by decide),
    ((hex_offset_term { iso := 0, x := -3, y := 0, z := 0 }).2 rfl).2.2⟩

/-- C32 (counterexample): for `x = -3` the term subtracted from `-y` is `-1`, the
quotient `-3 / 2` rounded toward zero, and not its floor `-2`: `hex_xy` sends
the cube-form hex `(-3, 1, 2)` to `y = 0` and `hex_iso` sends the offset-form hex
`(-3, 0)` to `y = 1`, where the floor would give `1` and `2`. -/
theorem hex_offset_term_not_floor :
    ⌊((-3 : Int) : ℚ) / 2⌋ = -2 ∧
    (hex_xy { iso := 1, x := -3, y := 1, z := 2 }).y = 0 ∧
    (hex_xy { iso := 1, x := -3, y := 1, z := 2 }).y ≠ -1 - ⌊((-3 : Int) : ℚ) / 2⌋ ∧
    (hex_iso { iso := 0, x := -3, y := 0, z := 0 }).y = 1 ∧
    (hex_iso { iso := 0, x := -3, y := 0, z := 0 }).y ≠ -0 - ⌊((-3 : Int) : ℚ) / 2⌋ := by
  have hf : ⌊((-3 : Int) : ℚ) / 2⌋ = -2 := by
    rw [Int.floor_eq_iff]
    norm_num
  rw [hf]
  exact ⟨rfl, by decide, by decide, by decide, by decide⟩

/-! ## Reduction of the azimuth -/

section AzimuthClaims

variable {T : Type} [LinearOrderedField T] [FloorRing T]

end AzimuthClaims

/-- Signs of the sine and cosine of the vertex latitude `V_LAT` and of the centre
latitude `F_RAD`. -/
theorem trig_signs_V_F :
    0 < Real.sin (V_LAT : ℝ) ∧ 0 < Real.cos (V_LAT : ℝ) ∧
      0 < Real.sin (F_RAD : ℝ) ∧ 0 < Real.cos (F_RAD : ℝ) := by
  have hp := Real.pi_gt_three
  have hV0 : (0 : ℝ) < V_LAT := by unfold V_LAT; norm_num
  have hV1 : (V_LAT : ℝ) < 1 := by unfold V_LAT; norm_num
  have hF0 : (0 : ℝ) < F_RAD := by unfold F_RAD; norm_num
  have hF1 : (F_RAD : ℝ) < 1 := by unfold F_RAD; norm_num
  refine ⟨Real.sin_pos_of_pos_of_lt_pi hV0 (by linarith), ?_,
    Real.sin_pos_of_pos_of_lt_pi hF0 (by linarith), ?_⟩
  · exact Real.cos_pos_of_mem_Ioo ⟨by linarith, by linarith⟩
  · exact Real.cos_pos_of_mem_Ioo ⟨by linarith, by linarith⟩

/-- The azimuth adjustment of the triangles 6 to 10, whose vertex lies on the
meridian of the centre to its south, is `pi`. -/
theorem az_adjustment_mid_down (L : SphereLibm ℝ) (hL : real_libm L) (i : Nat) (h1 : 6 ≤ i)
    (h5 : i ≤ 10) : az_adjustment L i = Real.pi := by
  obtain ⟨hpi, hcos, hsin, -, -, -, hatan2⟩ := hL
  obtain ⟨hsV, hcV, hsF, hcF⟩ := trig_signs_V_F
  have key : Complex.arg
      ⟨Real.cos (F_RAD : ℝ) * -Real.sin (V_LAT : ℝ) - Real.sin (F_RAD : ℝ) * Real.cos (V_LAT : ℝ),
        0⟩ = Real.pi :=
    arg_mk_zero_of_neg _ (by nlinarith only [mul_pos hcF hsV, mul_pos hsF hcV])
  interval_cases i <;>
  · unfold az_adjustment
    simp only [tri_v1, vertex, icostriangles, hcos, hsin, hatan2, sub_self, Real.cos_neg,
      Real.sin_neg, Real.sin_zero, Real.cos_zero, mul_zero, mul_one]
    exact key

/-- The azimuth adjustment of the triangles 11 to 15, whose vertex lies on the
meridian of the centre to its north, is 0. -/
theorem az_adjustment_mid_up (L : SphereLibm ℝ) (hL : real_libm L) (i : Nat) (h1 : 11 ≤ i)
    (h5 : i ≤ 15) : az_adjustment L i = 0 := by
  obtain ⟨hpi, hcos, hsin, -, -, -, hatan2⟩ := hL
  obtain ⟨hsV, hcV, hsF, hcF⟩ := trig_signs_V_F
  have key : Complex.arg
      ⟨Real.cos (F_RAD : ℝ) * Real.sin (V_LAT : ℝ) - -Real.sin (F_RAD : ℝ) * Real.cos (V_LAT : ℝ),
        0⟩ = 0 :=
    arg_mk_zero_of_nonneg _ (by nlinarith only [mul_pos hcF hsV, mul_pos hsF hcV])
  interval_cases i <;>
  · unfold az_adjustment
    simp only [tri_v1, vertex, icostriangles, hcos, hsin, hatan2, sub_self, Real.cos_neg,
      Real.sin_neg, Real.sin_zero, Real.cos_zero, mul_zero, mul_one]
    exact key

/-- C34: over the exact real library, for every triangle id `t` in `1 .. 20` the
value of `az_adjustment(t)`, computed from `vertex`, `tri_v1` and
`icostriangles`, is 0 for the upward triangles 1..5 and 11..15 and `pi` (180
degrees) for the downward triangles 6..10 and 16..20, that is `pi` exactly when
`DOWNTRI(t)` holds; and `tri_v1[t]` is an index `0 .. 11` of the vertex table. -/
theorem az_adjustment_zero_or_pi (L : SphereLibm ℝ) (hL : real_libm L) (t : Nat) (h1 : 1 ≤ t)
    (h20 : t ≤ 20) :
    (az_adjustment L t = 0 ∨ az_adjustment L t = Real.pi) ∧
    ((t ≤ 5 ∨ (11 ≤ t ∧ t ≤ 15)) → az_adjustment L t = 0) ∧
    (((6 ≤ t ∧ t ≤ 10) ∨ 16 ≤ t) → az_adjustment L t = Real.pi) ∧
    (az_adjustment L t = Real.pi ↔ DOWNTRI (t : Int) = true) ∧
    tri_v1 t ≤ 11 := by
  have hp := Real.pi_pos
  have hd : DOWNTRI (t : Int) = true ↔ ((6 ≤ t ∧ t ≤ 10) ∨ 16 ≤ t) := by
    interval_cases t <;> decide
  have hv : tri_v1 t ≤ 11 := by
    interval_cases t <;> decide
  by_cases c5 : t ≤ 5
  · have h := az_adjustment_upper L hL t h1 c5
    refine ⟨Or.inl h, fun _ => h, fun hc => by omega, ?_, hv⟩
    rw [hd, h]
    constructor
    · intro h0
      linarith only [h0, hp]
    · intro hc
      omega
  · by_cases c10 : t ≤ 10
    · have h := az_adjustment_mid_down L hL t (by omega) c10
      refine ⟨Or.inr h, fun hc => by omega, fun _ => h, ?_, hv⟩
      rw [hd]
      exact ⟨fun _ => Or.inl ⟨by omega, c10⟩, fun _ => h⟩
    · by_cases c15 : t ≤ 15
      · have h := az_adjustment_mid_up L hL t (by omega) c15
        refine ⟨Or.inl h, fun _ => h, fun hc => by omega, ?_, hv⟩
        rw [hd, h]
        constructor
        · intro h0
          linarith only [h0, hp]
        · intro hc
          omega
      · have h := az_adjustment_lower L hL t (by omega) h20
        refine ⟨Or.inr h, fun hc => by omega, fun _ => h, ?_, hv⟩
        rw [hd]
        exact ⟨fun _ => Or.inr (by omega), fun _ => h⟩

/-- Witness of C34: triangle 8, a downward triangle with vertex 8. -/
theorem az_adjustment_zero_or_pi_witness :
    real_libm
        { pi := Real.pi, cos := Real.cos, sin := Real.sin, tan := Real.tan, acos := Real.arccos,
          asin := Real.arcsin, atan2 := fun y x => Complex.arg ⟨x, y⟩ } ∧
    az_adjustment
        { pi := Real.pi, cos := Real.cos, sin := Real.sin, tan := Real.tan, acos := Real.arccos,
          asin := Real.arcsin, atan2 := fun y x => Complex.arg ⟨x, y⟩ } 8 = Real.pi ∧
    DOWNTRI ((8 : Nat) : Int) = true ∧ tri_v1 8 ≤ 11 :=
  ⟨⟨rfl, rfl, rfl, rfl, rfl, rfl, rfl⟩,
    (az_adjustment_zero_or_pi
      { pi := Real.pi, cos := Real.cos, sin := Real.sin, tan := Real.tan, acos := Real.arccos,
        asin := Real.arcsin, atan2 := fun y x => Complex.arg ⟨x, y⟩ }
      ⟨rfl, rfl, rfl, rfl, rfl, rfl, rfl⟩ 8 (by decide) (by decide)).2.2.1
      (Or.inl ⟨by decide, by decide⟩),
    by decide, by decide⟩

/-! ## Layout of the triangle centres -/

/-- The centre returned by `isea_triangle_xy` for a triangle in `1 .. 20`, with
integer column and row factors. -/
theorem isea_triangle_xy_table {T : Type} [LinearOrderedField T] (t : Int) (h1 : 1 ≤ t)
    (h20 : t ≤ 20) :
    isea_triangle_xy (T := T) t
      = some
        { x := (TABLE_G * (((t - 1) % 5 - 2 : Int) : T) * 2.0
                + (if 11 ≤ t then TABLE_G else 0)) * 0.91038328153090290025
          y := ((if t ≤ 5 then 5 else if t ≤ 10 then 1 else if t ≤ 15 then -1 else -5 : Int) : T)
                * TABLE_H * 0.91038328153090290025 } := by
  have e20 : (t - 1).tmod 20 = t - 1 := by
    rw [Int.tmod_eq_emod (by omega) (by norm_num)]
    exact Int.emod_eq_of_lt (by omega) (by omega)
  have e5 : (t - 1).tdiv 5 = (t - 1) / 5 := Int.tdiv_eq_ediv (by omega) (by norm_num)
  have em : (t - 1).tmod 5 = (t - 1) % 5 := Int.tmod_eq_emod (by omega) (by norm_num)
  unfold isea_triangle_xy
  simp only [e20, e5, em]
  have e50 : (5.0 : T) = 5 := by norm_num
  have e20' : (2.0 : T) = 2 := by norm_num
  split_ifs <;>
    first
    | (exfalso; omega)
    | (simp only [Option.some.injEq, isea_pt.mk.injEq, e50, e20']
       constructor <;> push_cast <;> ring)

/-- C35: for every triangle id `t` in `1 .. 20`, `isea_triangle_xy` returns a
centre (the exception of the default case is not reached): its `y` is
`R' * TABLE_H` times 5, 1, -1, -5 for the triangles 1..5, 6..10, 11..15, 16..20,
and its `x` is `R' * TABLE_G * (2 * ((t - 1) mod 5) - 4)`, plus `R' * TABLE_G` for
`t ≥ 11`; the 20 centres are pairwise distinct. -/
theorem isea_triangle_xy_layout {T : Type} [LinearOrderedField T] (t : Int) (h1 : 1 ≤ t)
    (h20 : t ≤ 20) :
    (∃ c : isea_pt T, isea_triangle_xy t = some c ∧
      c.y = 0.91038328153090290025 * TABLE_H
              * (if t ≤ 5 then 5 else if t ≤ 10 then 1 else if t ≤ 15 then -1 else -5) ∧
      c.x = 0.91038328153090290025 * TABLE_G * (2 * (((t - 1) % 5 : Int) : T) - 4)
              + (if 11 ≤ t then 0.91038328153090290025 * TABLE_G else 0)) ∧
    (∀ t' : Int, 1 ≤ t' → t' ≤ 20 → isea_triangle_xy (T := T) t = isea_triangle_xy t' →
      t = t') := by
  have hG : (TABLE_G : T) ≠ 0 := by unfold TABLE_G; norm_num
  have hH : (TABLE_H : T) ≠ 0 := by unfold TABLE_H; norm_num
  have hR : (0.91038328153090290025 : T) ≠ 0 := by norm_num
  constructor
  · refine ⟨_, isea_triangle_xy_table t h1 h20, ?_, ?_⟩
    · simp only
      split_ifs <;> push_cast <;> ring
    · simp only
      split_ifs <;> push_cast <;> ring
  · intro t' h1' h20' heq
    rw [isea_triangle_xy_table t h1 h20, isea_triangle_xy_table t' h1' h20'] at heq
    simp only [Option.some.injEq, isea_pt.mk.injEq] at heq
    obtain ⟨hx, hy⟩ := heq
    have hy2 : (if t ≤ 5 then 5 else if t ≤ 10 then 1 else if t ≤ 15 then -1 else -5 : Int)
        = (if t' ≤ 5 then 5 else if t' ≤ 10 then 1 else if t' ≤ 15 then -1 else -5 : Int) := by
      have := mul_right_cancel₀ hR hy
      have := mul_right_cancel₀ hH this
      exact_mod_cast this
    have hrow : (t ≤ 5 ↔ t' ≤ 5) ∧ (t ≤ 10 ↔ t' ≤ 10) ∧ (t ≤ 15 ↔ t' ≤ 15) := by
      split_ifs at hy2 <;> omega
    have hx1 := mul_right_cancel₀ hR hx
    have hd : (if 11 ≤ t then (TABLE_G : T) else 0) = (if 11 ≤ t' then (TABLE_G : T) else 0) := by
      by_cases c : 11 ≤ t
      · rw [if_pos c, if_pos (by omega)]
      · rw [if_neg c, if_neg (by omega)]
    rw [hd] at hx1
    have hx2 := add_right_cancel hx1
    have hx3 : TABLE_G * ((((t - 1) % 5 - 2 : Int)) : T)
        = TABLE_G * ((((t' - 1) % 5 - 2 : Int)) : T) :=
      mul_right_cancel₀ (by norm_num : (2.0 : T) ≠ 0) hx2
    have hx4 : ((t - 1) % 5 - 2 : Int) = ((t' - 1) % 5 - 2 : Int) := by
      exact_mod_cast mul_left_cancel₀ hG hx3
    omega

/-- Witness of C35 over the rationals: triangle 13, in the third row. -/
theorem isea_triangle_xy_layout_witness :
    (∃ c : isea_pt ℚ, isea_triangle_xy 13 = some c ∧
      c.y = 0.91038328153090290025 * TABLE_H
              * (if (13 : Int) ≤ 5 then 5 else if (13 : Int) ≤ 10 then 1
                  else if (13 : Int) ≤ 15 then -1 else -5) ∧
      c.x = 0.91038328153090290025 * TABLE_G * (2 * ((((13 : Int) - 1) % 5 : Int) : ℚ) - 4)
              + (if (11 : Int) ≤ 13 then 0.91038328153090290025 * TABLE_G else 0)) ∧
    (∀ t' : Int, 1 ≤ t' → t' ≤ 20 → isea_triangle_xy (T := ℚ) 13 = isea_triangle_xy t' →
      13 = t') :=
  isea_triangle_xy_layout 13 (by decide) (by decide)

/-! ## Independence of the radius -/

section RadiusClaims

variable {T : Type} [LinearOrderedField T] [FloorRing T]

/-- The point returned by `isea_forward` in an output form other than the plane
form, for a configuration with radius `r ≠ 0`, written without the radius. -/
theorem isea_forward_radius_free (M : Libm T) (F : FaceLocator T) (g : isea_dgg T) (r : T)
    (p : isea_geo T) (hout : g.output ≠ isea_address_form.ISEA_PLANE) (hr : r ≠ 0) :
    (isea_forward M F { g with radius := r } p).map Prod.fst
      = (F.isea_snyder_forward (F.isea_ctran { lon := g.o_lon, lat := g.o_lat } p g.o_az)).map
          (fun s => (isea_forward_switch M g s.1
            { x := s.2.x * ISEA_SCALE + 0.5
              y := s.2.y * ISEA_SCALE + 2.0 * 0.14433756729740644112 }).1) := by
  rw [isea_forward_eq_switch M F { g with radius := r } p hout]
  cases hs : F.isea_snyder_forward (F.isea_ctran { lon := g.o_lon, lat := g.o_lat } p g.o_az) with
  | none =>
    have ht : isea_transform F { g with radius := r } p = none := by
      unfold isea_transform
      simp only [hs]
    rw [ht]
    rfl
  | some s =>
    obtain ⟨tri, out⟩ := s
    rw [isea_transform_some F { g with radius := r } p tri out hs]
    simp only [Option.map_some', Option.some.injEq]
    have ex : out.x * r / r = out.x := mul_div_cancel_right₀ _ hr
    have ey : out.y * r / r = out.y := mul_div_cancel_right₀ _ hr
    rw [ex, ey]
    exact (isea_forward_switch_congr M
      { g with radius := r, triangle := tri } g tri
      { x := out.x * ISEA_SCALE + 0.5, y := out.y * ISEA_SCALE + 2.0 * 0.14433756729740644112 }
      rfl rfl rfl).1

/-- C36: for every output form other than ISEA_PLANE, every input point and
every two non-zero radii `r1` and `r2`, `isea_forward` returns the same address
(or fails alike when the Snyder stage finds no triangle) for the configurations
that differ in the radius only: the multiplication by the radius in
`isea_transform` is undone by the division in `isea_forward`. -/
theorem isea_forward_radius_independent (M : Libm T) (F : FaceLocator T) (g : isea_dgg T)
    (r1 r2 : T) (p : isea_geo T) (hout : g.output ≠ isea_address_form.ISEA_PLANE)
    (h1 : r1 ≠ 0) (h2 : r2 ≠ 0) :
    (isea_forward M F { g with radius := r1 } p).map Prod.fst
      = (isea_forward M F { g with radius := r2 } p).map Prod.fst := by
  rw [isea_forward_radius_free M F g r1 p hout h1, isea_forward_radius_free M F g r2 p hout h2]

end RadiusClaims

/-- Witness of C36 over the rationals: the radii 1 and `ISEA_SCALE` (the value
set by the `rescale` option) in the serial-number form. -/
theorem isea_forward_radius_independent_witness :
    (sample_dgg ℚ 4 1 isea_address_form.ISEA_SEQNUM).output ≠ isea_address_form.ISEA_PLANE ∧
    (1 : ℚ) ≠ 0 ∧ (ISEA_SCALE : ℚ) ≠ 0 ∧
    (isea_forward rational_libm (fixed_locator 1 { x := 0, y := -0.2 })
        { sample_dgg ℚ 4 1 isea_address_form.ISEA_SEQNUM with radius := 1 }
        { lon := 0, lat := 1 }).map Prod.fst
      = (isea_forward rational_libm (fixed_locator 1 { x := 0, y := -0.2 })
        { sample_dgg ℚ 4 1 isea_address_form.ISEA_SEQNUM with radius := ISEA_SCALE }
        { lon := 0, lat := 1 }).map Prod.fst :=
  ⟨by decide, by norm_num, by unfold ISEA_SCALE; norm_num,
    isea_forward_radius_independent rational_libm (fixed_locator 1 { x := 0, y := -0.2 })
      (sample_dgg ℚ 4 1 isea_address_form.ISEA_SEQNUM) 1 ISEA_SCALE { lon := 0, lat := 1 }
      (by decide) (by norm_num) (by unfold ISEA_SCALE; norm_num)⟩

/-! ## The rotation of a planar point -/

/-- The first normalisation loop of `isea_rotate` changes the angle by a whole
number of turns. -/
theorem isea_rotate_down_shift {T : Type} [LinearOrderedField T] (twopi : T) (n : Nat)
    (rad : T) : ∃ k : Int, isea_rotate_down twopi n rad = rad + (k : T) * twopi := by
  induction n generalizing rad with
  | zero => exact ⟨0, by simp [isea_rotate_down]⟩
  | succ m ih =>
    by_cases h : rad ≥ twopi
    · obtain ⟨k, hk⟩ := ih (rad - twopi)
      refine ⟨k - 1, ?_⟩
      simp only [isea_rotate_down, if_pos h, hk]
      push_cast
      ring
    · exact ⟨0, by simp [isea_rotate_down, if_neg h]⟩

/-- The second normalisation loop of `isea_rotate` changes the angle by a whole
number of turns. -/
theorem isea_rotate_up_shift {T : Type} [LinearOrderedField T] (twopi : T) (n : Nat)
    (rad : T) : ∃ k : Int, isea_rotate_up twopi n rad = rad + (k : T) * twopi := by
  induction n generalizing rad with
  | zero => exact ⟨0, by simp [isea_rotate_up]⟩
  | succ m ih =>
    by_cases h : rad ≤ -twopi
    · obtain ⟨k, hk⟩ := ih (rad + twopi)
      refine ⟨k + 1, ?_⟩
      simp only [isea_rotate_up, if_pos h, hk]
      push_cast
      ring
    · exact ⟨0, by simp [isea_rotate_up, if_neg h]⟩

/-- The function `isea_rotate` over the exact real library, for every angle: the
counter-clockwise rotation by the angle `degrees`. -/
theorem isea_rotate_real (M : Libm ℝ) (hpi : M.pi = Real.pi) (hcos : M.cos = Real.cos)
    (hsin : M.sin = Real.sin) (pt : isea_pt ℝ) (a : ℝ) :
    isea_rotate M pt a
      = { x := pt.x * Real.cos (a * (Real.pi / 180)) - pt.y * Real.sin (a * (Real.pi / 180))
          y := pt.x * Real.sin (a * (Real.pi / 180)) + pt.y * Real.cos (a * (Real.pi / 180)) } := by
  obtain ⟨k1, hk1⟩ := isea_rotate_down_shift (two_pi M) (⌊|-a * d2r M| / two_pi M⌋₊ + 1)
    (-a * d2r M)
  obtain ⟨k2, hk2⟩ := isea_rotate_up_shift (two_pi M)
    (⌊|isea_rotate_down (two_pi M) (⌊|-a * d2r M| / two_pi M⌋₊ + 1) (-a * d2r M)|
      / two_pi M⌋₊ + 1)
    (isea_rotate_down (two_pi M) (⌊|-a * d2r M| / two_pi M⌋₊ + 1) (-a * d2r M))
  have hrad : isea_rotate_up (two_pi M)
      (⌊|isea_rotate_down (two_pi M) (⌊|-a * d2r M| / two_pi M⌋₊ + 1) (-a * d2r M)|
        / two_pi M⌋₊ + 1)
      (isea_rotate_down (two_pi M) (⌊|-a * d2r M| / two_pi M⌋₊ + 1) (-a * d2r M))
      = -(a * (Real.pi / 180)) + ((k1 + k2 : Int) : ℝ) * (2 * Real.pi) := by
    rw [hk2, hk1]
    unfold two_pi d2r
    rw [hpi]
    push_cast
    ring
  unfold isea_rotate
  simp only
  rw [hrad, hcos, hsin, Real.cos_add_int_mul_two_pi, Real.sin_add_int_mul_two_pi, Real.cos_neg,
    Real.sin_neg]
  congr 1 <;> ring

/-- C37: over the exact real library, for every point `(x, y)` and every angle
`a` in degrees, also with `|a| ≥ 360`: both normalisation loops of `isea_rotate`
end within the rounds given (the angle left is below `two_pi` after the first
and above `-two_pi` after the second), and `isea_rotate` returns the
counter-clockwise rotation `(x cos a - y sin a, x sin a + y cos a)`; it
preserves `x^2 + y^2`, and rotating by `a` and then by `b` is rotating by
`a + b`. -/
theorem isea_rotate_rotation (M : Libm ℝ) (hpi : M.pi = Real.pi) (hcos : M.cos = Real.cos)
    (hsin : M.sin = Real.sin) (pt : isea_pt ℝ) (a b : ℝ) :
    (isea_rotate_down (two_pi M) (⌊|-a * d2r M| / two_pi M⌋₊ + 1) (-a * d2r M) < two_pi M ∧
      -two_pi M < isea_rotate_up (two_pi M)
        (⌊|isea_rotate_down (two_pi M) (⌊|-a * d2r M| / two_pi M⌋₊ + 1) (-a * d2r M)|
          / two_pi M⌋₊ + 1)
        (isea_rotate_down (two_pi M) (⌊|-a * d2r M| / two_pi M⌋₊ + 1) (-a * d2r M))) ∧
    isea_rotate M pt a
      = { x := pt.x * Real.cos (a * (Real.pi / 180)) - pt.y * Real.sin (a * (Real.pi / 180))
          y := pt.x * Real.sin (a * (Real.pi / 180)) + pt.y * Real.cos (a * (Real.pi / 180)) } ∧
    (isea_rotate M pt a).x ^ 2 + (isea_rotate M pt a).y ^ 2 = pt.x ^ 2 + pt.y ^ 2 ∧
    isea_rotate M (isea_rotate M pt a) b = isea_rotate M pt (a + b) := by
  have h2pi : 0 < two_pi M := by
    unfold two_pi
    rw [hpi]
    linarith [Real.pi_pos]
  refine ⟨⟨?_, ?_⟩, isea_rotate_real M hpi hcos hsin pt a, ?_, ?_⟩
  · exact isea_rotate_down_exit _ _ _ (isea_rotate_rounds (two_pi M) h2pi _).1
  · exact isea_rotate_up_exit _ _ _ (isea_rotate_rounds (two_pi M) h2pi _).2
  · rw [isea_rotate_real M hpi hcos hsin pt a]
    simp only
    linear_combination (pt.x ^ 2 + pt.y ^ 2) * Real.sin_sq_add_cos_sq (a * (Real.pi / 180))
  · rw [isea_rotate_real M hpi hcos hsin pt a, isea_rotate_real M hpi hcos hsin _ b,
      isea_rotate_real M hpi hcos hsin pt (a + b)]
    simp only
    have e : (a + b) * (Real.pi / 180) = a * (Real.pi / 180) + b * (Real.pi / 180) := by ring
    rw [e, Real.cos_add, Real.sin_add]
    congr 1 <;> ring

/-- Witness of C37: the point (1, 2) turned by 400 degrees and then by -30 degrees. -/
theorem isea_rotate_rotation_witness :
    isea_rotate { pi := Real.pi, cos := Real.cos, sin := Real.sin } { x := 1, y := 2 } 400
      = { x := 1 * Real.cos (400 * (Real.pi / 180)) - 2 * Real.sin (400 * (Real.pi / 180))
          y := 1 * Real.sin (400 * (Real.pi / 180)) + 2 * Real.cos (400 * (Real.pi / 180)) } ∧
    (isea_rotate { pi := Real.pi, cos := Real.cos, sin := Real.sin } { x := 1, y := 2 } 400).x ^ 2
      + (isea_rotate { pi := Real.pi, cos := Real.cos, sin := Real.sin }
          { x := 1, y := 2 } 400).y ^ 2 = (1 : ℝ) ^ 2 + 2 ^ 2 ∧
    isea_rotate { pi := Real.pi, cos := Real.cos, sin := Real.sin }
        (isea_rotate { pi := Real.pi, cos := Real.cos, sin := Real.sin } { x := 1, y := 2 } 400)
        (-30)
      = isea_rotate { pi := Real.pi, cos := Real.cos, sin := Real.sin } { x := 1, y := 2 }
          (400 + -30) :=
  (isea_rotate_rotation { pi := Real.pi, cos := Real.cos, sin := Real.sin } rfl rfl rfl
    { x := 1, y := 2 } 400 (-30)).2

/-! ## Serial numbers in 32-bit arithmetic -/

/-- A value of the range of a 32-bit `int` is held unchanged. -/
theorem int32_of_range (x : Int) (h1 : -2 ^ 31 ≤ x) (h2 : x < 2 ^ 31) : int32 x = x := by
  unfold int32
  omega

/-- The powers of the aperture that keep `10 * hexes + 2` below `2 ^ 31`. -/
theorem hexes_bound (a : Int) (r : Nat) (h : (a = 4 ∧ r ≤ 13) ∨ (a = 3 ∧ r ≤ 17)) :
    1 ≤ a ^ r ∧ 10 * a ^ r + 2 < 2 ^ 31 := by
  rcases h with ⟨rfl, hr⟩ | ⟨rfl, hr⟩
  · have h1 : (4 : Int) ^ r ≤ 4 ^ 13 := pow_le_pow_right₀ (by norm_num) hr
    have h0 : (1 : Int) ≤ 4 ^ r := one_le_pow₀ (by norm_num)
    refine ⟨h0, ?_⟩
    norm_num at h1 ⊢
    omega
  · have h1 : (3 : Int) ^ r ≤ 3 ^ 17 := pow_le_pow_right₀ (by norm_num) hr
    have h0 : (1 : Int) ≤ 3 ^ r := one_le_pow₀ (by norm_num)
    refine ⟨h0, ?_⟩
    norm_num at h1 ⊢
    omega

section WrapClaims

variable {T : Type} [LinearOrderedField T] [FloorRing T]

/-- C38: in 32-bit signed `int` arithmetic, for aperture 4 with resolution
`0 ≤ r ≤ 13` and for aperture 3 with `0 ≤ r ≤ 17`, the south-pole serial
`1 + 10 * hexes + 1` of `isea_disn` and the quad offset `(quad - 1) * hexes`, for
a quad in `1 .. 10`, equal their mathematical values `10 * aperture^r + 2` (the
value returned by `isea_disn` over unbounded integers) and
`(quad - 1) * aperture^r`; at aperture 4 and resolution 14 the value
`10 * 4^14 + 2` exceeds `2^31 - 1` and the 32-bit result is that value less
`2^32`. -/
theorem isea_disn_int32_exact (g : isea_dgg T) (r : Nat) (quad : Int) (di : isea_pt T)
    (hr : g.resolution = (r : Int))
    (ha : (g.aperture = 4 ∧ r ≤ 13) ∨ (g.aperture = 3 ∧ r ≤ 17))
    (hq1 : 1 ≤ quad) (hq10 : quad ≤ 10) :
    isea_disn_int32 g 11 di = 10 * g.aperture ^ r + 2 ∧
    isea_disn_int32 g 11 di = (isea_disn g 11 di).1 ∧
    isea_disn_quad_offset_int32 g quad = (quad - 1) * g.aperture ^ r ∧
    (2 : Int) ^ 31 - 1 < 10 * 4 ^ 14 + 2 ∧
    (∀ g' : isea_dgg T, g'.aperture = 4 → g'.resolution = 14 →
      isea_disn_int32 g' 11 di = 10 * 4 ^ 14 + 2 - 2 ^ 32) := by
  obtain ⟨hp1, hp2⟩ := hexes_bound g.aperture r ha
  have ha0 : 0 ≤ g.aperture := by rcases ha with ⟨h, -⟩ | ⟨h, -⟩ <;> omega
  have hhex : pow_round g.aperture g.resolution = g.aperture ^ r := by
    rw [hr]
    exact pow_round_nat g.aperture r ha0
  have hh32 : isea_disn_hexes_int32 g = g.aperture ^ r := by
    unfold isea_disn_hexes_int32
    rw [hhex]
    exact int32_of_range _ (by omega) (by omega)
  have hpole : isea_disn_int32 g 11 di = 10 * g.aperture ^ r + 2 := by
    simp only [isea_disn_int32, hh32]
    generalize g.aperture ^ r = n at hp1 hp2
    rw [int32_of_range (10 * n) (by omega) (by omega),
      int32_of_range (1 + 10 * n) (by omega) (by omega),
      int32_of_range (1 + 10 * n + 1) (by omega) (by omega)]
    simp
    ring
  refine ⟨hpole, ?_, ?_, by norm_num, ?_⟩
  · rw [hpole]
    simp only [isea_disn, hhex]
    simp
    ring
  · unfold isea_disn_quad_offset_int32
    rw [hh32]
    generalize g.aperture ^ r = n at hp1 hp2
    rw [int32_of_range (quad - 1) (by omega) (by omega)]
    apply int32_of_range
    · nlinarith
    · nlinarith
  · intro g' ha' hr'
    have h14 : pow_round g'.aperture g'.resolution = 4 ^ 14 := by
      rw [ha', hr']
      exact pow_round_nat 4 14 (by norm_num)
    have e : int32 (int32 (1 + int32 (10 * int32 (4 ^ 14))) + 1) = 10 * 4 ^ 14 + 2 - 2 ^ 32 := by
      decide
    simp only [isea_disn_int32, isea_disn_hexes_int32, h14]
    rw [if_neg (by decide), if_pos trivial]
    exact e

end WrapClaims

/-- Witness of C38: aperture 4 at resolution 13 and quad 10. -/
theorem isea_disn_int32_exact_witness :
    isea_disn_int32 (sample_dgg ℚ 4 13 isea_address_form.ISEA_SEQNUM) 11 { x := 0, y := 0 }
      = 10 * (sample_dgg ℚ 4 13 isea_address_form.ISEA_SEQNUM).aperture ^ 13 + 2 ∧
    isea_disn_int32 (sample_dgg ℚ 4 13 isea_address_form.ISEA_SEQNUM) 11 { x := 0, y := 0 }
      = (isea_disn (sample_dgg ℚ 4 13 isea_address_form.ISEA_SEQNUM) 11 { x := 0, y := 0 }).1 ∧
    isea_disn_quad_offset_int32 (sample_dgg ℚ 4 13 isea_address_form.ISEA_SEQNUM) 10
      = (10 - 1) * (sample_dgg ℚ 4 13 isea_address_form.ISEA_SEQNUM).aperture ^ 13 ∧
    (2 : Int) ^ 31 - 1 < 10 * 4 ^ 14 + 2 ∧
    (∀ g' : isea_dgg ℚ, g'.aperture = 4 → g'.resolution = 14 →
      isea_disn_int32 g' 11 { x := 0, y := 0 } = 10 * 4 ^ 14 + 2 - 2 ^ 32) :=
  isea_disn_int32_exact (sample_dgg ℚ 4 13 isea_address_form.ISEA_SEQNUM) 13 10
    { x := 0, y := 0 } rfl (Or.inl ⟨rfl, by decide⟩) (by decide) (by decide)

end Isea
